import Mathlib

/-! # A2DP SBC encoder feeder and packetizer

Shallow embedding of `stack/a2dp/a2d_sbc_encoder.cc`.

Conventions of the embedding:

* C integers are `Int`/`Nat` values; every narrowing conversion of the source
  (`int16_t`, `uint16_t`, `uint8_t`, `uint32_t`) is an explicit wrap below.
  Arithmetic done by the source in `int` is wrapped to 32 bits (two's
  complement) where it is divided, compared or stored.
* C division truncates towards zero: `Int.tdiv`.
* Constants and functions that the file takes from headers which are not part
  of it (`sbc_encoder.h`, `bt_target.h`, the codec) are fields of `Platform`.
-/

namespace A2dSbc

/-! ## Machine integers -/

/-- Conversion to `int16_t`. -/
def toInt16 (x : Int) : Int := (x + 32768) % 65536 - 32768

/-- Conversion to `int` (32 bits). -/
def toInt32 (x : Int) : Int := (x + 2147483648) % 4294967296 - 2147483648

/-- Conversion to `uint8_t`. -/
def toUInt8 (x : Int) : Nat := (x % 256).toNat

/-- Conversion to `uint16_t`. -/
def toUInt16 (x : Int) : Nat := (x % 65536).toNat

/-- Conversion to `uint32_t`. -/
def toUInt32 (x : Int) : Nat := (x % 4294967296).toNat

/-! ## Data model -/

/-- The fields of `SBC_ENC_PARAMS` that the file reads or writes. -/
structure SBC_ENC_PARAMS where
  s16ChannelMode : Int
  s16NumOfSubBands : Int
  s16NumOfBlocks : Int
  s16AllocationMethod : Int
  s16SamplingFreq : Int
  s16NumOfChannels : Int
  s16BitPool : Int
  u16BitRate : Nat
  u16PacketLength : Nat
deriving DecidableEq, Repr

/-- The PCM source description, `tA2D_FEEDING_PARAMS`. -/
structure tA2D_FEEDING_PARAMS where
  sampling_freq : Nat
  num_channel : Nat
  bit_per_sample : Nat
deriving DecidableEq, Repr

/-- The per-session feeding state, `tA2D_FEEDING_STATE`. -/
structure tA2D_FEEDING_STATE where
  aa_frame_counter : Nat
  aa_feed_counter : Int
  aa_feed_residue : Int
  counter : Nat
  bytes_per_tick : Nat
  last_frame_us : Nat
deriving DecidableEq, Repr

/-- The statistics block, `a2d_sbc_encoder_stats_t`. -/
structure a2d_sbc_encoder_stats_t where
  session_start_us : Nat
  media_read_total_expected_frames : Nat
  media_read_max_expected_frames : Nat
  media_read_expected_count : Nat
  media_read_total_limited_frames : Nat
  media_read_max_limited_frames : Nat
  media_read_limited_count : Nat
deriving DecidableEq, Repr

/-- The control block `tA2D_SBC_ENCODER_CB` (the two callbacks are part of the
environment, see `Callbacks`). -/
structure tA2D_SBC_ENCODER_CB where
  TxAaMtuSize : Nat
  tx_sbc_frames : Nat
  is_peer_edr : Bool
  peer_supports_3mbps : Bool
  timestamp : Nat
  sbc_encoder_params : SBC_ENC_PARAMS
  feeding_params : tA2D_FEEDING_PARAMS
  feeding_state : tA2D_FEEDING_STATE
  stats : a2d_sbc_encoder_stats_t
deriving DecidableEq, Repr

/-- The fields of `tA2D_ENCODER_INIT_PARAMS`. -/
structure tA2D_ENCODER_INIT_PARAMS where
  SamplingFreq : Int
  ChannelMode : Int
  NumOfSubBands : Int
  NumOfBlocks : Int
  AllocationMethod : Int
  MtuSize : Nat
deriving DecidableEq, Repr

/-- The fields of `tA2D_ENCODER_UPDATE_PARAMS` (unsigned in the source). -/
structure tA2D_ENCODER_UPDATE_PARAMS where
  MinMtuSize : Nat
  MaxBitPool : Nat
  MinBitPool : Nat
deriving DecidableEq, Repr

/-- What the file takes from outside: the enumeration codes of
`sbc_encoder.h`, the per-tick frame limit of `bt_target.h`, the
frame dimension of the static resampling buffers, the MTU that the
media buffer leaves (`A2D_SBC_BUFFER_SIZE - A2D_SBC_OFFSET - sizeof(BT_HDR)`,
held in a `uint16_t`), the SCMS-T build switch, and the two codec entry
points (`SBC_Encoder_Init` on the parameter block, and the length of the
frame that `SBC_Encoder` writes, which it leaves in `u16PacketLength`). -/
structure Platform where
  SBC_MONO : Int
  SBC_DUAL : Int
  SBC_STEREO : Int
  SBC_JOINT_STEREO : Int
  SBC_sf16000 : Int
  SBC_sf32000 : Int
  SBC_sf44100 : Int
  SBC_sf48000 : Int
  MAX_PCM_FRAME_NUM_PER_TICK : Nat
  SBC_MAX_NUM_FRAME : Nat
  mtu_size : Nat
  scms_t : Bool
  SBC_Encoder_Init : SBC_ENC_PARAMS → SBC_ENC_PARAMS
  SBC_Encoder : SBC_ENC_PARAMS → Nat

/-- The codes are usable as the `case` labels of the two `switch` statements
of the file: the channel-mode codes are pairwise distinct and so are the
sampling-frequency codes. -/
def Platform.WellFormed (P : Platform) : Prop :=
  [P.SBC_MONO, P.SBC_DUAL, P.SBC_STEREO, P.SBC_JOINT_STEREO].Nodup ∧
  [P.SBC_sf16000, P.SBC_sf32000, P.SBC_sf44100, P.SBC_sf48000].Nodup

instance (P : Platform) : Decidable P.WellFormed := by
  unfold Platform.WellFormed; exact inferInstance

/-- Modelled from the spec: the maximum the zero sub-band count is reset to
(`SBC_MAX_NUM_OF_SUBBANDS`, not defined in the file). -/
def SBC_MAX_NUM_OF_SUBBANDS : Int := 8

/-- Modelled from the spec: the maximum the zero block count is reset to
(`SBC_MAX_NUM_OF_BLOCKS`, not defined in the file). -/
def SBC_MAX_NUM_OF_BLOCKS : Int := 16

/-- Modelled from the spec: the maximum the zero channel count is reset to
(`SBC_MAX_NUM_OF_CHANNELS`, not defined in the file). -/
def SBC_MAX_NUM_OF_CHANNELS : Int := 2

def A2D_SBC_ENCODER_INTERVAL_MS : Nat := 20
def A2D_SBC_DEFAULT_BITRATE : Nat := 328
def A2D_SBC_NON_EDR_MAX_RATE : Nat := 229
def MAX_2MBPS_AVDTP_MTU : Nat := 663
def A2D_SBC_MAX_PCM_ITER_NUM_PER_TICK : Nat := 3
def A2D_SBC_MAX_HQ_FRAME_SIZE_44_1 : Nat := 119
def A2D_SBC_MAX_HQ_FRAME_SIZE_48 : Nat := 115
def A2D_SBC_BITRATE_STEP : Nat := 5
def A2D_SBC_FRAME_HEADER_SIZE_BYTES : Int := 4
def A2D_SBC_SCALE_FACTOR_BITS : Int := 4
def CHAR_BIT : Nat := 8

/-- `A2DP_HDR_SIZE`: 2 when SCMS-T is compiled in, 1 otherwise. -/
def A2DP_HDR_SIZE (P : Platform) : Nat := if P.scms_t then 2 else 1

/-! ## Rate model -/

/-- `a2d_sbc_source_rate`. -/
def a2d_sbc_source_rate (cb : tA2D_SBC_ENCODER_CB) : Nat :=
  if !cb.is_peer_edr then A2D_SBC_NON_EDR_MAX_RATE else A2D_SBC_DEFAULT_BITRATE

/-- `a2d_sbc_frame_length`: the products are formed in `int`, converted to
`uint32_t`, divided by `CHAR_BIT`, and summed in `uint32_t`. -/
def a2d_sbc_frame_length (P : Platform) (p : SBC_ENC_PARAMS) : Nat :=
  if p.s16ChannelMode = P.SBC_MONO ∨ p.s16ChannelMode = P.SBC_DUAL then
    toUInt32 (A2D_SBC_FRAME_HEADER_SIZE_BYTES +
      (toUInt32 (A2D_SBC_SCALE_FACTOR_BITS * p.s16NumOfSubBands *
          p.s16NumOfChannels) / CHAR_BIT : Nat) +
      (toUInt32 (p.s16NumOfBlocks * p.s16NumOfChannels * p.s16BitPool) / CHAR_BIT : Nat))
  else if p.s16ChannelMode = P.SBC_STEREO then
    toUInt32 (A2D_SBC_FRAME_HEADER_SIZE_BYTES +
      (toUInt32 (A2D_SBC_SCALE_FACTOR_BITS * p.s16NumOfSubBands *
          p.s16NumOfChannels) / CHAR_BIT : Nat) +
      (toUInt32 (p.s16NumOfBlocks * p.s16BitPool) / CHAR_BIT : Nat))
  else if p.s16ChannelMode = P.SBC_JOINT_STEREO then
    toUInt32 (A2D_SBC_FRAME_HEADER_SIZE_BYTES +
      (toUInt32 (A2D_SBC_SCALE_FACTOR_BITS * p.s16NumOfSubBands *
          p.s16NumOfChannels) / CHAR_BIT : Nat) +
      (toUInt32 (p.s16NumOfSubBands +
          p.s16NumOfBlocks * p.s16BitPool) / CHAR_BIT : Nat))
  else 0

/-! ## Bit-pool negotiator -/

/-- The Hz value that `a2d_sbc_encoder_update` associates with the sampling
frequency code (`uint16_t s16SamplingFreq`). -/
def samplingFreqHz (P : Platform) (p : SBC_ENC_PARAMS) : Nat :=
  if p.s16SamplingFreq = P.SBC_sf16000 then 16000
  else if p.s16SamplingFreq = P.SBC_sf32000 then 32000
  else if p.s16SamplingFreq = P.SBC_sf44100 then 44100
  else 48000

/-- The stereo / joint-stereo branch of the loop body of
`a2d_sbc_encoder_update`, at the target rate `p.u16BitRate`: the estimate,
the frame length and bit rate it implies, the conditional decrement and the
upper clamp of the local `s16BitPool`. -/
def estimateStereo (p : SBC_ENC_PARAMS) (s16SamplingFreq : Nat) : Int :=
  let s16BitPool := toInt16 (toInt32
    (Int.tdiv (toInt32 (p.u16BitRate * p.s16NumOfSubBands * 1000)) s16SamplingFreq
      - Int.tdiv (toInt32 (32 + 4 * p.s16NumOfSubBands * p.s16NumOfChannels
          + (p.s16ChannelMode - 2) * p.s16NumOfSubBands)) p.s16NumOfBlocks))
  let s16FrameLen := toInt16 (toInt32
    (4 + Int.tdiv (toInt32 (4 * p.s16NumOfSubBands * p.s16NumOfChannels)) 8
      + Int.tdiv (toInt32 ((p.s16ChannelMode - 2) * p.s16NumOfSubBands
          + p.s16NumOfBlocks * s16BitPool)) 8))
  let s16BitRate := toInt16
    (Int.tdiv (toInt32 (8 * s16FrameLen * s16SamplingFreq))
      (toInt32 (p.s16NumOfSubBands * p.s16NumOfBlocks * 1000)))
  let s16BitPool :=
    if s16BitRate > (p.u16BitRate : Int) then toInt16 (s16BitPool - 1) else s16BitPool
  if p.s16NumOfSubBands = 8 then
    (if s16BitPool > 255 then 255 else s16BitPool)
  else
    (if s16BitPool > 128 then 128 else s16BitPool)

/-- The mono / dual branch of the loop body: the value of the local
`s16BitPool`. (The source also stores a copy clamped to
`16 * s16NumOfSubBands` in `p_encoder_params->s16BitPool`, see
`monoClampedStore`; the local is left unclamped and the store is overwritten
after the loop.) -/
def estimateMono (p : SBC_ENC_PARAMS) (s16SamplingFreq : Nat) : Int :=
  toInt16 (toInt32
    (Int.tdiv (toInt32 (p.s16NumOfSubBands * p.u16BitRate * 1000))
        (toInt32 (s16SamplingFreq * p.s16NumOfChannels))
      - Int.tdiv (toInt32 (Int.tdiv 32 p.s16NumOfChannels + 4 * p.s16NumOfSubBands))
          p.s16NumOfBlocks))

/-- The value that the mono / dual branch stores in
`p_encoder_params->s16BitPool` inside the loop. -/
def monoClampedStore (p : SBC_ENC_PARAMS) (s16SamplingFreq : Nat) : Int :=
  let s16BitPool := estimateMono p s16SamplingFreq
  if s16BitPool > toInt32 (16 * p.s16NumOfSubBands) then toInt32 (16 * p.s16NumOfSubBands)
  else s16BitPool

/-- One evaluation of the bit-pool candidate in the loop body of
`a2d_sbc_encoder_update`, at the target rate `p.u16BitRate`, up to and
including `if (s16BitPool < 0) s16BitPool = 0`. -/
def bitpoolCandidate (P : Platform) (p : SBC_ENC_PARAMS) (s16SamplingFreq : Nat) : Int :=
  let s16BitPool : Int :=
    if p.s16ChannelMode = P.SBC_JOINT_STEREO ∨ p.s16ChannelMode = P.SBC_STEREO then
      estimateStereo p s16SamplingFreq
    else
      estimateMono p s16SamplingFreq
  if s16BitPool < 0 then 0 else s16BitPool

/-- The state in which the `do ... while (true)` loop of
`a2d_sbc_encoder_update` is left: the locals `s16BitPool` and `protect`, the
target rate, and, for reference, the list of the target rates at which a
candidate was evaluated, each with the value `protect` had at that moment. -/
structure Negotiation where
  u16BitRate : Nat
  s16BitPool : Int
  protect : Nat
  visited : List (Nat × Nat)
deriving DecidableEq, Repr

/-- The negotiation loop of `a2d_sbc_encoder_update`; `cand r` is the
candidate that the loop body computes at the target rate `r`. `fuel` bounds
the number of iterations; `none` means the loop is still running when it is
used up. -/
def negotiate (p : SBC_ENC_PARAMS) (cand : Nat → Int) (u : tA2D_ENCODER_UPDATE_PARAMS) :
    Nat → Nat → Int → Nat → Option Negotiation
  | 0, _, _, _ => none
  | fuel + 1, u16BitRate, s16BitPool, protect =>
    if p.s16NumOfBlocks = 0 ∨ p.s16NumOfSubBands = 0 ∨ p.s16NumOfChannels = 0 then
      some ⟨u16BitRate, s16BitPool, protect, []⟩
    else
      let s16BitPool := cand u16BitRate
      if s16BitPool > (u.MaxBitPool : Int) then
        let u16BitRate1 := toUInt16 ((u16BitRate : Int) - A2D_SBC_BITRATE_STEP)
        let protect1 := protect ||| 1
        if protect1 = 3 then
          some ⟨u16BitRate1, s16BitPool, protect1, [(u16BitRate, protect)]⟩
        else
          (negotiate p cand u fuel u16BitRate1 s16BitPool protect1).map
            fun r => { r with visited := (u16BitRate, protect) :: r.visited }
      else if s16BitPool < (u.MinBitPool : Int) then
        let previous_u16BitRate := u16BitRate
        let u16BitRate1 := toUInt16 ((u16BitRate : Int) + A2D_SBC_BITRATE_STEP)
        let protect1 := protect ||| 2
        let protect2 := if u16BitRate1 < previous_u16BitRate then protect1 ||| 3 else protect1
        if protect2 = 3 then
          some ⟨u16BitRate1, s16BitPool, protect2, [(u16BitRate, protect)]⟩
        else
          (negotiate p cand u fuel u16BitRate1 s16BitPool protect2).map
            fun r => { r with visited := (u16BitRate, protect) :: r.visited }
      else
        some ⟨u16BitRate, s16BitPool, protect, [(u16BitRate, protect)]⟩

/-- The three `if (!...)` resets that open `a2d_sbc_encoder_update` and
`calculate_max_frames_per_packet`. -/
def resetZeroFields (p : SBC_ENC_PARAMS) : SBC_ENC_PARAMS :=
  let p := if p.s16NumOfSubBands = 0 then
    { p with s16NumOfSubBands := SBC_MAX_NUM_OF_SUBBANDS } else p
  let p := if p.s16NumOfBlocks = 0 then
    { p with s16NumOfBlocks := SBC_MAX_NUM_OF_BLOCKS } else p
  if p.s16NumOfChannels = 0 then
    { p with s16NumOfChannels := SBC_MAX_NUM_OF_CHANNELS } else p

/-- `calculate_max_frames_per_packet`: the value returned (a `uint8_t`) and
the control block it leaves. The quotient is formed in `uint32_t` (the
dividend `effective_mtu_size - A2DP_HDR_SIZE` is an `int` converted to
unsigned), stored in the `uint16_t result` and returned as `uint8_t`. -/
def calculate_max_frames_per_packet (P : Platform) (cb : tA2D_SBC_ENCODER_CB) :
    Nat × tA2D_SBC_ENCODER_CB :=
  let effective_mtu_size := cb.TxAaMtuSize
  let clamp := cb.is_peer_edr && !cb.peer_supports_3mbps &&
    decide (effective_mtu_size > MAX_2MBPS_AVDTP_MTU)
  let effective_mtu_size := if clamp then MAX_2MBPS_AVDTP_MTU else effective_mtu_size
  let cb := if clamp then { cb with TxAaMtuSize := effective_mtu_size } else cb
  let cb := { cb with sbc_encoder_params := resetZeroFields cb.sbc_encoder_params }
  let p := cb.sbc_encoder_params
  let frame_len := a2d_sbc_frame_length P p
  let result : Nat :=
    if p.s16SamplingFreq = P.SBC_sf44100 then
      let frame_len := if frame_len = 0 then A2D_SBC_MAX_HQ_FRAME_SIZE_44_1 else frame_len
      toUInt16 (toUInt32 ((effective_mtu_size : Int) - A2DP_HDR_SIZE P) / frame_len : Nat)
    else if p.s16SamplingFreq = P.SBC_sf48000 then
      let frame_len := if frame_len = 0 then A2D_SBC_MAX_HQ_FRAME_SIZE_48 else frame_len
      toUInt16 (toUInt32 ((effective_mtu_size : Int) - A2DP_HDR_SIZE P) / frame_len : Nat)
    else 0
  (toUInt8 result, cb)

/-- The all-zero control block left by `memset`. -/
def zeroCb : tA2D_SBC_ENCODER_CB :=
  { TxAaMtuSize := 0, tx_sbc_frames := 0, is_peer_edr := false,
    peer_supports_3mbps := false, timestamp := 0,
    sbc_encoder_params := ⟨0, 0, 0, 0, 0, 0, 0, 0, 0⟩,
    feeding_params := ⟨0, 0, 0⟩,
    feeding_state := ⟨0, 0, 0, 0, 0, 0⟩,
    stats := ⟨0, 0, 0, 0, 0, 0, 0⟩ }

/-- `a2d_sbc_encoder_init`; `now_us` is the value of
`time_get_os_boottime_us()`. -/
def a2d_sbc_encoder_init (P : Platform) (now_us : Nat)
    (is_peer_edr peer_supports_3mbps : Bool)
    (p_init_params : tA2D_ENCODER_INIT_PARAMS) : tA2D_SBC_ENCODER_CB :=
  let cb := zeroCb
  let cb := { cb with stats := { cb.stats with session_start_us := now_us } }
  let cb := { cb with is_peer_edr := is_peer_edr,
                      peer_supports_3mbps := peer_supports_3mbps,
                      timestamp := 0 }
  let p := { cb.sbc_encoder_params with
    s16ChannelMode := p_init_params.ChannelMode,
    s16NumOfSubBands := p_init_params.NumOfSubBands,
    s16NumOfBlocks := p_init_params.NumOfBlocks,
    s16AllocationMethod := p_init_params.AllocationMethod,
    s16SamplingFreq := p_init_params.SamplingFreq }
  let p := { p with u16BitRate := a2d_sbc_source_rate cb }
  let mtu_size := P.mtu_size
  let cb := { cb with
    sbc_encoder_params := p,
    TxAaMtuSize := if mtu_size < p_init_params.MtuSize then mtu_size
                   else p_init_params.MtuSize }
  let cb := { cb with sbc_encoder_params := P.SBC_Encoder_Init cb.sbc_encoder_params }
  let r := calculate_max_frames_per_packet P cb
  { r.2 with tx_sbc_frames := r.1 }

/-- The part of `a2d_sbc_encoder_update` that precedes the loop: the resets,
the MTU and the initial target rate. -/
def updatePrepare (P : Platform) (cb : tA2D_SBC_ENCODER_CB)
    (u : tA2D_ENCODER_UPDATE_PARAMS) : tA2D_SBC_ENCODER_CB :=
  let cb := { cb with sbc_encoder_params := resetZeroFields cb.sbc_encoder_params }
  let mtu_size := P.mtu_size
  let cb := { cb with
    TxAaMtuSize := if mtu_size < u.MinMtuSize then mtu_size else u.MinMtuSize }
  { cb with sbc_encoder_params :=
      { cb.sbc_encoder_params with u16BitRate := a2d_sbc_source_rate cb } }

/-- The negotiation loop as `a2d_sbc_encoder_update` runs it, from
`s16BitPool = 0` and `protect = 0` at the source rate. -/
def updateNegotiation (P : Platform) (fuel : Nat) (cb : tA2D_SBC_ENCODER_CB)
    (u : tA2D_ENCODER_UPDATE_PARAMS) : Option Negotiation :=
  let cb := updatePrepare P cb u
  negotiate cb.sbc_encoder_params
    (fun r => bitpoolCandidate P { cb.sbc_encoder_params with u16BitRate := r }
      (samplingFreqHz P cb.sbc_encoder_params))
    u fuel cb.sbc_encoder_params.u16BitRate 0 0

/-- The control block right after `p_encoder_params->s16BitPool = s16BitPool`,
the commit that follows the loop, for a loop left in the state `n`. -/
def updateCommit (P : Platform) (cb : tA2D_SBC_ENCODER_CB)
    (u : tA2D_ENCODER_UPDATE_PARAMS) (n : Negotiation) : tA2D_SBC_ENCODER_CB :=
  let cb := updatePrepare P cb u
  { cb with sbc_encoder_params :=
      { cb.sbc_encoder_params with
        u16BitRate := n.u16BitRate, s16BitPool := n.s16BitPool } }

/-- `a2d_sbc_encoder_update`: `none` when the negotiation loop does not come
to an end within `fuel` iterations. -/
def a2d_sbc_encoder_update (P : Platform) (fuel : Nat) (cb : tA2D_SBC_ENCODER_CB)
    (u : tA2D_ENCODER_UPDATE_PARAMS) : Option tA2D_SBC_ENCODER_CB :=
  (updateNegotiation P fuel cb u).map fun n =>
    let cb := updateCommit P cb u n
    let cb := { cb with sbc_encoder_params := P.SBC_Encoder_Init cb.sbc_encoder_params }
    let r := calculate_max_frames_per_packet P cb
    { r.2 with tx_sbc_frames := r.1 }

/-- The bit-pool candidate that the loop body of `a2d_sbc_encoder_update`
computes for the control block `cb` at the target rate `r` (the value of the
local `s16BitPool` after `if (s16BitPool < 0) s16BitPool = 0`). -/
def updateCandidate (P : Platform) (cb : tA2D_SBC_ENCODER_CB)
    (u : tA2D_ENCODER_UPDATE_PARAMS) (r : Nat) : Int :=
  bitpoolCandidate P { (updatePrepare P cb u).sbc_encoder_params with u16BitRate := r }
    (samplingFreqHz P (updatePrepare P cb u).sbc_encoder_params)

/-- The rate was lowered: at one of the rates `visited` the candidate was
above `MaxBitPool`, the test of the branch `u16BitRate -= A2D_SBC_BITRATE_STEP;
protect |= 1`. -/
def RateLowered (cand : Nat → Int) (u : tA2D_ENCODER_UPDATE_PARAMS)
    (visited : List (Nat × Nat)) : Prop :=
  ∃ e ∈ visited, cand e.1 > (u.MaxBitPool : Int)

/-- The rate was raised: at one of the rates `visited` the candidate was not
above `MaxBitPool` and was below `MinBitPool`, the test of the branch
`u16BitRate += A2D_SBC_BITRATE_STEP; protect |= 2`. -/
def RateRaised (cand : Nat → Int) (u : tA2D_ENCODER_UPDATE_PARAMS)
    (visited : List (Nat × Nat)) : Prop :=
  ∃ e ∈ visited, ¬ cand e.1 > (u.MaxBitPool : Int) ∧ cand e.1 < (u.MinBitPool : Int)

/-- The increment of the rate overflowed: at one of the rates `visited` the
rate was raised and the 16-bit sum came out below the rate it was raised from,
the test `u16BitRate < previous_u16BitRate` of `protect |= 3`. -/
def RateOverflowed (cand : Nat → Int) (u : tA2D_ENCODER_UPDATE_PARAMS)
    (visited : List (Nat × Nat)) : Prop :=
  ∃ e ∈ visited, (¬ cand e.1 > (u.MaxBitPool : Int) ∧ cand e.1 < (u.MinBitPool : Int)) ∧
    toUInt16 ((e.1 : Int) + A2D_SBC_BITRATE_STEP) < e.1

/-! ## Feeding state and frame budgeter -/

/-- `a2d_sbc_feeding_reset` (the arithmetic is unsigned 32-bit). -/
def a2d_sbc_feeding_reset (cb : tA2D_SBC_ENCODER_CB) : tA2D_SBC_ENCODER_CB :=
  { cb with feeding_state :=
      { aa_frame_counter := 0, aa_feed_counter := 0, aa_feed_residue := 0,
        counter := 0, last_frame_us := 0,
        bytes_per_tick :=
          toUInt32 (toUInt32 (toUInt32 (cb.feeding_params.sampling_freq *
              cb.feeding_params.bit_per_sample) / 8 *
            cb.feeding_params.num_channel * A2D_SBC_ENCODER_INTERVAL_MS : Nat) / 1000 : Nat) } }

/-- The PCM bytes behind one SBC frame, as `a2d_sbc_get_num_frame_iteration`
computes them (`int` arithmetic stored in a `uint32_t`). -/
def pcm_bytes_per_frame (cb : tA2D_SBC_ENCODER_CB) : Nat :=
  toUInt32 (Int.tdiv (toInt32 (cb.sbc_encoder_params.s16NumOfSubBands *
    cb.sbc_encoder_params.s16NumOfBlocks *
    cb.feeding_params.num_channel *
    cb.feeding_params.bit_per_sample)) 8)

/-- `a2d_sbc_get_num_frame_iteration`: the pair
`(num_of_iterations, num_of_frames)` and the control block it leaves, for a
control block with `0 < pcm_bytes_per_frame cb`. With
`pcm_bytes_per_frame cb = 0` the source divides by zero at
`projected_nof = counter / pcm_bytes_per_frame` and the call does not return;
the value of this definition there (the quotient of `Nat` is 0) describes no
run of the program. -/
def a2d_sbc_get_num_frame_iteration (P : Platform) (cb : tA2D_SBC_ENCODER_CB)
    (timestamp_us : Nat) : (Nat × Nat) × tA2D_SBC_ENCODER_CB :=
  let pcm_bytes_per_frame := pcm_bytes_per_frame cb
  let now_us := timestamp_us
  let us_this_tick : Nat :=
    if cb.feeding_state.last_frame_us ≠ 0 then
      toUInt32 (((now_us : Int) - cb.feeding_state.last_frame_us) % 18446744073709551616)
    else A2D_SBC_ENCODER_INTERVAL_MS * 1000
  let counter := toUInt32 (cb.feeding_state.counter +
    toUInt32 (cb.feeding_state.bytes_per_tick * us_this_tick : Nat) /
      (A2D_SBC_ENCODER_INTERVAL_MS * 1000) : Nat)
  let projected_nof := counter / pcm_bytes_per_frame
  let stats := { cb.stats with
    media_read_max_expected_frames :=
      if projected_nof > cb.stats.media_read_max_expected_frames then projected_nof
      else cb.stats.media_read_max_expected_frames
    media_read_total_expected_frames :=
      cb.stats.media_read_total_expected_frames + projected_nof
    media_read_expected_count := cb.stats.media_read_expected_count + 1 }
  let limited := decide (projected_nof > P.MAX_PCM_FRAME_NUM_PER_TICK)
  let delta := projected_nof - P.MAX_PCM_FRAME_NUM_PER_TICK
  let stats := if limited then
    { stats with
      media_read_limited_count := stats.media_read_limited_count + 1
      media_read_total_limited_frames := stats.media_read_total_limited_frames + delta
      media_read_max_limited_frames :=
        if delta > stats.media_read_max_limited_frames then delta
        else stats.media_read_max_limited_frames }
    else stats
  let projected_nof := if limited then P.MAX_PCM_FRAME_NUM_PER_TICK else projected_nof
  let cb := { cb with
    stats := stats
    feeding_state := { cb.feeding_state with last_frame_us := now_us, counter := counter } }
  if cb.is_peer_edr then
    let cb := if cb.tx_sbc_frames = 0 then
      (let r := calculate_max_frames_per_packet P cb
       { r.2 with tx_sbc_frames := r.1 })
      else cb
    let nof := cb.tx_sbc_frames
    if nof = 0 then
      let nof := toUInt8 projected_nof
      let noi := 1
      ((noi, nof), { cb with feeding_state := { cb.feeding_state with
        counter := toUInt32 ((cb.feeding_state.counter : Int)
          - toUInt32 (noi * nof * pcm_bytes_per_frame : Nat)) } })
    else if nof < projected_nof then
      let noi := toUInt8 (projected_nof / nof : Nat)
      let congested := decide (noi > A2D_SBC_MAX_PCM_ITER_NUM_PER_TICK)
      let noi := if congested then A2D_SBC_MAX_PCM_ITER_NUM_PER_TICK else noi
      let counter := if congested then toUInt32 (noi * nof * pcm_bytes_per_frame : Nat)
        else cb.feeding_state.counter
      ((noi, nof), { cb with feeding_state := { cb.feeding_state with
        counter := toUInt32 ((counter : Int)
          - toUInt32 (noi * nof * pcm_bytes_per_frame : Nat)) } })
    else
      let noi := 1
      let nof := toUInt8 projected_nof
      ((noi, nof), { cb with feeding_state := { cb.feeding_state with
        counter := toUInt32 ((cb.feeding_state.counter : Int)
          - toUInt32 (noi * nof * pcm_bytes_per_frame : Nat)) } })
  else
    let noi := 1
    let congested := decide (projected_nof > P.MAX_PCM_FRAME_NUM_PER_TICK)
    let projected_nof := if congested then P.MAX_PCM_FRAME_NUM_PER_TICK else projected_nof
    let counter := if congested then toUInt32 (noi * projected_nof * pcm_bytes_per_frame : Nat)
      else cb.feeding_state.counter
    let nof := toUInt8 projected_nof
    ((noi, nof), { cb with feeding_state := { cb.feeding_state with
      counter := toUInt32 ((counter : Int)
        - toUInt32 (noi * nof * pcm_bytes_per_frame : Nat)) } })

/-- `a2d_sbc_feeding_init`: the PCM source is saved, the codec sampling
frequency is set from the source rate, MONO is replaced by JOINT_STEREO, and
the codec is initialised again when either store was made. The codes are
stored as they are: they are values of the `int16_t` fields they are compared
with. -/
def a2d_sbc_feeding_init (P : Platform) (cb : tA2D_SBC_ENCODER_CB)
    (p_feeding_params : tA2D_FEEDING_PARAMS) : tA2D_SBC_ENCODER_CB :=
  let cb := { cb with feeding_params := p_feeding_params }
  let p := cb.sbc_encoder_params
  let reconfig_needed := false
  let r : SBC_ENC_PARAMS × Bool :=
    if p_feeding_params.sampling_freq = 8000 ∨ p_feeding_params.sampling_freq = 12000 ∨
        p_feeding_params.sampling_freq = 16000 ∨ p_feeding_params.sampling_freq = 24000 ∨
        p_feeding_params.sampling_freq = 32000 ∨ p_feeding_params.sampling_freq = 48000 then
      if p.s16SamplingFreq ≠ P.SBC_sf48000 then
        ({ p with s16SamplingFreq := P.SBC_sf48000 }, true)
      else (p, reconfig_needed)
    else if p_feeding_params.sampling_freq = 11025 ∨
        p_feeding_params.sampling_freq = 22050 ∨
        p_feeding_params.sampling_freq = 44100 then
      if p.s16SamplingFreq ≠ P.SBC_sf44100 then
        ({ p with s16SamplingFreq := P.SBC_sf44100 }, true)
      else (p, reconfig_needed)
    else (p, reconfig_needed)
  let p := r.1
  let reconfig_needed := r.2
  let r : SBC_ENC_PARAMS × Bool :=
    if p.s16ChannelMode = P.SBC_MONO then
      ({ p with s16ChannelMode := P.SBC_JOINT_STEREO }, true)
    else (p, reconfig_needed)
  let p := r.1
  let reconfig_needed := r.2
  if reconfig_needed then { cb with sbc_encoder_params := P.SBC_Encoder_Init p }
  else { cb with sbc_encoder_params := p }

/-- `a2d_sbc_feeding_flush`. -/
def a2d_sbc_feeding_flush (cb : tA2D_SBC_ENCODER_CB) : tA2D_SBC_ENCODER_CB :=
  { cb with feeding_state := { cb.feeding_state with counter := 0, aa_feed_residue := 0 } }

/-- The elapsed time that `a2d_sbc_get_num_frame_iteration` takes for the tick
at `now_us`: `us_this_tick`, a `uint32_t` that receives the 64-bit difference
`now_us - last_frame_us` unless `last_frame_us` is 0. -/
def us_this_tick (cb : tA2D_SBC_ENCODER_CB) (now_us : Nat) : Nat :=
  if cb.feeding_state.last_frame_us ≠ 0 then
    toUInt32 (((now_us : Int) - cb.feeding_state.last_frame_us) % 18446744073709551616)
  else A2D_SBC_ENCODER_INTERVAL_MS * 1000

/-- The credit that `a2d_sbc_get_num_frame_iteration` adds to `counter` for
the tick at `now_us`:
`bytes_per_tick * us_this_tick / (A2D_SBC_ENCODER_INTERVAL_MS * 1000)` in
`uint32_t` arithmetic. -/
def tickCredit (cb : tA2D_SBC_ENCODER_CB) (now_us : Nat) : Nat :=
  toUInt32 (cb.feeding_state.bytes_per_tick * us_this_tick cb now_us : Nat) /
    (A2D_SBC_ENCODER_INTERVAL_MS * 1000)

/-- The value of `counter` after the statement `counter += ...` of
`a2d_sbc_get_num_frame_iteration`. -/
def creditedCounter (cb : tA2D_SBC_ENCODER_CB) (now_us : Nat) : Nat :=
  toUInt32 (cb.feeding_state.counter + tickCredit cb now_us : Nat)

/-- The value of `projected_nof` after the first limit of
`a2d_sbc_get_num_frame_iteration`, for a control block with
`0 < pcm_bytes_per_frame cb` (with 0 the source divides by zero there). -/
def projectedFrames (P : Platform) (cb : tA2D_SBC_ENCODER_CB) (now_us : Nat) : Nat :=
  if creditedCounter cb now_us / pcm_bytes_per_frame cb > P.MAX_PCM_FRAME_NUM_PER_TICK then
    P.MAX_PCM_FRAME_NUM_PER_TICK
  else creditedCounter cb now_us / pcm_bytes_per_frame cb

/-- The value of `tx_sbc_frames` that the EDR branch of
`a2d_sbc_get_num_frame_iteration` reads into `nof`: the stored one, or the
result of `calculate_max_frames_per_packet` when the stored one is 0. -/
def edrFrames (P : Platform) (cb : tA2D_SBC_ENCODER_CB) : Nat :=
  if cb.tx_sbc_frames = 0 then (calculate_max_frames_per_packet P cb).1
  else cb.tx_sbc_frames

/-- The condition under which `a2d_sbc_get_num_frame_iteration` takes its
"Audio Congestion" branch for an EDR peer at the tick at `now_us`: the
iteration count `projected_nof / nof` exceeds
`A2D_SBC_MAX_PCM_ITER_NUM_PER_TICK`. -/
def iterationsClamped (P : Platform) (cb : tA2D_SBC_ENCODER_CB) (now_us : Nat) : Prop :=
  cb.is_peer_edr = true ∧ edrFrames P cb ≠ 0 ∧
    edrFrames P cb < projectedFrames P cb now_us ∧
    toUInt8 (projectedFrames P cb now_us / edrFrames P cb : Nat) >
      A2D_SBC_MAX_PCM_ITER_NUM_PER_TICK

instance (P : Platform) (cb : tA2D_SBC_ENCODER_CB) (now_us : Nat) :
    Decidable (iterationsClamped P cb now_us) := by
  unfold iterationsClamped; exact inferInstance

/-! ## Feeding buffer and packetizer -/

/-- The behaviour of the collaborators that the packetizer calls: the bytes
that the `k`-th call of the read callback delivers when asked for `n` bytes
(`read_callback k n`), whether the `k`-th call of the enqueue callback
accepts the buffer, and the number of bytes that `a2d_sbc_up_sample` produces
after the `k`-th read from `n` source bytes with `room` bytes of room. -/
structure Callbacks where
  read_callback : Nat → Nat → Nat
  enqueue_callback : Nat → Bool
  up_sample : Nat → Nat → Nat → Nat

/-- A media buffer as it is handed to the enqueue callback: the timestamp
written in front of the payload, `len`, `layer_specific`, and the frame count
passed as second argument. -/
structure Packet where
  timestamp : Nat
  len : Nat
  layer_specific : Nat
  done_nb_frame : Nat
deriving DecidableEq, Repr

/-- What the packetizer does that a collaborator sees, in the order of the
source: `frame` is a call of `a2d_sbc_read_feeding` that returned `true`
followed by the call of `SBC_Encoder`, `underflow` is a call of
`a2d_sbc_read_feeding` that returned `false`, and `enqueue accepted` is a
call of the enqueue callback with what it returned. Every call of
`a2d_sbc_read_feeding` makes one call of the read callback. -/
inductive PacketizerEvent where
  | frame
  | underflow
  | enqueue (accepted : Bool)
deriving DecidableEq, Repr

/-- The control block together with the history of the callbacks: the number
of reads made so far, the buffers handed to the enqueue callback, oldest
first, and the events of the packetizer, oldest first. -/
structure Session where
  cb : tA2D_SBC_ENCODER_CB
  reads : Nat
  enqueued : List Packet
  log : List PacketizerEvent
deriving DecidableEq, Repr

/-- Size in bytes of the static `up_sampled_buffer`. -/
def upSampledBufferSize (P : Platform) : Nat :=
  2 * (P.SBC_MAX_NUM_FRAME * SBC_MAX_NUM_OF_BLOCKS.toNat * SBC_MAX_NUM_OF_CHANNELS.toNat *
    SBC_MAX_NUM_OF_SUBBANDS.toNat * 2)

/-- `a2d_sbc_read_feeding`: `true` when a full PCM slab is ready. -/
def a2d_sbc_read_feeding (P : Platform) (E : Callbacks) (s : Session) :
    Bool × Session :=
  let p := s.cb.sbc_encoder_params
  let fp := s.cb.feeding_params
  let fs := s.cb.feeding_state
  let blocm_x_subband := toUInt16 (p.s16NumOfSubBands * p.s16NumOfBlocks)
  let bytes_needed := toUInt16 (Int.tdiv
    (toInt32 (blocm_x_subband * p.s16NumOfChannels * fp.bit_per_sample)) 8)
  let sbc_sampling : Nat :=
    if p.s16SamplingFreq = P.SBC_sf48000 then 48000
    else if p.s16SamplingFreq = P.SBC_sf44100 then 44100
    else if p.s16SamplingFreq = P.SBC_sf32000 then 32000
    else if p.s16SamplingFreq = P.SBC_sf16000 then 16000
    else 48000
  if sbc_sampling = fp.sampling_freq then
    let read_size := toUInt32 ((bytes_needed : Int) - fs.aa_feed_residue)
    let nb_byte_read := E.read_callback s.reads read_size
    let s := { s with reads := s.reads + 1 }
    if nb_byte_read ≠ read_size then
      (false, { s with cb := { s.cb with feeding_state := { fs with
        aa_feed_residue := toInt32 (fs.aa_feed_residue + nb_byte_read) } } })
    else
      (true, { s with cb := { s.cb with feeding_state := { fs with aa_feed_residue := 0 } } })
  else
    let fract_needed := decide (fp.sampling_freq = 32000 ∨ fp.sampling_freq = 8000 ∨
      fp.sampling_freq = 16000)
    let fract_max : Int := 2
    let fract_threshold : Int := if fp.sampling_freq = 16000 then 1 else 0
    let src_samples := toUInt32 (blocm_x_subband * fp.sampling_freq : Nat) / sbc_sampling
    let src_samples :=
      if fract_needed ∧ fs.aa_feed_counter ≤ fract_threshold then toUInt32 (src_samples + 1 : Nat)
      else src_samples
    let aa_feed_counter :=
      if fract_needed then
        (if toInt32 (fs.aa_feed_counter + 1) > fract_max then 0
         else toInt32 (fs.aa_feed_counter + 1))
      else fs.aa_feed_counter
    let fs := { fs with aa_feed_counter := aa_feed_counter }
    let read_size := toUInt32 (toUInt32 (src_samples * fp.num_channel : Nat) *
      toUInt32 (Int.tdiv fp.bit_per_sample 8) : Nat)
    let nb_byte_read := E.read_callback s.reads read_size
    let k := s.reads
    let s := { s with reads := s.reads + 1, cb := { s.cb with feeding_state := fs } }
    if nb_byte_read < read_size ∧ nb_byte_read = 0 then
      (false, s)
    else
      let nb_byte_read := if nb_byte_read < read_size then read_size else nb_byte_read
      let dst_size_used := E.up_sample k nb_byte_read
        (toUInt32 ((upSampledBufferSize P : Int) - fs.aa_feed_residue))
      let residue := toInt32 (fs.aa_feed_residue + dst_size_used)
      if residue < (bytes_needed : Int) then
        (false, { s with cb := { s.cb with feeding_state := { fs with
          aa_feed_residue := residue } } })
      else
        (true, { s with cb := { s.cb with feeding_state := { fs with
          aa_feed_residue := toInt32 (residue - bytes_needed) } } })

/-- The local `blocm_x_subband` of `a2d_sbc_read_feeding` and
`a2d_sbc_encode_frames` (a `uint16_t`). -/
def blocm_x_subband (p : SBC_ENC_PARAMS) : Nat :=
  toUInt16 (p.s16NumOfSubBands * p.s16NumOfBlocks)

/-- The local `bytes_needed` of `a2d_sbc_read_feeding`: the bytes of the PCM
slab of one frame (`int` arithmetic stored in a `uint16_t`). -/
def bytes_needed (cb : tA2D_SBC_ENCODER_CB) : Nat :=
  toUInt16 (Int.tdiv (toInt32 (blocm_x_subband cb.sbc_encoder_params *
    cb.sbc_encoder_params.s16NumOfChannels * cb.feeding_params.bit_per_sample)) 8)

/-- The local `sbc_sampling` of `a2d_sbc_read_feeding`: the codec rate in Hz,
48000 when the code is none of the four. -/
def sbc_sampling (P : Platform) (p : SBC_ENC_PARAMS) : Nat :=
  if p.s16SamplingFreq = P.SBC_sf48000 then 48000
  else if p.s16SamplingFreq = P.SBC_sf44100 then 44100
  else if p.s16SamplingFreq = P.SBC_sf32000 then 32000
  else if p.s16SamplingFreq = P.SBC_sf16000 then 16000
  else 48000

/-- The size that the fast path of `a2d_sbc_read_feeding` asks of the read
callback: `bytes_needed - aa_feed_residue`, stored in a `uint32_t`. -/
def fastReadSize (cb : tA2D_SBC_ENCODER_CB) : Nat :=
  toUInt32 ((bytes_needed cb : Int) - cb.feeding_state.aa_feed_residue)

/-- The local `src_samples` of the resampling path of `a2d_sbc_read_feeding`
when the read size is computed: `blocm_x_subband * sampling_freq /
sbc_sampling` in `uint32_t` arithmetic, and one more for the source rates
32000, 8000 and 16000 while `aa_feed_counter <= fract_threshold`. -/
def src_samples (P : Platform) (cb : tA2D_SBC_ENCODER_CB) : Nat :=
  let src_samples := toUInt32 (blocm_x_subband cb.sbc_encoder_params *
    cb.feeding_params.sampling_freq : Nat) / sbc_sampling P cb.sbc_encoder_params
  if (cb.feeding_params.sampling_freq = 32000 ∨ cb.feeding_params.sampling_freq = 8000 ∨
      cb.feeding_params.sampling_freq = 16000) ∧
      cb.feeding_state.aa_feed_counter ≤ (if cb.feeding_params.sampling_freq = 16000 then 1 else 0)
  then toUInt32 (src_samples + 1 : Nat)
  else src_samples

/-- The call `SBC_Encoder(p_encoder_params)`: of what the codec does, the
model keeps the frame length it leaves in `u16PacketLength`. -/
def sbcEncode (P : Platform) (s : Session) : Session :=
  { s with
    cb := { s.cb with sbc_encoder_params :=
      { s.cb.sbc_encoder_params with
        u16PacketLength := P.SBC_Encoder s.cb.sbc_encoder_params } }
    log := s.log ++ [PacketizerEvent.frame] }

/-- The underflow branch of `a2d_sbc_encode_frames`: the PCM bytes of the
`nb_frame` frames not encoded are credited back to `counter` (`int`
arithmetic, added to a `uint32_t`). -/
def refundUnderflow (s : Session) (nb_frame : Nat) : Session :=
  { s with
    cb := { s.cb with feeding_state := { s.cb.feeding_state with
      counter := toUInt32 (s.cb.feeding_state.counter +
        Int.tdiv (toInt32 ((nb_frame : Int) *
          s.cb.sbc_encoder_params.s16NumOfSubBands *
          s.cb.sbc_encoder_params.s16NumOfBlocks *
          s.cb.feeding_params.num_channel *
          s.cb.feeding_params.bit_per_sample)) 8) } }
    log := s.log ++ [PacketizerEvent.underflow] }

/-- The inner `do ... while` of `a2d_sbc_encode_frames`, filling one buffer:
from `nb_frame` frames still to encode and the buffer fields `len` and
`layer_specific`, the values of the three when the loop is left, and the
session. It is entered with `nb_frame` non-zero. -/
def encodeBuffer (P : Platform) (E : Callbacks) :
    Nat → Nat → Nat → Session → Nat × Nat × Nat × Session
  | 0, len, layer_specific, s => (0, len, layer_specific, s)
  | n + 1, len, layer_specific, s =>
    let r := a2d_sbc_read_feeding P E s
    if r.1 = true then
      let s := sbcEncode P r.2
      let len := toUInt16 (len + s.cb.sbc_encoder_params.u16PacketLength : Nat)
      let nb_frame := n
      let layer_specific := toUInt16 (layer_specific + 1 : Nat)
      if len + s.cb.sbc_encoder_params.u16PacketLength < s.cb.TxAaMtuSize ∧
          layer_specific < 0x0F ∧ nb_frame ≠ 0 then
        encodeBuffer P E nb_frame len layer_specific s
      else
        (nb_frame, len, layer_specific, s)
    else
      (0, len, layer_specific, refundUnderflow r.2 (n + 1))

/-- The end of one pass of the outer loop for a non-empty buffer: the
timestamp is written in front of the payload and advanced by
`layer_specific * blocm_x_subband`, and the buffer is handed to the enqueue
callback with `done_nb_frame`, which returns `accepted`. -/
def stampAndEnqueue (s : Session) (blocm_x_subband len layer_specific done_nb_frame : Nat)
    (accepted : Bool) : Session :=
  { s with
    cb := { s.cb with
      timestamp := toUInt32 (s.cb.timestamp + layer_specific * blocm_x_subband : Nat) }
    enqueued := s.enqueued ++ [⟨s.cb.timestamp, len, layer_specific, done_nb_frame⟩]
    log := s.log ++ [PacketizerEvent.enqueue accepted] }

/-- The outer `while (nb_frame)` of `a2d_sbc_encode_frames`. Every pass
lowers `nb_frame`, so `fuel = nb_frame` passes are enough. -/
def encodeLoop (P : Platform) (E : Callbacks) :
    Nat → Nat → Nat → Session → Session
  | 0, _, _, s => s
  | fuel + 1, nb_frame, remain_nb_frame, s =>
    if nb_frame = 0 then s
    else
      let blocm_x_subband := toUInt16 (s.cb.sbc_encoder_params.s16NumOfSubBands *
        s.cb.sbc_encoder_params.s16NumOfBlocks)
      let r := encodeBuffer P E nb_frame 0 0 s
      let nb_frame := r.1
      let len := r.2.1
      let layer_specific := r.2.2.1
      if len ≠ 0 then
        let done_nb_frame := toUInt8 ((remain_nb_frame : Int) - nb_frame)
        let remain_nb_frame := nb_frame
        let accepted := E.enqueue_callback r.2.2.2.enqueued.length
        let s := stampAndEnqueue r.2.2.2 blocm_x_subband len layer_specific done_nb_frame
          accepted
        if accepted = false then s
        else encodeLoop P E fuel nb_frame remain_nb_frame s
      else
        encodeLoop P E fuel nb_frame remain_nb_frame r.2.2.2

/-- `a2d_sbc_encode_frames`. -/
def a2d_sbc_encode_frames (P : Platform) (E : Callbacks) (nb_frame : Nat)
    (s : Session) : Session :=
  encodeLoop P E nb_frame nb_frame nb_frame s

/-- The `for` loop of `a2d_sbc_send_frames`. -/
def sendLoop (P : Platform) (E : Callbacks) (nb_frame : Nat) :
    Nat → Session → Session
  | 0, s => s
  | n + 1, s => sendLoop P E nb_frame n (a2d_sbc_encode_frames P E nb_frame s)

/-- `a2d_sbc_send_frames`. -/
def a2d_sbc_send_frames (P : Platform) (E : Callbacks)
    (timestamp_us : Nat) (s : Session) : Session :=
  let r := a2d_sbc_get_num_frame_iteration P s.cb timestamp_us
  let nb_iterations := r.1.1
  let nb_frame := r.1.2
  let s := { s with cb := r.2 }
  if nb_frame = 0 then s
  else sendLoop P E nb_frame nb_iterations s

/-! ## Reference platforms -/

/-- A platform in which the `(s16ChannelMode - 2)` terms of the estimate in
`a2d_sbc_encoder_update` agree with `a2d_sbc_frame_length`: STEREO is 2 (no
joint bits) and JOINT_STEREO is 3 (one joint bit per sub-band). SCMS-T is
off, the codec initialisation leaves the parameter block as it is, and the
codec writes frames of 119 bytes (the length of a joint-stereo frame with 8
sub-bands, 16 blocks, 2 channels and bit pool 53). -/
def refPlatform : Platform :=
  { SBC_MONO := 0, SBC_DUAL := 1, SBC_STEREO := 2, SBC_JOINT_STEREO := 3,
    SBC_sf16000 := 0, SBC_sf32000 := 1, SBC_sf44100 := 2, SBC_sf48000 := 3,
    MAX_PCM_FRAME_NUM_PER_TICK := 14, SBC_MAX_NUM_FRAME := 1,
    mtu_size := 4080, scms_t := false,
    SBC_Encoder_Init := fun p => p,
    SBC_Encoder := fun _ => 119 }

/-- Modelled from the spec: the channel-mode codes as the interface section
lists them, `MONO=3, DUAL=2, STEREO=1, JOINT_STEREO=0` (`sbc_encoder.h` is
not part of the file); the rest is as in `refPlatform`. -/
def specPlatform : Platform :=
  { refPlatform with
    SBC_MONO := 3, SBC_DUAL := 2, SBC_STEREO := 1, SBC_JOINT_STEREO := 0 }

/-- A read callback that always delivers what is asked, an enqueue callback
that always accepts, and an upsampler that returns as many bytes as it is
given. -/
def plentifulCallbacks : Callbacks :=
  { read_callback := fun _ n => n, enqueue_callback := fun _ => true,
    up_sample := fun _ n _ => n }

/-! ## Ranges of configurations -/

/-- The legal grid of the data model: 4 or 8 sub-bands, 4, 8, 12 or 16
blocks, 1 or 2 channels. -/
def LegalCounts (p : SBC_ENC_PARAMS) : Prop :=
  (p.s16NumOfSubBands = 4 ∨ p.s16NumOfSubBands = 8) ∧
  (p.s16NumOfBlocks = 4 ∨ p.s16NumOfBlocks = 8 ∨ p.s16NumOfBlocks = 12 ∨
    p.s16NumOfBlocks = 16) ∧
  (p.s16NumOfChannels = 1 ∨ p.s16NumOfChannels = 2)

instance (p : SBC_ENC_PARAMS) : Decidable (LegalCounts p) := by
  unfold LegalCounts; exact inferInstance

/-- Counts as the `uint8_t` fields of the init parameters and the codec
initialisation can set them, legal or not: sub-bands and blocks in 0..255,
channels in 0..2. -/
def ByteCounts (p : SBC_ENC_PARAMS) : Prop :=
  (0 ≤ p.s16NumOfSubBands ∧ p.s16NumOfSubBands ≤ 255) ∧
  (0 ≤ p.s16NumOfBlocks ∧ p.s16NumOfBlocks ≤ 255) ∧
  (0 ≤ p.s16NumOfChannels ∧ p.s16NumOfChannels ≤ 2)

instance (p : SBC_ENC_PARAMS) : Decidable (ByteCounts p) := by
  unfold ByteCounts; exact inferInstance

/-- The stereo and joint-stereo codes, which enter the estimate through
`s16ChannelMode - 2`, lie in 0..3. -/
def Platform.SmallModeCodes (P : Platform) : Prop :=
  (0 ≤ P.SBC_STEREO ∧ P.SBC_STEREO ≤ 3) ∧
  (0 ≤ P.SBC_JOINT_STEREO ∧ P.SBC_JOINT_STEREO ≤ 3)

instance (P : Platform) : Decidable P.SmallModeCodes := by
  unfold Platform.SmallModeCodes; exact inferInstance

/-- A control block with the given peer flags, encoder configuration
`(mode, sub-bands, blocks, sampling code, channels)`, PCM source and MTU, and
everything else zero. -/
def sessionCb (edr m3 : Bool) (mode ns nb sf nc : Int) (src : tA2D_FEEDING_PARAMS)
    (mtu : Nat) : tA2D_SBC_ENCODER_CB :=
  { zeroCb with
    is_peer_edr := edr
    peer_supports_3mbps := m3
    TxAaMtuSize := mtu
    sbc_encoder_params := ⟨mode, ns, nb, 0, sf, nc, 0, 0, 0⟩
    feeding_params := src }

/-! ## Scenarios -/

/-- Scenario E1: an EDR peer that supports 3 Mbps, codec rate 44100 Hz,
JOINT_STEREO, 16 blocks, 8 sub-bands, 2 channels, a 44100 Hz 16-bit stereo
source, and MTU 663. -/
def scenarioE1 (P : Platform) : tA2D_SBC_ENCODER_CB :=
  sessionCb true true P.SBC_JOINT_STEREO 8 16 P.SBC_sf44100 2 ⟨44100, 2, 16⟩ 663

/-- Scenario E6: codec rate 44100 Hz, STEREO, 16 blocks, 8 sub-bands and 2
channels, for an EDR peer (source rate 328 kbps) or a non-EDR peer (229
kbps). -/
def scenarioE6 (P : Platform) (edr : Bool) : tA2D_SBC_ENCODER_CB :=
  sessionCb edr edr P.SBC_STEREO 8 16 P.SBC_sf44100 2 ⟨44100, 2, 16⟩ 663

/-- What scenario E1 produces on platform `P` for a tick at `now_us`:
`a2d_sbc_encoder_update` with `MinBitPool = 2`, `MaxBitPool = 53` and
`MinMtuSize = 663`, then `a2d_sbc_feeding_reset`, then one tick with a source
that never runs dry. The components are the committed bit pool,
`tx_sbc_frames`, the quotient `(663 - 1) / a2d_sbc_frame_length()`, the pair
`(iterations, frames)` of the budgeter, and the packets handed to the enqueue
callback by `a2d_sbc_send_frames`. -/
def scenarioE1Outcome (P : Platform) (now_us : Nat) :
    Option (Int × Nat × Nat × (Nat × Nat) × List Packet) :=
  (a2d_sbc_encoder_update P 65537 (scenarioE1 P) ⟨663, 53, 2⟩).map fun cb =>
    (cb.sbc_encoder_params.s16BitPool,
     cb.tx_sbc_frames,
     (663 - 1) / a2d_sbc_frame_length P cb.sbc_encoder_params,
     (a2d_sbc_get_num_frame_iteration P (a2d_sbc_feeding_reset cb) now_us).1,
     (a2d_sbc_send_frames P plentifulCallbacks now_us
        ⟨a2d_sbc_feeding_reset cb, 0, [], []⟩).enqueued)

/-- The state in which scenario E6 leaves the negotiation loop on platform
`P`: `a2d_sbc_encoder_update` with `MinBitPool = MaxBitPool = 250`. The
components are the final target rate, the last candidate, `protect`, and the
bit pool committed to the encoder configuration. -/
def scenarioE6Outcome (P : Platform) (edr : Bool) : Option (Nat × Int × Nat × Int) :=
  (updateNegotiation P 65537 (scenarioE6 P edr) ⟨663, 250, 250⟩).map fun n =>
    (n.u16BitRate, n.s16BitPool, n.protect,
     (updateCommit P (scenarioE6 P edr) ⟨663, 250, 250⟩ n).sbc_encoder_params.s16BitPool)

/-- A MONO configuration of the legal grid: 8 sub-bands, 16 blocks, one
channel, codec rate 16000 Hz, EDR peer. -/
def monoSession (P : Platform) : tA2D_SBC_ENCODER_CB :=
  sessionCb true true P.SBC_MONO 8 16 P.SBC_sf16000 1 ⟨16000, 1, 16⟩ 663

/-- A session ready to encode on `refPlatform`: the configuration that
scenario E1 negotiates (JOINT_STEREO, 8 sub-bands, 16 blocks, 2 channels,
44100 Hz, bit pool 53, frame length 119) with `TxAaMtuSize = mtu`, timestamp
0 and nothing enqueued yet. -/
def packetSession (mtu : Nat) : Session :=
  { cb := { sessionCb true true 3 8 16 2 2 ⟨44100, 2, 16⟩ mtu with
              sbc_encoder_params := ⟨3, 8, 16, 0, 2, 2, 53, 328, 0⟩ },
    reads := 0, enqueued := [], log := [] }

/-- A control block in the middle of a stream on `refPlatform`: the
configuration of `packetSession` with MTU 663 (8 sub-bands, 16 blocks, a
44100 Hz 16-bit stereo source, hence 512 PCM bytes per frame and 3528 bytes
per 20 ms tick), with the given peer kind, `tx_sbc_frames`, credit counter and
`last_frame_us`. -/
def tickCb (edr : Bool) (tx counter last_frame_us : Nat) : tA2D_SBC_ENCODER_CB :=
  { (packetSession 663).cb with
    is_peer_edr := edr
    tx_sbc_frames := tx
    feeding_state :=
      { aa_frame_counter := 0, aa_feed_counter := 0, aa_feed_residue := 0,
        counter := counter, bytes_per_tick := 3528, last_frame_us := last_frame_us } }

/-- A source that delivers what is asked on its first `k` reads and nothing
afterwards; the enqueue callback always accepts. -/
def starvingCallbacks (k : Nat) : Callbacks :=
  { plentifulCallbacks with read_callback := fun i n => if i < k then n else 0 }

/-- A transport that refuses the first buffer and accepts the following ones;
the source never runs dry. -/
def refusingCallbacks : Callbacks :=
  { plentifulCallbacks with enqueue_callback := fun i => decide (i ≠ 0) }

/-- A session at its first tick on `refPlatform`: the control block
`tickCb edr tx 0 0`, no read made and nothing enqueued yet. -/
def tickSession (edr : Bool) (tx : Nat) : Session :=
  { cb := tickCb edr tx 0 0, reads := 0, enqueued := [], log := [] }

/-- A sequence of ticks: `a2d_sbc_send_frames` is called at each of the given
times, in order. -/
def sendTicks (P : Platform) (E : Callbacks) : List Nat → Session → Session
  | [], s => s
  | t :: ts, s => sendTicks P E ts (a2d_sbc_send_frames P E t s)

/-- The running timestamp after the given buffers, from the running timestamp
`t`: each buffer advances it by `layer_specific * step` modulo 2^32. -/
def timestampAfter (step : Nat) : Nat → List Packet → Nat
  | t, [] => t
  | t, p :: ps => timestampAfter step (toUInt32 (t + p.layer_specific * step : Nat)) ps

/-- The buffers carry the running timestamp: the first carries `t`, and each
following one carries the timestamp of the one before advanced by its
`layer_specific * step` modulo 2^32. -/
def TimestampsChained (step : Nat) : Nat → List Packet → Prop
  | _, [] => True
  | t, p :: ps => p.timestamp = t ∧
      TimestampsChained step (toUInt32 (t + p.layer_specific * step : Nat)) ps

/-- The sum of the credits that the budgeter adds to `counter` over a sequence
of ticks. -/
def creditsAdded (P : Platform) (E : Callbacks) : List Nat → Session → Nat
  | [], _ => 0
  | t :: ts, s => tickCredit s.cb t + creditsAdded P E ts (a2d_sbc_send_frames P E t s)

/-- A sequence of ticks none of which takes the "Audio Congestion" branch of
an EDR peer and none of which wraps the credit counter at 32 bits. -/
def Uncongested (P : Platform) (E : Callbacks) : List Nat → Session → Prop
  | [], _ => True
  | t :: ts, s => ¬ iterationsClamped P s.cb t ∧
      s.cb.feeding_state.counter + tickCredit s.cb t < 4294967296 ∧
      Uncongested P E ts (a2d_sbc_send_frames P E t s)

instance Uncongested.instDecidable (P : Platform) (E : Callbacks) :
    ∀ (ticks : List Nat) (s : Session), Decidable (Uncongested P E ticks s)
  | [], _ => isTrue trivial
  | t :: ts, s =>
    have := Uncongested.instDecidable P E ts (a2d_sbc_send_frames P E t s)
    (inferInstance : Decidable (¬ iterationsClamped P s.cb t ∧
      s.cb.feeding_state.counter + tickCredit s.cb t < 4294967296 ∧
      Uncongested P E ts (a2d_sbc_send_frames P E t s)))

/-- The frame length that the stereo branch of `a2d_sbc_encoder_update`
derives from a bit pool (`int16_t s16FrameLen`). -/
def stereoFrameLen (p : SBC_ENC_PARAMS) (s16BitPool : Int) : Int :=
  toInt16 (toInt32
    (4 + Int.tdiv (toInt32 (4 * p.s16NumOfSubBands * p.s16NumOfChannels)) 8
      + Int.tdiv (toInt32 ((p.s16ChannelMode - 2) * p.s16NumOfSubBands
          + p.s16NumOfBlocks * s16BitPool)) 8))

/-- The bit rate that the stereo branch of `a2d_sbc_encoder_update` derives
from a bit pool (`int16_t s16BitRate`). -/
def stereoBitRate (p : SBC_ENC_PARAMS) (s16SamplingFreq : Nat) (s16BitPool : Int) : Int :=
  toInt16
    (Int.tdiv (toInt32 (8 * stereoFrameLen p s16BitPool * s16SamplingFreq))
      (toInt32 (p.s16NumOfSubBands * p.s16NumOfBlocks * 1000)))

/-! ## Contents of the PCM buffer on the fast path -/

/-- Byte count of the `memset` at the head of the inner loop of
`a2d_sbc_encode_frames`: `blocm_x_subband * s16NumOfChannels`, an `int`
converted to a 64-bit `size_t`. -/
def memsetSize (p : SBC_ENC_PARAMS) : Nat :=
  (toInt32 (blocm_x_subband p * p.s16NumOfChannels) % 18446744073709551616).toNat

/-- The `memset` at the head of the inner loop of `a2d_sbc_encode_frames`, on
the bytes of `as16PcmBuffer` (offset to byte): the first `memsetSize` bytes
become 0. -/
def memsetPcmBuffer (p : SBC_ENC_PARAMS) (buf : Nat → Nat) : Nat → Nat :=
  fun i => if i < memsetSize p then 0 else buf i

/-- The bytes of `as16PcmBuffer` after the fast path of
`a2d_sbc_read_feeding`: the read callback is given the destination
`((uint8_t *)as16PcmBuffer) + aa_feed_residue` and stores there the
`nb_byte_read` bytes that it delivers. `pcm k i` is byte `i` of what the
source delivers at its read number `k`. -/
def fastReadPcm (E : Callbacks) (pcm : Nat → Nat → Nat) (s : Session)
    (buf : Nat → Nat) : Nat → Nat :=
  let aa_feed_residue := s.cb.feeding_state.aa_feed_residue
  let nb_byte_read := E.read_callback s.reads (fastReadSize s.cb)
  fun i =>
    if aa_feed_residue ≤ (i : Int) ∧ (i : Int) < aa_feed_residue + nb_byte_read then
      pcm s.reads ((i : Int) - aa_feed_residue).toNat
    else buf i

/-- One pass of the inner loop of `a2d_sbc_encode_frames` on the fast path,
on the bytes of `as16PcmBuffer`: the `memset`, then the read of
`a2d_sbc_read_feeding`. When `a2d_sbc_read_feeding` returns `true` on `s`,
the result is what `SBC_Encoder` is given. -/
def pcmBufferAfterRead (E : Callbacks) (pcm : Nat → Nat → Nat) (s : Session)
    (buf : Nat → Nat) : Nat → Nat :=
  fastReadPcm E pcm s (memsetPcmBuffer s.cb.sbc_encoder_params buf)

/-- The PCM slab of a frame: the first `bytes_needed` bytes of
`as16PcmBuffer`. -/
def pcmSlab (cb : tA2D_SBC_ENCODER_CB) (buf : Nat → Nat) : List Nat :=
  (List.range (bytes_needed cb)).map buf

/-- A source that delivers 100 bytes at its first read and what is asked
afterwards; the enqueue callback always accepts. -/
def shortFirstReadCallbacks : Callbacks :=
  { plentifulCallbacks with read_callback := fun i n => if i = 0 then 100 else n }

/-- A PCM stream without zero bytes: byte `i` of read number `k`. -/
def nonZeroPcm (k i : Nat) : Nat := (100 * k + i) % 255 + 1

/-! ## Theorems -/


theorem toUInt32_cast (x : Int) : ((toUInt32 x : Nat) : Int) = x % 4294967296 := by
  unfold toUInt32
  exact Int.toNat_of_nonneg (Int.emod_nonneg _ (by decide))

theorem Platform.WellFormed.modes {P : Platform} (h : P.WellFormed) :
    P.SBC_MONO ≠ P.SBC_DUAL ∧ P.SBC_MONO ≠ P.SBC_STEREO ∧ P.SBC_MONO ≠ P.SBC_JOINT_STEREO ∧
    P.SBC_DUAL ≠ P.SBC_STEREO ∧ P.SBC_DUAL ≠ P.SBC_JOINT_STEREO ∧
    P.SBC_STEREO ≠ P.SBC_JOINT_STEREO := by
  have h1 := h.1
  simp only [List.nodup_cons, List.mem_cons, List.mem_singleton, not_or, List.not_mem_nil,
    not_false_eq_true, List.nodup_nil, and_true] at h1
  tauto

theorem frame_sum_cast (a b : Int) (ha : 0 ≤ a) (ha1 : a < 2147483648)
    (hb : 0 ≤ b) (hb1 : b < 2147483648) :
    ((toUInt32 (A2D_SBC_FRAME_HEADER_SIZE_BYTES + (toUInt32 a / CHAR_BIT : Nat) +
      (toUInt32 b / CHAR_BIT : Nat)) : Nat) : Int) = 4 + a / 8 + b / 8 := by
  simp only [toUInt32_cast, Int.ofNat_ediv, CHAR_BIT, A2D_SBC_FRAME_HEADER_SIZE_BYTES,
    Nat.cast_ofNat]
  have e1 : a % 4294967296 = a := Int.emod_eq_of_lt ha (by omega)
  have e2 : b % 4294967296 = b := Int.emod_eq_of_lt hb (by omega)
  rw [e1, e2]
  exact Int.emod_eq_of_lt (by omega) (by omega)

/-- C1: on the legal grid (sub-bands 4 or 8, blocks 4, 8, 12 or 16, channels
1 or 2, bit pool 0..250) `a2d_sbc_frame_length` is
`4 + ⌊4·NS·NC/8⌋ + ⌊NB·NC·BP/8⌋` for MONO and DUAL,
`4 + ⌊4·NS·NC/8⌋ + ⌊NB·BP/8⌋` for STEREO,
`4 + ⌊4·NS·NC/8⌋ + ⌊(NS + NB·BP)/8⌋` for JOINT_STEREO, and 0 for every other
channel-mode value. -/
theorem a2d_sbc_frame_length_formula (P : Platform) (hP : P.WellFormed) (p : SBC_ENC_PARAMS)
    (hNS : p.s16NumOfSubBands = 4 ∨ p.s16NumOfSubBands = 8)
    (hNB : p.s16NumOfBlocks = 4 ∨ p.s16NumOfBlocks = 8 ∨ p.s16NumOfBlocks = 12 ∨
      p.s16NumOfBlocks = 16)
    (hNC : p.s16NumOfChannels = 1 ∨ p.s16NumOfChannels = 2)
    (hBP : 0 ≤ p.s16BitPool ∧ p.s16BitPool ≤ 250) :
    ((p.s16ChannelMode = P.SBC_MONO ∨ p.s16ChannelMode = P.SBC_DUAL) →
      (a2d_sbc_frame_length P p : Int) =
        4 + (4 * p.s16NumOfSubBands * p.s16NumOfChannels) / 8
          + (p.s16NumOfBlocks * p.s16NumOfChannels * p.s16BitPool) / 8) ∧
    (p.s16ChannelMode = P.SBC_STEREO →
      (a2d_sbc_frame_length P p : Int) =
        4 + (4 * p.s16NumOfSubBands * p.s16NumOfChannels) / 8
          + (p.s16NumOfBlocks * p.s16BitPool) / 8) ∧
    (p.s16ChannelMode = P.SBC_JOINT_STEREO →
      (a2d_sbc_frame_length P p : Int) =
        4 + (4 * p.s16NumOfSubBands * p.s16NumOfChannels) / 8
          + (p.s16NumOfSubBands + p.s16NumOfBlocks * p.s16BitPool) / 8) ∧
    (p.s16ChannelMode ≠ P.SBC_MONO → p.s16ChannelMode ≠ P.SBC_DUAL →
      p.s16ChannelMode ≠ P.SBC_STEREO → p.s16ChannelMode ≠ P.SBC_JOINT_STEREO →
      a2d_sbc_frame_length P p = 0) := by
  obtain ⟨m1, m2, m3, m4, m5, m6⟩ := hP.modes
  obtain ⟨hb0, hb1⟩ := hBP
  refine ⟨?_, ?_, ?_, ?_⟩
  · intro hm
    simp only [a2d_sbc_frame_length, if_pos hm, A2D_SBC_SCALE_FACTOR_BITS]
    rcases hNS with h | h <;> rcases hNB with h' | h' | h' | h' <;> rcases hNC with h'' | h'' <;>
      rw [h, h', h''] <;> exact frame_sum_cast _ _ (by omega) (by omega) (by omega) (by omega)
  · intro hm
    have hn : ¬ (p.s16ChannelMode = P.SBC_MONO ∨ p.s16ChannelMode = P.SBC_DUAL) := by
      rw [hm]; rintro (h | h) <;> simp_all
    simp only [a2d_sbc_frame_length, if_neg hn, if_pos hm, A2D_SBC_SCALE_FACTOR_BITS]
    rcases hNS with h | h <;> rcases hNB with h' | h' | h' | h' <;> rcases hNC with h'' | h'' <;>
      rw [h, h', h''] <;> exact frame_sum_cast _ _ (by omega) (by omega) (by omega) (by omega)
  · intro hm
    have hn : ¬ (p.s16ChannelMode = P.SBC_MONO ∨ p.s16ChannelMode = P.SBC_DUAL) := by
      rw [hm]; rintro (h | h) <;> simp_all
    have hn2 : ¬ p.s16ChannelMode = P.SBC_STEREO := by rw [hm]; exact fun h => m6 h.symm
    simp only [a2d_sbc_frame_length, if_neg hn, if_neg hn2, if_pos hm,
      A2D_SBC_SCALE_FACTOR_BITS]
    rcases hNS with h | h <;> rcases hNB with h' | h' | h' | h' <;> rcases hNC with h'' | h'' <;>
      rw [h, h', h''] <;> exact frame_sum_cast _ _ (by omega) (by omega) (by omega) (by omega)
  · intro h1 h2 h3 h4
    simp [a2d_sbc_frame_length, h1, h2, h3, h4]

/-- Witness for C1: the joint-stereo frame of scenario E1 (8 sub-bands, 16 blocks,
2 channels, bit pool 53). -/
theorem a2d_sbc_frame_length_formula_witness :
    refPlatform.WellFormed ∧
    (a2d_sbc_frame_length refPlatform ⟨3, 8, 16, 0, 2, 2, 53, 328, 0⟩ : Int) =
      4 + (4 * 8 * 2) / 8 + (8 + 16 * 53) / 8 :=
  ⟨by decide,
   (a2d_sbc_frame_length_formula refPlatform (by decide) ⟨3, 8, 16, 0, 2, 2, 53, 328, 0⟩
      (Or.inr rfl) (Or.inr (Or.inr (Or.inr rfl))) (Or.inr rfl)
      ⟨by decide, by decide⟩).2.2.1 rfl⟩

/-! ### The negotiation loop -/

theorem negotiate_succ (p : SBC_ENC_PARAMS) (cand : Nat → Int) (u : tA2D_ENCODER_UPDATE_PARAMS)
    (hp : ¬ (p.s16NumOfBlocks = 0 ∨ p.s16NumOfSubBands = 0 ∨ p.s16NumOfChannels = 0))
    (fuel rate : Nat) (bp : Int) (protect : Nat) :
    negotiate p cand u (fuel + 1) rate bp protect =
      if cand rate > (u.MaxBitPool : Int) then
        if protect ||| 1 = 3 then
          some ⟨toUInt16 ((rate : Int) - A2D_SBC_BITRATE_STEP), cand rate, protect ||| 1,
            [(rate, protect)]⟩
        else
          (negotiate p cand u fuel (toUInt16 ((rate : Int) - A2D_SBC_BITRATE_STEP))
            (cand rate) (protect ||| 1)).map
            fun r => { r with visited := (rate, protect) :: r.visited }
      else if cand rate < (u.MinBitPool : Int) then
        if (if toUInt16 ((rate : Int) + A2D_SBC_BITRATE_STEP) < rate then protect ||| 2 ||| 3
            else protect ||| 2) = 3 then
          some ⟨toUInt16 ((rate : Int) + A2D_SBC_BITRATE_STEP), cand rate,
            (if toUInt16 ((rate : Int) + A2D_SBC_BITRATE_STEP) < rate then protect ||| 2 ||| 3
             else protect ||| 2), [(rate, protect)]⟩
        else
          (negotiate p cand u fuel (toUInt16 ((rate : Int) + A2D_SBC_BITRATE_STEP))
            (cand rate)
            (if toUInt16 ((rate : Int) + A2D_SBC_BITRATE_STEP) < rate then protect ||| 2 ||| 3
             else protect ||| 2)).map
            fun r => { r with visited := (rate, protect) :: r.visited }
      else
        some ⟨rate, cand rate, protect, [(rate, protect)]⟩ := by
  rw [negotiate, if_neg hp]

theorem negotiate_bracket (p : SBC_ENC_PARAMS) (cand : Nat → Int)
    (u : tA2D_ENCODER_UPDATE_PARAMS)
    (hp : ¬ (p.s16NumOfBlocks = 0 ∨ p.s16NumOfSubBands = 0 ∨ p.s16NumOfChannels = 0)) :
    ∀ (fuel rate : Nat) (bp : Int) (protect : Nat) (n : Negotiation),
      negotiate p cand u fuel rate bp protect = some n →
      ((u.MinBitPool : Int) ≤ n.s16BitPool ∧ n.s16BitPool ≤ (u.MaxBitPool : Int)) ∨
        n.protect = 3 := by
  intro fuel
  induction fuel with
  | zero => intro rate bp protect n h; simp [negotiate] at h
  | succ fuel ih =>
    intro rate bp protect n h
    rw [negotiate_succ p cand u hp] at h
    by_cases h1 : cand rate > (u.MaxBitPool : Int)
    · rw [if_pos h1] at h
      by_cases h2 : protect ||| 1 = 3
      · rw [if_pos h2] at h; cases h; exact Or.inr h2
      · rw [if_neg h2] at h
        obtain ⟨r, hr, rfl⟩ := Option.map_eq_some'.mp h
        exact ih _ _ _ r hr
    · rw [if_neg h1] at h
      by_cases h3 : cand rate < (u.MinBitPool : Int)
      · rw [if_pos h3] at h
        by_cases h4 : (if toUInt16 ((rate : Int) + A2D_SBC_BITRATE_STEP) < rate
            then protect ||| 2 ||| 3 else protect ||| 2) = 3
        · rw [if_pos h4] at h; cases h; exact Or.inr h4
        · rw [if_neg h4] at h
          obtain ⟨r, hr, rfl⟩ := Option.map_eq_some'.mp h
          exact ih _ _ _ r hr
      · rw [if_neg h3] at h
        cases h
        exact Or.inl ⟨by simpa using h3, by simpa using h1⟩

theorem toUInt16_add_step (rate : Nat) (hr : rate < 65536)
    (h : ¬ toUInt16 ((rate : Int) + A2D_SBC_BITRATE_STEP) < rate) :
    toUInt16 ((rate : Int) + A2D_SBC_BITRATE_STEP) = rate + 5 := by
  unfold toUInt16 A2D_SBC_BITRATE_STEP at *
  omega

theorem toUInt16_lt (x : Int) : toUInt16 x < 65536 := by
  unfold toUInt16; omega

theorem stepsToZero_sub_step (rate : Nat) (hr : rate < 65536) (h0 : rate ≠ 0) :
    toUInt16 ((rate : Int) - A2D_SBC_BITRATE_STEP) * 52429 % 65536 + 1 =
      rate * 52429 % 65536 := by
  unfold toUInt16 A2D_SBC_BITRATE_STEP
  omega

/-- Once the rate has been raised (`protect = 2`) the loop ends before the
16-bit rate has wrapped twice. -/
theorem negotiate_up_terminates (p : SBC_ENC_PARAMS) (cand : Nat → Int)
    (u : tA2D_ENCODER_UPDATE_PARAMS)
    (hp : ¬ (p.s16NumOfBlocks = 0 ∨ p.s16NumOfSubBands = 0 ∨ p.s16NumOfChannels = 0)) :
    ∀ (fuel rate : Nat) (bp : Int), rate < 65536 → 65536 < fuel + rate →
      ∃ n, negotiate p cand u fuel rate bp 2 = some n := by
  intro fuel
  induction fuel with
  | zero => intro rate bp h1 h2; omega
  | succ fuel ih =>
    intro rate bp hr hf
    rw [negotiate_succ p cand u hp]
    by_cases h1 : cand rate > (u.MaxBitPool : Int)
    · rw [if_pos h1, if_pos (by rfl)]; exact ⟨_, rfl⟩
    · rw [if_neg h1]
      by_cases h3 : cand rate < (u.MinBitPool : Int)
      · rw [if_pos h3]
        by_cases h4 : toUInt16 ((rate : Int) + A2D_SBC_BITRATE_STEP) < rate
        · rw [if_pos h4, if_pos (by rfl)]; exact ⟨_, rfl⟩
        · rw [if_neg h4, if_neg (by decide)]
          have e := toUInt16_add_step rate hr h4
          obtain ⟨n, hn⟩ := ih (toUInt16 ((rate : Int) + A2D_SBC_BITRATE_STEP)) (cand rate)
            (toUInt16_lt _) (by omega)
          have e2 : (2 : Nat) ||| 2 = 2 := rfl
          rw [e2, hn]; exact ⟨_, rfl⟩
      · rw [if_neg h3]; exact ⟨_, rfl⟩

/-- Once the rate has been lowered (`protect = 1`) the loop ends at the latest
when the rate reaches 0, where the candidate is not above the maximum. -/
theorem negotiate_down_terminates (p : SBC_ENC_PARAMS) (cand : Nat → Int)
    (u : tA2D_ENCODER_UPDATE_PARAMS)
    (hp : ¬ (p.s16NumOfBlocks = 0 ∨ p.s16NumOfSubBands = 0 ∨ p.s16NumOfChannels = 0))
    (h0 : ¬ cand 0 > (u.MaxBitPool : Int)) :
    ∀ (fuel rate : Nat) (bp : Int), rate < 65536 → rate * 52429 % 65536 < fuel →
      ∃ n, negotiate p cand u fuel rate bp 1 = some n := by
  intro fuel
  induction fuel with
  | zero => intro rate bp h1 h2; omega
  | succ fuel ih =>
    intro rate bp hr hf
    rw [negotiate_succ p cand u hp]
    by_cases h1 : cand rate > (u.MaxBitPool : Int)
    · rw [if_pos h1, if_neg (by decide)]
      have hne : rate ≠ 0 := by rintro rfl; exact h0 h1
      have e := stepsToZero_sub_step rate hr hne
      obtain ⟨n, hn⟩ := ih (toUInt16 ((rate : Int) - A2D_SBC_BITRATE_STEP)) (cand rate)
        (toUInt16_lt _) (by omega)
      have e2 : (1 : Nat) ||| 1 = 1 := rfl
      rw [e2, hn]; exact ⟨_, rfl⟩
    · rw [if_neg h1]
      by_cases h3 : cand rate < (u.MinBitPool : Int)
      · rw [if_pos h3]
        by_cases h4 : toUInt16 ((rate : Int) + A2D_SBC_BITRATE_STEP) < rate
        · rw [if_pos h4, if_pos (by rfl)]; exact ⟨_, rfl⟩
        · rw [if_neg h4, if_pos (by rfl)]; exact ⟨_, rfl⟩
      · rw [if_neg h3]; exact ⟨_, rfl⟩

/-- From `protect = 0` the loop ends within 65537 iterations, provided the
candidate at rate 0 is not above the maximum. -/
theorem negotiate_terminates (p : SBC_ENC_PARAMS) (cand : Nat → Int)
    (u : tA2D_ENCODER_UPDATE_PARAMS)
    (hp : ¬ (p.s16NumOfBlocks = 0 ∨ p.s16NumOfSubBands = 0 ∨ p.s16NumOfChannels = 0))
    (h0 : ¬ cand 0 > (u.MaxBitPool : Int))
    (fuel rate : Nat) (bp : Int) (hr : rate < 65536) (hf : 65537 ≤ fuel) :
    ∃ n, negotiate p cand u fuel rate bp 0 = some n := by
  obtain ⟨fuel, rfl⟩ : ∃ f, fuel = f + 1 := ⟨fuel - 1, by omega⟩
  rw [negotiate_succ p cand u hp]
  by_cases h1 : cand rate > (u.MaxBitPool : Int)
  · rw [if_pos h1, if_neg (by decide)]
    obtain ⟨n, hn⟩ := negotiate_down_terminates p cand u hp h0 fuel
      (toUInt16 ((rate : Int) - A2D_SBC_BITRATE_STEP)) (cand rate) (toUInt16_lt _)
      (by have := Nat.mod_lt (toUInt16 ((rate : Int) - A2D_SBC_BITRATE_STEP) * 52429)
            (show 65536 > 0 by decide)
          omega)
    have e2 : (0 : Nat) ||| 1 = 1 := rfl
    rw [e2, hn]; exact ⟨_, rfl⟩
  · rw [if_neg h1]
    by_cases h3 : cand rate < (u.MinBitPool : Int)
    · rw [if_pos h3]
      by_cases h4 : toUInt16 ((rate : Int) + A2D_SBC_BITRATE_STEP) < rate
      · rw [if_pos h4, if_pos (by rfl)]; exact ⟨_, rfl⟩
      · rw [if_neg h4, if_neg (by decide)]
        have e := toUInt16_add_step rate hr h4
        obtain ⟨n, hn⟩ := negotiate_up_terminates p cand u hp fuel
          (toUInt16 ((rate : Int) + A2D_SBC_BITRATE_STEP)) (cand rate)
          (toUInt16_lt _) (by omega)
        have e2 : (0 : Nat) ||| 2 = 2 := rfl
        rw [e2, hn]; exact ⟨_, rfl⟩
    · rw [if_neg h3]; exact ⟨_, rfl⟩

/-- More fuel does not change the outcome of a run that has ended. -/
theorem negotiate_fuel_mono (p : SBC_ENC_PARAMS) (cand : Nat → Int)
    (u : tA2D_ENCODER_UPDATE_PARAMS) :
    ∀ (fuel k rate : Nat) (bp : Int) (protect : Nat) (n : Negotiation),
      negotiate p cand u fuel rate bp protect = some n →
      negotiate p cand u (fuel + k) rate bp protect = some n := by
  intro fuel
  induction fuel with
  | zero => intro k rate bp protect n h; simp [negotiate] at h
  | succ fuel ih =>
    intro k rate bp protect n h
    have e : fuel + 1 + k = (fuel + k) + 1 := by omega
    rw [e]
    rw [negotiate] at h ⊢
    by_cases hp : p.s16NumOfBlocks = 0 ∨ p.s16NumOfSubBands = 0 ∨ p.s16NumOfChannels = 0
    · rw [if_pos hp] at h ⊢; exact h
    · rw [if_neg hp] at h ⊢
      simp only at h ⊢
      by_cases h1 : cand rate > (u.MaxBitPool : Int)
      · rw [if_pos h1] at h ⊢
        by_cases h2 : protect ||| 1 = 3
        · rw [if_pos h2] at h ⊢; exact h
        · rw [if_neg h2] at h ⊢
          obtain ⟨r, hr, rfl⟩ := Option.map_eq_some'.mp h
          rw [ih k _ _ _ r hr]; rfl
      · rw [if_neg h1] at h ⊢
        by_cases h3 : cand rate < (u.MinBitPool : Int)
        · rw [if_pos h3] at h ⊢
          by_cases h4 : (if toUInt16 ((rate : Int) + A2D_SBC_BITRATE_STEP) < rate
              then protect ||| 2 ||| 3 else protect ||| 2) = 3
          · rw [if_pos h4] at h ⊢; exact h
          · rw [if_neg h4] at h ⊢
            obtain ⟨r, hr, rfl⟩ := Option.map_eq_some'.mp h
            rw [ih k _ _ _ r hr]; rfl
        · rw [if_neg h3] at h ⊢; exact h

theorem toUInt16_sub_step (rate : Nat) (hr : rate < 65536) (h5 : 5 ≤ rate) :
    toUInt16 ((rate : Int) - A2D_SBC_BITRATE_STEP) + 5 = rate := by
  unfold toUInt16 A2D_SBC_BITRATE_STEP
  omega

/-- After a first lowering the rates visited go down in steps of 5, and every
candidate is evaluated with `protect = 1`. -/
theorem negotiate_down_visited (p : SBC_ENC_PARAMS) (cand : Nat → Int)
    (u : tA2D_ENCODER_UPDATE_PARAMS)
    (hp : ¬ (p.s16NumOfBlocks = 0 ∨ p.s16NumOfSubBands = 0 ∨ p.s16NumOfChannels = 0))
    (hlow : ∀ r, r < 5 → ¬ cand r > (u.MaxBitPool : Int)) :
    ∀ (fuel rate : Nat) (bp : Int) (n : Negotiation), rate < 65536 →
      negotiate p cand u fuel rate bp 1 = some n →
      ∃ tl, n.visited = (rate, 1) :: tl ∧
        List.Chain (fun a b => b + 5 = a) rate (tl.map Prod.fst) ∧ ∀ e ∈ tl, e.2 = 1 := by
  intro fuel
  induction fuel with
  | zero => intro rate bp n _ h; simp [negotiate] at h
  | succ fuel ih =>
    intro rate bp n hr h
    rw [negotiate_succ p cand u hp] at h
    by_cases h1 : cand rate > (u.MaxBitPool : Int)
    · rw [if_pos h1, if_neg (by decide)] at h
      obtain ⟨r, hr', rfl⟩ := Option.map_eq_some'.mp h
      have h5 : 5 ≤ rate := by
        by_contra hc; exact hlow rate (by omega) h1
      have e2 : (1 : Nat) ||| 1 = 1 := rfl
      rw [e2] at hr'
      obtain ⟨tl, htl, hch, hall⟩ := ih _ _ r (toUInt16_lt _) hr'
      refine ⟨r.visited, rfl, ?_, ?_⟩
      · rw [htl]
        exact List.Chain.cons (toUInt16_sub_step rate hr h5) hch
      · intro e he
        rw [htl] at he
        rcases List.mem_cons.mp he with rfl | he
        · rfl
        · exact hall e he
    · rw [if_neg h1] at h
      by_cases h3 : cand rate < (u.MinBitPool : Int)
      · rw [if_pos h3] at h
        have e3 : (if toUInt16 ((rate : Int) + A2D_SBC_BITRATE_STEP) < rate
            then 1 ||| 2 ||| 3 else 1 ||| 2) = 3 := by split <;> rfl
        rw [if_pos e3] at h
        cases h
        exact ⟨[], rfl, List.Chain.nil, by simp⟩
      · rw [if_neg h3] at h
        cases h
        exact ⟨[], rfl, List.Chain.nil, by simp⟩

/-- After a first raising the rates visited go up in steps of 5, and every
candidate is evaluated with `protect = 2`. -/
theorem negotiate_up_visited (p : SBC_ENC_PARAMS) (cand : Nat → Int)
    (u : tA2D_ENCODER_UPDATE_PARAMS)
    (hp : ¬ (p.s16NumOfBlocks = 0 ∨ p.s16NumOfSubBands = 0 ∨ p.s16NumOfChannels = 0)) :
    ∀ (fuel rate : Nat) (bp : Int) (n : Negotiation), rate < 65536 →
      negotiate p cand u fuel rate bp 2 = some n →
      ∃ tl, n.visited = (rate, 2) :: tl ∧
        List.Chain (fun a b => b = a + 5) rate (tl.map Prod.fst) ∧ ∀ e ∈ tl, e.2 = 2 := by
  intro fuel
  induction fuel with
  | zero => intro rate bp n _ h; simp [negotiate] at h
  | succ fuel ih =>
    intro rate bp n hr h
    rw [negotiate_succ p cand u hp] at h
    by_cases h1 : cand rate > (u.MaxBitPool : Int)
    · rw [if_pos h1, if_pos (by rfl)] at h
      cases h
      exact ⟨[], rfl, List.Chain.nil, by simp⟩
    · rw [if_neg h1] at h
      by_cases h3 : cand rate < (u.MinBitPool : Int)
      · rw [if_pos h3] at h
        by_cases h4 : toUInt16 ((rate : Int) + A2D_SBC_BITRATE_STEP) < rate
        · rw [if_pos h4, if_pos (by rfl)] at h
          cases h
          exact ⟨[], rfl, List.Chain.nil, by simp⟩
        · rw [if_neg h4, if_neg (by decide)] at h
          obtain ⟨r, hr', rfl⟩ := Option.map_eq_some'.mp h
          have e2 : (2 : Nat) ||| 2 = 2 := rfl
          rw [e2] at hr'
          obtain ⟨tl, htl, hch, hall⟩ := ih _ _ r (toUInt16_lt _) hr'
          refine ⟨r.visited, rfl, ?_, ?_⟩
          · rw [htl]
            exact List.Chain.cons (toUInt16_add_step rate hr h4) hch
          · intro e he
            rw [htl] at he
            rcases List.mem_cons.mp he with rfl | he
            · rfl
            · exact hall e he
      · rw [if_neg h3] at h
        cases h
        exact ⟨[], rfl, List.Chain.nil, by simp⟩

/-- A run from `protect = 0` visits rates that all go down by 5 or all go up
by 5, and evaluates no candidate with `protect = 3`. -/
theorem negotiate_visited (p : SBC_ENC_PARAMS) (cand : Nat → Int)
    (u : tA2D_ENCODER_UPDATE_PARAMS)
    (hp : ¬ (p.s16NumOfBlocks = 0 ∨ p.s16NumOfSubBands = 0 ∨ p.s16NumOfChannels = 0))
    (hlow : ∀ r, r < 5 → ¬ cand r > (u.MaxBitPool : Int))
    (fuel rate : Nat) (bp : Int) (n : Negotiation) (hr : rate < 65536)
    (h : negotiate p cand u fuel rate bp 0 = some n) :
    (List.Chain' (fun a b => b + 5 = a) (n.visited.map Prod.fst) ∨
      List.Chain' (fun a b => b = a + 5) (n.visited.map Prod.fst)) ∧
    ∀ e ∈ n.visited, e.2 ≠ 3 := by
  cases fuel with
  | zero => simp [negotiate] at h
  | succ fuel =>
    rw [negotiate_succ p cand u hp] at h
    by_cases h1 : cand rate > (u.MaxBitPool : Int)
    · rw [if_pos h1, if_neg (by decide)] at h
      obtain ⟨r, hr', rfl⟩ := Option.map_eq_some'.mp h
      have h5 : 5 ≤ rate := by
        by_contra hc; exact hlow rate (by omega) h1
      have e2 : (0 : Nat) ||| 1 = 1 := rfl
      rw [e2] at hr'
      obtain ⟨tl, htl, hch, hall⟩ :=
        negotiate_down_visited p cand u hp hlow _ _ _ r (toUInt16_lt _) hr'
      constructor
      · left
        show List.Chain' _ (List.map Prod.fst ((rate, 0) :: r.visited))
        rw [htl]
        exact List.Chain.cons (toUInt16_sub_step rate hr h5) hch
      · intro e he
        have he' : e ∈ (rate, 0) :: r.visited := he
        rw [htl] at he'
        rcases List.mem_cons.mp he' with rfl | he'
        · show (0 : Nat) ≠ 3; decide
        · rcases List.mem_cons.mp he' with rfl | he'
          · show (1 : Nat) ≠ 3; decide
          · rw [hall e he']; decide
    · rw [if_neg h1] at h
      by_cases h3 : cand rate < (u.MinBitPool : Int)
      · rw [if_pos h3] at h
        by_cases h4 : toUInt16 ((rate : Int) + A2D_SBC_BITRATE_STEP) < rate
        · rw [if_pos h4, if_pos (by rfl)] at h
          cases h
          exact ⟨Or.inl (List.chain'_singleton _), by simp⟩
        · rw [if_neg h4, if_neg (by decide)] at h
          obtain ⟨r, hr', rfl⟩ := Option.map_eq_some'.mp h
          have e2 : (0 : Nat) ||| 2 = 2 := rfl
          rw [e2] at hr'
          obtain ⟨tl, htl, hch, hall⟩ :=
            negotiate_up_visited p cand u hp _ _ _ r (toUInt16_lt _) hr'
          constructor
          · right
            show List.Chain' _ (List.map Prod.fst ((rate, 0) :: r.visited))
            rw [htl]
            exact List.Chain.cons (toUInt16_add_step rate hr h4) hch
          · intro e he
            have he' : e ∈ (rate, 0) :: r.visited := he
            rw [htl] at he'
            rcases List.mem_cons.mp he' with rfl | he'
            · show (0 : Nat) ≠ 3; decide
            · rcases List.mem_cons.mp he' with rfl | he'
              · show (2 : Nat) ≠ 3; decide
              · rw [hall e he']; decide
      · rw [if_neg h3] at h
        cases h
        exact ⟨Or.inl (List.chain'_singleton _), by simp⟩


theorem toInt32_of_small (x : Int) (h0 : -2147483648 ≤ x) (h1 : x < 2147483648) :
    toInt32 x = x := by
  unfold toInt32; omega

theorem toInt16_of_small (x : Int) (h0 : -32768 ≤ x) (h1 : x < 32768) :
    toInt16 x = x := by
  unfold toInt16; omega

theorem tdiv_bounds (a b : Int) (ha : 0 ≤ a) (hb : 0 < b) :
    0 ≤ Int.tdiv a b ∧ Int.tdiv a b ≤ a := by
  rw [Int.tdiv_eq_ediv ha (le_of_lt hb)]
  exact ⟨Int.ediv_nonneg ha (le_of_lt hb), Int.ediv_le_self _ ha⟩

/-- The decrement and clamps of the stereo branch keep a non-positive estimate
non-positive. -/
theorem stereo_tail_nonpos (bp0 ns : Int) (c : Prop) [Decidable c]
    (h0 : -32767 ≤ bp0) (h1 : bp0 ≤ 0) :
    (if ns = 8 then
      (if (if c then toInt16 (bp0 - 1) else bp0) > 255 then 255
        else (if c then toInt16 (bp0 - 1) else bp0))
     else
      (if (if c then toInt16 (bp0 - 1) else bp0) > 128 then 128
        else (if c then toInt16 (bp0 - 1) else bp0))) ≤ 0 := by
  have e : toInt16 (bp0 - 1) = bp0 - 1 := toInt16_of_small _ (by omega) (by omega)
  rw [e]
  split_ifs <;> omega

/-- At target rate 0 the stereo estimate is not positive. -/
theorem estimateStereo_rate_zero (p : SBC_ENC_PARAMS) (fs : Nat)
    (hrate : p.u16BitRate = 0)
    (hm : 0 ≤ p.s16ChannelMode ∧ p.s16ChannelMode ≤ 3)
    (hNS : 1 ≤ p.s16NumOfSubBands ∧ p.s16NumOfSubBands ≤ 255)
    (hNB : 1 ≤ p.s16NumOfBlocks ∧ p.s16NumOfBlocks ≤ 255)
    (hNC : 1 ≤ p.s16NumOfChannels ∧ p.s16NumOfChannels ≤ 2) :
    estimateStereo p fs ≤ 0 := by
  have hN : 0 ≤ 32 + 4 * p.s16NumOfSubBands * p.s16NumOfChannels
        + (p.s16ChannelMode - 2) * p.s16NumOfSubBands ∧
      32 + 4 * p.s16NumOfSubBands * p.s16NumOfChannels
        + (p.s16ChannelMode - 2) * p.s16NumOfSubBands ≤ 2327 := by
    have c1 : p.s16NumOfChannels = 1 ∨ p.s16NumOfChannels = 2 := by omega
    have c2 : p.s16ChannelMode = 0 ∨ p.s16ChannelMode = 1 ∨ p.s16ChannelMode = 2 ∨
      p.s16ChannelMode = 3 := by omega
    rcases c1 with c1 | c1 <;> rcases c2 with c2 | c2 | c2 | c2 <;> rw [c1, c2] <;>
      constructor <;> omega
  have hX := tdiv_bounds _ p.s16NumOfBlocks hN.1 (by omega)
  have e0 : toInt32 ((p.u16BitRate : Int) * p.s16NumOfSubBands * 1000) = 0 := by
    rw [hrate]; simp [toInt32]
  have hbp : -32767 ≤ toInt16 (toInt32
      (Int.tdiv (toInt32 (p.u16BitRate * p.s16NumOfSubBands * 1000)) fs
        - Int.tdiv (toInt32 (32 + 4 * p.s16NumOfSubBands * p.s16NumOfChannels
            + (p.s16ChannelMode - 2) * p.s16NumOfSubBands)) p.s16NumOfBlocks)) ∧
      toInt16 (toInt32
      (Int.tdiv (toInt32 (p.u16BitRate * p.s16NumOfSubBands * 1000)) fs
        - Int.tdiv (toInt32 (32 + 4 * p.s16NumOfSubBands * p.s16NumOfChannels
            + (p.s16ChannelMode - 2) * p.s16NumOfSubBands)) p.s16NumOfBlocks)) ≤ 0 := by
    have eN := toInt32_of_small _ (show (-2147483648 : Int) ≤
      32 + 4 * p.s16NumOfSubBands * p.s16NumOfChannels
        + (p.s16ChannelMode - 2) * p.s16NumOfSubBands by omega) (by omega)
    rw [e0, Int.zero_tdiv, eN, toInt32_of_small _ (by omega) (by omega),
      toInt16_of_small _ (by omega) (by omega)]
    constructor <;> omega
  unfold estimateStereo
  exact stereo_tail_nonpos _ _ _ hbp.1 hbp.2

/-- At target rate 0 the mono estimate is not positive. -/
theorem estimateMono_rate_zero (p : SBC_ENC_PARAMS) (fs : Nat)
    (hrate : p.u16BitRate = 0)
    (hNS : 1 ≤ p.s16NumOfSubBands ∧ p.s16NumOfSubBands ≤ 255)
    (hNB : 1 ≤ p.s16NumOfBlocks ∧ p.s16NumOfBlocks ≤ 255)
    (hNC : 1 ≤ p.s16NumOfChannels ∧ p.s16NumOfChannels ≤ 2) :
    estimateMono p fs ≤ 0 := by
  have hN : 0 ≤ Int.tdiv 32 p.s16NumOfChannels + 4 * p.s16NumOfSubBands ∧
      Int.tdiv 32 p.s16NumOfChannels + 4 * p.s16NumOfSubBands ≤ 1052 := by
    have c1 : p.s16NumOfChannels = 1 ∨ p.s16NumOfChannels = 2 := by omega
    rcases c1 with c1 | c1 <;> rw [c1] <;> constructor <;>
      simp only [show Int.tdiv 32 1 = 32 by decide, show Int.tdiv 32 2 = 16 by decide] <;> omega
  have e1 := toInt32_of_small _ (show (-2147483648 : Int) ≤
    Int.tdiv 32 p.s16NumOfChannels + 4 * p.s16NumOfSubBands by omega) (by omega)
  have hX := tdiv_bounds _ p.s16NumOfBlocks hN.1 (by omega)
  have e0 : toInt32 (p.s16NumOfSubBands * (p.u16BitRate : Int) * 1000) = 0 := by
    rw [hrate]; simp [toInt32]
  unfold estimateMono
  rw [e0, Int.zero_tdiv, e1, toInt32_of_small _ (by omega) (by omega),
    toInt16_of_small _ (by omega) (by omega)]
  omega

theorem bitpoolCandidate_nonneg (P : Platform) (p : SBC_ENC_PARAMS) (fs : Nat) :
    0 ≤ bitpoolCandidate P p fs := by
  unfold bitpoolCandidate
  dsimp only
  split_ifs <;> omega

/-- At target rate 0 the candidate is 0, for counts in the range of the
`uint8_t` fields they are copied from. -/
theorem bitpoolCandidate_rate_zero (P : Platform) (p : SBC_ENC_PARAMS) (fs : Nat)
    (hrate : p.u16BitRate = 0)
    (hS : 0 ≤ P.SBC_STEREO ∧ P.SBC_STEREO ≤ 3)
    (hJ : 0 ≤ P.SBC_JOINT_STEREO ∧ P.SBC_JOINT_STEREO ≤ 3)
    (hNS : 1 ≤ p.s16NumOfSubBands ∧ p.s16NumOfSubBands ≤ 255)
    (hNB : 1 ≤ p.s16NumOfBlocks ∧ p.s16NumOfBlocks ≤ 255)
    (hNC : 1 ≤ p.s16NumOfChannels ∧ p.s16NumOfChannels ≤ 2) :
    bitpoolCandidate P p fs = 0 := by
  have h0 := bitpoolCandidate_nonneg P p fs
  suffices h : bitpoolCandidate P p fs ≤ 0 by omega
  unfold bitpoolCandidate
  dsimp only
  by_cases hm : p.s16ChannelMode = P.SBC_JOINT_STEREO ∨ p.s16ChannelMode = P.SBC_STEREO
  · have hm' : 0 ≤ p.s16ChannelMode ∧ p.s16ChannelMode ≤ 3 := by
      rcases hm with hm | hm <;> rw [hm] <;> assumption
    have := estimateStereo_rate_zero p fs hrate hm' hNS hNB hNC
    rw [if_pos hm]
    split_ifs <;> omega
  · have := estimateMono_rate_zero p fs hrate hNS hNB hNC
    rw [if_neg hm]
    split_ifs <;> omega

set_option maxRecDepth 100000 in
theorem estimateStereo_low_rates :
    ∀ r ∈ [0, 1, 2, 3, 4], ∀ m ∈ [(0 : Int), 1, 2, 3], ∀ ns ∈ [(4 : Int), 8],
    ∀ nb ∈ [(4 : Int), 8, 12, 16], ∀ nc ∈ [(1 : Int), 2],
    ∀ fs ∈ [16000, 32000, 44100, 48000],
      estimateStereo ⟨m, ns, nb, 0, 0, nc, 0, r, 0⟩ fs ≤ 0 := by
  decide

set_option maxRecDepth 100000 in
theorem estimateMono_low_rates :
    ∀ r ∈ [0, 1, 2, 3, 4], ∀ ns ∈ [(4 : Int), 8],
    ∀ nb ∈ [(4 : Int), 8, 12, 16], ∀ nc ∈ [(1 : Int), 2],
    ∀ fs ∈ [16000, 32000, 44100, 48000],
      estimateMono ⟨0, ns, nb, 0, 0, nc, 0, r, 0⟩ fs ≤ 0 := by
  decide


theorem estimateStereo_congr (p q : SBC_ENC_PARAMS) (fs : Nat)
    (h1 : p.s16ChannelMode = q.s16ChannelMode) (h2 : p.s16NumOfSubBands = q.s16NumOfSubBands)
    (h3 : p.s16NumOfBlocks = q.s16NumOfBlocks) (h4 : p.s16NumOfChannels = q.s16NumOfChannels)
    (h5 : p.u16BitRate = q.u16BitRate) : estimateStereo p fs = estimateStereo q fs := by
  unfold estimateStereo
  rw [h1, h2, h3, h4, h5]

theorem estimateMono_congr (p q : SBC_ENC_PARAMS) (fs : Nat)
    (h2 : p.s16NumOfSubBands = q.s16NumOfSubBands)
    (h3 : p.s16NumOfBlocks = q.s16NumOfBlocks) (h4 : p.s16NumOfChannels = q.s16NumOfChannels)
    (h5 : p.u16BitRate = q.u16BitRate) : estimateMono p fs = estimateMono q fs := by
  unfold estimateMono
  rw [h2, h3, h4, h5]

theorem samplingFreqHz_mem (P : Platform) (p : SBC_ENC_PARAMS) :
    samplingFreqHz P p ∈ [16000, 32000, 44100, 48000] := by
  unfold samplingFreqHz
  split_ifs <;> simp

/-- On the legal grid the candidate is 0 at every target rate below 5 kbps, so
the rate is never lowered from there. -/
theorem bitpoolCandidate_low_rates (P : Platform) (hP : P.SmallModeCodes)
    (p : SBC_ENC_PARAMS) (hl : LegalCounts p) (fs : Nat)
    (hfs : fs ∈ [16000, 32000, 44100, 48000]) (hr : p.u16BitRate < 5) :
    bitpoolCandidate P p fs = 0 := by
  have h0 := bitpoolCandidate_nonneg P p fs
  suffices h : bitpoolCandidate P p fs ≤ 0 by omega
  obtain ⟨hNS, hNB, hNC⟩ := hl
  have mNS : p.s16NumOfSubBands ∈ [(4 : Int), 8] := by
    rcases hNS with h | h <;> simp [h]
  have mNB : p.s16NumOfBlocks ∈ [(4 : Int), 8, 12, 16] := by
    rcases hNB with h | h | h | h <;> simp [h]
  have mNC : p.s16NumOfChannels ∈ [(1 : Int), 2] := by
    rcases hNC with h | h <;> simp [h]
  have mr : p.u16BitRate ∈ [0, 1, 2, 3, 4] := by
    have : p.u16BitRate = 0 ∨ p.u16BitRate = 1 ∨ p.u16BitRate = 2 ∨ p.u16BitRate = 3 ∨
      p.u16BitRate = 4 := by omega
    rcases this with h | h | h | h | h <;> simp [h]
  unfold bitpoolCandidate
  dsimp only
  by_cases hm : p.s16ChannelMode = P.SBC_JOINT_STEREO ∨ p.s16ChannelMode = P.SBC_STEREO
  · have hm' : 0 ≤ p.s16ChannelMode ∧ p.s16ChannelMode ≤ 3 := by
      rcases hm with hm | hm <;> rw [hm]
      · exact hP.2
      · exact hP.1
    have mm : p.s16ChannelMode ∈ [(0 : Int), 1, 2, 3] := by
      have : p.s16ChannelMode = 0 ∨ p.s16ChannelMode = 1 ∨ p.s16ChannelMode = 2 ∨
        p.s16ChannelMode = 3 := by omega
      rcases this with h | h | h | h <;> simp [h]
    have := estimateStereo_low_rates _ mr _ mm _ mNS _ mNB _ mNC _ hfs
    rw [← estimateStereo_congr p ⟨p.s16ChannelMode, p.s16NumOfSubBands, p.s16NumOfBlocks, 0, 0,
      p.s16NumOfChannels, 0, p.u16BitRate, 0⟩ fs rfl rfl rfl rfl rfl] at this
    rw [if_pos hm]
    split_ifs <;> omega
  · have := estimateMono_low_rates _ mr _ mNS _ mNB _ mNC _ hfs
    rw [← estimateMono_congr p ⟨0, p.s16NumOfSubBands, p.s16NumOfBlocks, 0, 0,
      p.s16NumOfChannels, 0, p.u16BitRate, 0⟩ fs rfl rfl rfl rfl] at this
    rw [if_neg hm]
    split_ifs <;> omega

theorem resetZeroFields_fields (p : SBC_ENC_PARAMS) :
    (resetZeroFields p).s16NumOfSubBands =
      (if p.s16NumOfSubBands = 0 then 8 else p.s16NumOfSubBands) ∧
    (resetZeroFields p).s16NumOfBlocks =
      (if p.s16NumOfBlocks = 0 then 16 else p.s16NumOfBlocks) ∧
    (resetZeroFields p).s16NumOfChannels =
      (if p.s16NumOfChannels = 0 then 2 else p.s16NumOfChannels) ∧
    (resetZeroFields p).s16ChannelMode = p.s16ChannelMode ∧
    (resetZeroFields p).s16SamplingFreq = p.s16SamplingFreq ∧
    (resetZeroFields p).s16BitPool = p.s16BitPool ∧
    (resetZeroFields p).u16BitRate = p.u16BitRate := by
  unfold resetZeroFields SBC_MAX_NUM_OF_SUBBANDS SBC_MAX_NUM_OF_BLOCKS SBC_MAX_NUM_OF_CHANNELS
  by_cases h1 : p.s16NumOfSubBands = 0 <;> by_cases h2 : p.s16NumOfBlocks = 0 <;>
    by_cases h3 : p.s16NumOfChannels = 0 <;> simp [h1, h2, h3]

theorem resetZeroFields_nonzero (p : SBC_ENC_PARAMS) :
    ¬ ((resetZeroFields p).s16NumOfBlocks = 0 ∨ (resetZeroFields p).s16NumOfSubBands = 0 ∨
      (resetZeroFields p).s16NumOfChannels = 0) := by
  obtain ⟨e1, e2, e3, -⟩ := resetZeroFields_fields p
  rw [e1, e2, e3]
  split_ifs <;> simp_all

theorem resetZeroFields_byteCounts (p : SBC_ENC_PARAMS) (h : ByteCounts p) :
    (1 ≤ (resetZeroFields p).s16NumOfSubBands ∧ (resetZeroFields p).s16NumOfSubBands ≤ 255) ∧
    (1 ≤ (resetZeroFields p).s16NumOfBlocks ∧ (resetZeroFields p).s16NumOfBlocks ≤ 255) ∧
    (1 ≤ (resetZeroFields p).s16NumOfChannels ∧ (resetZeroFields p).s16NumOfChannels ≤ 2) := by
  obtain ⟨⟨a1, a2⟩, ⟨b1, b2⟩, ⟨c1, c2⟩⟩ := h
  obtain ⟨e1, e2, e3, -⟩ := resetZeroFields_fields p
  rw [e1, e2, e3]
  split_ifs <;> omega

theorem resetZeroFields_legal (p : SBC_ENC_PARAMS) (h : LegalCounts p) :
    resetZeroFields p = p := by
  obtain ⟨a, b, c⟩ := h
  have h1 : p.s16NumOfSubBands ≠ 0 := by omega
  have h2 : p.s16NumOfBlocks ≠ 0 := by omega
  have h3 : p.s16NumOfChannels ≠ 0 := by omega
  simp [resetZeroFields, h1, h2, h3]

theorem a2d_sbc_source_rate_lt (cb : tA2D_SBC_ENCODER_CB) : a2d_sbc_source_rate cb < 65536 := by
  unfold a2d_sbc_source_rate A2D_SBC_NON_EDR_MAX_RATE A2D_SBC_DEFAULT_BITRATE
  split_ifs <;> decide


theorem updatePrepare_params (P : Platform) (cb : tA2D_SBC_ENCODER_CB)
    (u : tA2D_ENCODER_UPDATE_PARAMS) :
    (updatePrepare P cb u).sbc_encoder_params =
      { resetZeroFields cb.sbc_encoder_params with u16BitRate := a2d_sbc_source_rate cb } := rfl

theorem updatePrepare_guard (P : Platform) (cb : tA2D_SBC_ENCODER_CB)
    (u : tA2D_ENCODER_UPDATE_PARAMS) :
    ¬ ((updatePrepare P cb u).sbc_encoder_params.s16NumOfBlocks = 0 ∨
      (updatePrepare P cb u).sbc_encoder_params.s16NumOfSubBands = 0 ∨
      (updatePrepare P cb u).sbc_encoder_params.s16NumOfChannels = 0) :=
  resetZeroFields_nonzero cb.sbc_encoder_params

/-- For counts in the byte range the negotiation of `a2d_sbc_encoder_update`
ends within 65537 iterations. -/
theorem updateNegotiation_total (P : Platform) (hP : P.SmallModeCodes)
    (cb : tA2D_SBC_ENCODER_CB) (hc : ByteCounts cb.sbc_encoder_params)
    (u : tA2D_ENCODER_UPDATE_PARAMS) (fuel : Nat) (hf : 65537 ≤ fuel) :
    ∃ n, updateNegotiation P fuel cb u = some n := by
  unfold updateNegotiation
  obtain ⟨b1, b2, b3⟩ := resetZeroFields_byteCounts _ hc
  refine negotiate_terminates _ _ u (updatePrepare_guard P cb u) ?_ fuel _ 0
    (a2d_sbc_source_rate_lt _) hf
  have := bitpoolCandidate_rate_zero P
    { (updatePrepare P cb u).sbc_encoder_params with u16BitRate := 0 }
    (samplingFreqHz P (updatePrepare P cb u).sbc_encoder_params) rfl hP.1 hP.2 b1 b2 b3
  dsimp only
  rw [this]
  have : (0 : Int) ≤ (u.MaxBitPool : Int) := Int.ofNat_nonneg _
  omega

theorem RateLowered_cons (cand : Nat → Int) (u : tA2D_ENCODER_UPDATE_PARAMS)
    (a : Nat × Nat) (l : List (Nat × Nat)) :
    RateLowered cand u (a :: l) ↔ cand a.1 > (u.MaxBitPool : Int) ∨ RateLowered cand u l := by
  unfold RateLowered
  simp only [List.exists_mem_cons_iff]

theorem RateRaised_cons (cand : Nat → Int) (u : tA2D_ENCODER_UPDATE_PARAMS)
    (a : Nat × Nat) (l : List (Nat × Nat)) :
    RateRaised cand u (a :: l) ↔
      (¬ cand a.1 > (u.MaxBitPool : Int) ∧ cand a.1 < (u.MinBitPool : Int)) ∨
        RateRaised cand u l := by
  unfold RateRaised
  simp only [List.exists_mem_cons_iff]

theorem RateOverflowed_cons (cand : Nat → Int) (u : tA2D_ENCODER_UPDATE_PARAMS)
    (a : Nat × Nat) (l : List (Nat × Nat)) :
    RateOverflowed cand u (a :: l) ↔
      ((¬ cand a.1 > (u.MaxBitPool : Int) ∧ cand a.1 < (u.MinBitPool : Int)) ∧
        toUInt16 ((a.1 : Int) + A2D_SBC_BITRATE_STEP) < a.1) ∨
        RateOverflowed cand u l := by
  unfold RateOverflowed
  simp only [List.exists_mem_cons_iff]

theorem Rate_nil (cand : Nat → Int) (u : tA2D_ENCODER_UPDATE_PARAMS) :
    ¬ RateLowered cand u [] ∧ ¬ RateRaised cand u [] ∧ ¬ RateOverflowed cand u [] := by
  unfold RateLowered RateRaised RateOverflowed
  simp

/-- The flag `protect` at the end of the negotiation loop, started with
`protect` in 0..2 (1: lowered before, 2: raised before): it is 3 exactly when
the rate was both lowered and raised, or the increment overflowed; and then
the last candidate is outside `[MinBitPool, MaxBitPool]`. -/
theorem negotiate_protect (p : SBC_ENC_PARAMS) (cand : Nat → Int)
    (u : tA2D_ENCODER_UPDATE_PARAMS)
    (hp : ¬ (p.s16NumOfBlocks = 0 ∨ p.s16NumOfSubBands = 0 ∨ p.s16NumOfChannels = 0)) :
    ∀ (fuel rate : Nat) (bp : Int) (protect : Nat) (n : Negotiation),
      protect = 0 ∨ protect = 1 ∨ protect = 2 →
      negotiate p cand u fuel rate bp protect = some n →
      (n.protect = 3 ↔
        ((protect = 1 ∨ RateLowered cand u n.visited) ∧
          (protect = 2 ∨ RateRaised cand u n.visited)) ∨
        RateOverflowed cand u n.visited) ∧
      (n.protect = 3 →
        ¬ ((u.MinBitPool : Int) ≤ n.s16BitPool ∧ n.s16BitPool ≤ (u.MaxBitPool : Int))) := by
  intro fuel
  induction fuel with
  | zero => intro rate bp protect n _ h; simp [negotiate] at h
  | succ fuel ih =>
    intro rate bp protect n hpr h
    obtain ⟨nL, nR, nO⟩ := Rate_nil cand u
    rw [negotiate_succ p cand u hp] at h
    by_cases h1 : cand rate > (u.MaxBitPool : Int)
    · rw [if_pos h1] at h
      by_cases h2 : protect ||| 1 = 3
      · rw [if_pos h2] at h
        cases h
        have e2 : protect = 2 := by
          rcases hpr with rfl | rfl | rfl
          · exact absurd h2 (by decide)
          · exact absurd h2 (by decide)
          · rfl
        refine ⟨⟨fun _ => Or.inl ⟨Or.inr ?_, Or.inl e2⟩, fun _ => h2⟩, fun _ hin => ?_⟩
        · exact (RateLowered_cons cand u _ _).mpr (Or.inl h1)
        · exact absurd hin.2 (by simpa using h1)
      · rw [if_neg h2] at h
        obtain ⟨r, hr, rfl⟩ := Option.map_eq_some'.mp h
        have e1 : protect ||| 1 = 1 := by
          rcases hpr with rfl | rfl | rfl
          · rfl
          · rfl
          · exact absurd rfl h2
        rw [e1] at hr
        obtain ⟨i1, i2⟩ := ih _ _ 1 r (Or.inr (Or.inl rfl)) hr
        have hne : protect ≠ 2 := fun hh => h2 (by rw [hh]; rfl)
        refine ⟨?_, i2⟩
        show r.protect = 3 ↔
          ((protect = 1 ∨ RateLowered cand u ((rate, protect) :: r.visited)) ∧
            (protect = 2 ∨ RateRaised cand u ((rate, protect) :: r.visited))) ∨
          RateOverflowed cand u ((rate, protect) :: r.visited)
        rw [i1, RateLowered_cons, RateRaised_cons, RateOverflowed_cons]
        constructor
        · rintro (⟨-, hb⟩ | ho)
          · rcases hb with hb | hb
            · exact absurd hb (by decide)
            · exact Or.inl ⟨Or.inr (Or.inl h1), Or.inr (Or.inr hb)⟩
          · exact Or.inr (Or.inr ho)
        · rintro (⟨-, hb⟩ | ho)
          · rcases hb with hb | hb | hb
            · exact absurd hb hne
            · exact absurd h1 hb.1
            · exact Or.inl ⟨Or.inl rfl, Or.inr hb⟩
          · rcases ho with ho | ho
            · exact absurd h1 ho.1.1
            · exact Or.inr ho
    · rw [if_neg h1] at h
      by_cases h3 : cand rate < (u.MinBitPool : Int)
      · rw [if_pos h3] at h
        by_cases hov : toUInt16 ((rate : Int) + A2D_SBC_BITRATE_STEP) < rate
        · rw [if_pos hov] at h
          have e3 : protect ||| 2 ||| 3 = 3 := by
            rcases hpr with rfl | rfl | rfl <;> rfl
          rw [e3, if_pos rfl] at h
          cases h
          refine ⟨⟨fun _ => Or.inr ?_, fun _ => rfl⟩, fun _ hin => ?_⟩
          · exact (RateOverflowed_cons cand u _ _).mpr (Or.inl ⟨⟨h1, h3⟩, hov⟩)
          · exact absurd hin.1 (by simpa using h3)
        · rw [if_neg hov] at h
          by_cases h4 : protect ||| 2 = 3
          · rw [if_pos h4] at h
            cases h
            have e1 : protect = 1 := by
              rcases hpr with rfl | rfl | rfl
              · exact absurd h4 (by decide)
              · rfl
              · exact absurd h4 (by decide)
            refine ⟨⟨fun _ => Or.inl ⟨Or.inl e1, Or.inr ?_⟩, fun _ => h4⟩, fun _ hin => ?_⟩
            · exact (RateRaised_cons cand u _ _).mpr (Or.inl ⟨h1, h3⟩)
            · exact absurd hin.1 (by simpa using h3)
          · rw [if_neg h4] at h
            obtain ⟨r, hr, rfl⟩ := Option.map_eq_some'.mp h
            have e2 : protect ||| 2 = 2 := by
              rcases hpr with rfl | rfl | rfl
              · rfl
              · exact absurd rfl h4
              · rfl
            rw [e2] at hr
            obtain ⟨i1, i2⟩ := ih _ _ 2 r (Or.inr (Or.inr rfl)) hr
            have hne : protect ≠ 1 := fun hh => h4 (by rw [hh]; rfl)
            refine ⟨?_, i2⟩
            show r.protect = 3 ↔
              ((protect = 1 ∨ RateLowered cand u ((rate, protect) :: r.visited)) ∧
                (protect = 2 ∨ RateRaised cand u ((rate, protect) :: r.visited))) ∨
              RateOverflowed cand u ((rate, protect) :: r.visited)
            rw [i1, RateLowered_cons, RateRaised_cons, RateOverflowed_cons]
            constructor
            · rintro (⟨ha, -⟩ | ho)
              · rcases ha with ha | ha
                · exact absurd ha (by decide)
                · exact Or.inl ⟨Or.inr (Or.inr ha), Or.inr (Or.inl ⟨h1, h3⟩)⟩
              · exact Or.inr (Or.inr ho)
            · rintro (⟨ha, -⟩ | ho)
              · rcases ha with ha | ha | ha
                · exact absurd ha hne
                · exact absurd ha h1
                · exact Or.inl ⟨Or.inr ha, Or.inl rfl⟩
              · rcases ho with ho | ho
                · exact absurd ho.2 hov
                · exact Or.inr ho
      · rw [if_neg h3] at h
        cases h
        have hne3 : protect ≠ 3 := by rcases hpr with rfl | rfl | rfl <;> decide
        refine ⟨⟨fun h3' => absurd h3' hne3, ?_⟩, fun h3' => absurd h3' hne3⟩
        show _ → protect = 3
        rw [RateLowered_cons, RateRaised_cons, RateOverflowed_cons]
        rintro (⟨ha, hb⟩ | ho)
        · rcases ha with ha | ha | ha
          · rcases hb with hb | hb | hb
            · omega
            · exact absurd hb.2 h3
            · exact absurd hb nR
          · exact absurd ha h1
          · exact absurd ha nL
        · rcases ho with ho | ho
          · exact absurd ho.1.2 h3
          · exact absurd ho nO

theorem updateNegotiation_candidate (P : Platform) (fuel : Nat) (cb : tA2D_SBC_ENCODER_CB)
    (u : tA2D_ENCODER_UPDATE_PARAMS) :
    updateNegotiation P fuel cb u =
      negotiate (updatePrepare P cb u).sbc_encoder_params (updateCandidate P cb u)
        u fuel (updatePrepare P cb u).sbc_encoder_params.u16BitRate 0 0 := rfl

/-- C2: whenever the negotiation of `a2d_sbc_encoder_update` ends, the bit
pool that is committed to the encoder configuration lies in
`[MinBitPool, MaxBitPool]` or the loop was left with `protect = 3`, and not
both. The loop is left with `protect = 3` exactly when the rate was both
lowered and raised (at one evaluated rate the candidate was above
`MaxBitPool`, at another it was below `MinBitPool`), or the 16-bit increment
of the rate overflowed. For counts in the byte range the negotiation does
end, within 65537 iterations. -/
theorem update_bitpool_bracket (P : Platform) (cb : tA2D_SBC_ENCODER_CB)
    (u : tA2D_ENCODER_UPDATE_PARAMS) :
    (∀ fuel n, updateNegotiation P fuel cb u = some n →
      ((((u.MinBitPool : Int) ≤ (updateCommit P cb u n).sbc_encoder_params.s16BitPool ∧
          (updateCommit P cb u n).sbc_encoder_params.s16BitPool ≤ (u.MaxBitPool : Int)) ∨
        n.protect = 3) ∧
      (n.protect = 3 →
        ¬ ((u.MinBitPool : Int) ≤ (updateCommit P cb u n).sbc_encoder_params.s16BitPool ∧
          (updateCommit P cb u n).sbc_encoder_params.s16BitPool ≤ (u.MaxBitPool : Int))) ∧
      (n.protect = 3 ↔
        (RateLowered (updateCandidate P cb u) u n.visited ∧
          RateRaised (updateCandidate P cb u) u n.visited) ∨
        RateOverflowed (updateCandidate P cb u) u n.visited))) ∧
    (P.SmallModeCodes → ByteCounts cb.sbc_encoder_params →
      ∃ n, updateNegotiation P 65537 cb u = some n ∧
        (((u.MinBitPool : Int) ≤ (updateCommit P cb u n).sbc_encoder_params.s16BitPool ∧
          (updateCommit P cb u n).sbc_encoder_params.s16BitPool ≤ (u.MaxBitPool : Int)) ∨
        n.protect = 3) ∧
        (n.protect = 3 →
          ¬ ((u.MinBitPool : Int) ≤ (updateCommit P cb u n).sbc_encoder_params.s16BitPool ∧
            (updateCommit P cb u n).sbc_encoder_params.s16BitPool ≤ (u.MaxBitPool : Int))) ∧
        (n.protect = 3 ↔
          (RateLowered (updateCandidate P cb u) u n.visited ∧
            RateRaised (updateCandidate P cb u) u n.visited) ∨
          RateOverflowed (updateCandidate P cb u) u n.visited)) := by
  have key : ∀ fuel n, updateNegotiation P fuel cb u = some n →
      ((((u.MinBitPool : Int) ≤ (updateCommit P cb u n).sbc_encoder_params.s16BitPool ∧
          (updateCommit P cb u n).sbc_encoder_params.s16BitPool ≤ (u.MaxBitPool : Int)) ∨
        n.protect = 3) ∧
      (n.protect = 3 →
        ¬ ((u.MinBitPool : Int) ≤ (updateCommit P cb u n).sbc_encoder_params.s16BitPool ∧
          (updateCommit P cb u n).sbc_encoder_params.s16BitPool ≤ (u.MaxBitPool : Int))) ∧
      (n.protect = 3 ↔
        (RateLowered (updateCandidate P cb u) u n.visited ∧
          RateRaised (updateCandidate P cb u) u n.visited) ∨
        RateOverflowed (updateCandidate P cb u) u n.visited)) := by
    intro fuel n h
    have i0 := negotiate_bracket _ _ u (updatePrepare_guard P cb u) fuel _ _ _ n h
    rw [updateNegotiation_candidate] at h
    obtain ⟨i1, i2⟩ := negotiate_protect _ _ u (updatePrepare_guard P cb u) fuel _ _ 0 n
      (Or.inl rfl) h
    refine ⟨i0, i2, ?_⟩
    rw [i1]
    constructor
    · rintro (⟨ha, hb⟩ | ho)
      · rcases ha with ha | ha
        · exact absurd ha (by decide)
        · rcases hb with hb | hb
          · exact absurd hb (by decide)
          · exact Or.inl ⟨ha, hb⟩
      · exact Or.inr ho
    · rintro (⟨ha, hb⟩ | ho)
      · exact Or.inl ⟨Or.inr ha, Or.inr hb⟩
      · exact Or.inr ho
  refine ⟨key, fun hP hc => ?_⟩
  obtain ⟨n, hn⟩ := updateNegotiation_total P hP cb hc u 65537 (le_refl _)
  exact ⟨n, hn, key _ n hn⟩

/-- Witness for C2. The update of scenario E1 with the range `[2, 53]` leaves
the loop at its first pass with `protect = 0` and commits the bit pool 53: the
rate was neither lowered nor raised. With the empty range `[60, 50]` the rate
is lowered from 328 to 313 kbps (candidates 53, 52, 51 above 50), raised there
(candidate 50 below 60), and the loop is left with `protect = 3` and the bit
pool 50 outside the range. -/
theorem update_bitpool_bracket_witness :
    refPlatform.SmallModeCodes ∧ ByteCounts (scenarioE1 refPlatform).sbc_encoder_params ∧
    updateNegotiation refPlatform 65537 (scenarioE1 refPlatform) ⟨663, 53, 2⟩ =
      some ⟨328, 53, 0, [(328, 0)]⟩ ∧
    (updateCommit refPlatform (scenarioE1 refPlatform) ⟨663, 53, 2⟩
      ⟨328, 53, 0, [(328, 0)]⟩).sbc_encoder_params.s16BitPool = 53 ∧
    ¬ ((RateLowered (updateCandidate refPlatform (scenarioE1 refPlatform) ⟨663, 53, 2⟩)
          ⟨663, 53, 2⟩ [(328, 0)] ∧
        RateRaised (updateCandidate refPlatform (scenarioE1 refPlatform) ⟨663, 53, 2⟩)
          ⟨663, 53, 2⟩ [(328, 0)]) ∨
      RateOverflowed (updateCandidate refPlatform (scenarioE1 refPlatform) ⟨663, 53, 2⟩)
        ⟨663, 53, 2⟩ [(328, 0)]) ∧
    updateNegotiation refPlatform 65537 (scenarioE1 refPlatform) ⟨663, 50, 60⟩ =
      some ⟨318, 50, 3, [(328, 0), (323, 1), (318, 1), (313, 1)]⟩ ∧
    ((RateLowered (updateCandidate refPlatform (scenarioE1 refPlatform) ⟨663, 50, 60⟩)
          ⟨663, 50, 60⟩ [(328, 0), (323, 1), (318, 1), (313, 1)] ∧
        RateRaised (updateCandidate refPlatform (scenarioE1 refPlatform) ⟨663, 50, 60⟩)
          ⟨663, 50, 60⟩ [(328, 0), (323, 1), (318, 1), (313, 1)]) ∨
      RateOverflowed (updateCandidate refPlatform (scenarioE1 refPlatform) ⟨663, 50, 60⟩)
        ⟨663, 50, 60⟩ [(328, 0), (323, 1), (318, 1), (313, 1)]) ∧
    ¬ ((((60 : Nat) : Int) ≤
        (updateCommit refPlatform (scenarioE1 refPlatform) ⟨663, 50, 60⟩
          ⟨318, 50, 3, [(328, 0), (323, 1), (318, 1), (313, 1)]⟩).sbc_encoder_params.s16BitPool) ∧
      (updateCommit refPlatform (scenarioE1 refPlatform) ⟨663, 50, 60⟩
          ⟨318, 50, 3, [(328, 0), (323, 1), (318, 1), (313, 1)]⟩).sbc_encoder_params.s16BitPool
        ≤ ((50 : Nat) : Int)) ∧
    (∃ n, updateNegotiation refPlatform 65537 (scenarioE1 refPlatform) ⟨663, 53, 2⟩ = some n) :=
  ⟨by decide, by decide, by decide!, by decide!,
    fun h => absurd (((update_bitpool_bracket refPlatform (scenarioE1 refPlatform)
      ⟨663, 53, 2⟩).1 65537 ⟨328, 53, 0, [(328, 0)]⟩ (by decide!)).2.2.mpr h) (by decide),
    by decide!,
    ((update_bitpool_bracket refPlatform (scenarioE1 refPlatform)
      ⟨663, 50, 60⟩).1 65537 ⟨318, 50, 3, [(328, 0), (323, 1), (318, 1), (313, 1)]⟩
      (by decide!)).2.2.mp rfl,
    ((update_bitpool_bracket refPlatform (scenarioE1 refPlatform)
      ⟨663, 50, 60⟩).1 65537 ⟨318, 50, 3, [(328, 0), (323, 1), (318, 1), (313, 1)]⟩
      (by decide!)).2.1 rfl,
    (((update_bitpool_bracket refPlatform (scenarioE1 refPlatform) ⟨663, 53, 2⟩).2
      (by decide) (by decide)).imp fun _ h => h.1)⟩


theorem bitpoolCandidate_mono (P : Platform) (p : SBC_ENC_PARAMS) (fs : Nat)
    (h : ¬ (p.s16ChannelMode = P.SBC_JOINT_STEREO ∨ p.s16ChannelMode = P.SBC_STEREO)) :
    bitpoolCandidate P p fs = if estimateMono p fs < 0 then 0 else estimateMono p fs := by
  unfold bitpoolCandidate
  simp only [if_neg h]

theorem bitpoolCandidate_stereo (P : Platform) (p : SBC_ENC_PARAMS) (fs : Nat)
    (h : p.s16ChannelMode = P.SBC_JOINT_STEREO ∨ p.s16ChannelMode = P.SBC_STEREO) :
    bitpoolCandidate P p fs = if estimateStereo p fs < 0 then 0 else estimateStereo p fs := by
  unfold bitpoolCandidate
  simp only [if_pos h]

theorem updateNegotiation_eq (P : Platform) (fuel : Nat) (cb : tA2D_SBC_ENCODER_CB)
    (u : tA2D_ENCODER_UPDATE_PARAMS) :
    updateNegotiation P fuel cb u =
      negotiate (updatePrepare P cb u).sbc_encoder_params
        (fun r => bitpoolCandidate P
          { (updatePrepare P cb u).sbc_encoder_params with u16BitRate := r }
          (samplingFreqHz P (updatePrepare P cb u).sbc_encoder_params))
        u fuel (updatePrepare P cb u).sbc_encoder_params.u16BitRate 0 0 := rfl

/-- While every candidate is above the maximum the loop only lowers the rate
and never ends. -/
theorem negotiate_diverges (p : SBC_ENC_PARAMS) (cand : Nat → Int)
    (u : tA2D_ENCODER_UPDATE_PARAMS)
    (hp : ¬ (p.s16NumOfBlocks = 0 ∨ p.s16NumOfSubBands = 0 ∨ p.s16NumOfChannels = 0))
    (hbig : ∀ r, r < 65536 → cand r > (u.MaxBitPool : Int)) :
    ∀ (fuel rate : Nat) (bp : Int) (protect : Nat), rate < 65536 →
      protect = 0 ∨ protect = 1 →
      negotiate p cand u fuel rate bp protect = none := by
  intro fuel
  induction fuel with
  | zero => intro rate bp protect _ _; rfl
  | succ fuel ih =>
    intro rate bp protect hr hpr
    rw [negotiate_succ p cand u hp, if_pos (hbig rate hr)]
    have e : protect ||| 1 = 1 := by rcases hpr with rfl | rfl <;> rfl
    rw [e, if_neg (by decide), ih _ _ 1 (toUInt16_lt _) (Or.inr rfl)]
    rfl

/-- With one sub-band, one channel and a block count of -1 at 48000 Hz, the
mono estimate is `⌊1000·r/48000⌋ + 36` at every 16-bit rate `r`. -/
theorem estimateMono_negative_blocks (r : Nat) (hr : r < 65536) :
    estimateMono ⟨0, 1, -1, 0, 3, 1, 0, r, 0⟩ 48000 = (r : Int) * 1000 / 48000 + 36 := by
  unfold estimateMono
  have e1 : toInt32 ((1 : Int) * (r : Int) * 1000) = (r : Int) * 1000 := by
    rw [one_mul]; exact toInt32_of_small _ (by omega) (by omega)
  have e2 : toInt32 (((48000 : Nat) : Int) * 1) = 48000 := by decide
  have e3 : Int.tdiv (toInt32 (Int.tdiv 32 1 + 4 * 1)) (-1) = -36 := by decide
  have e4 : Int.tdiv ((r : Int) * 1000) 48000 = (r : Int) * 1000 / 48000 :=
    Int.tdiv_eq_ediv (by omega) (by decide)
  dsimp only
  rw [e1, e2, e3, e4, toInt32_of_small _ (by omega) (by omega),
    toInt16_of_small _ (by omega) (by omega)]
  omega

/-- The hypothesis `ByteCounts` of `update_negotiation_terminates` is used:
with a block count of -1 (MONO, one sub-band, one channel, 48000 Hz,
`MaxBitPool = 10`) every candidate is above the maximum, the rate is lowered
for ever, and the loop never ends. No store of the file gives
`s16NumOfBlocks` a negative value: line 148 copies a `uint8_t` init parameter
and lines 199-203 store 16. -/
theorem update_negotiation_diverges :
    ¬ ∃ fuel n, updateNegotiation refPlatform fuel
      (sessionCb true true 0 1 (-1) 3 1 ⟨48000, 2, 16⟩ 663) ⟨663, 10, 0⟩ = some n := by
  rintro ⟨fuel, n, h⟩
  have hq : (updatePrepare refPlatform (sessionCb true true 0 1 (-1) 3 1 ⟨48000, 2, 16⟩ 663)
      ⟨663, 10, 0⟩).sbc_encoder_params = ⟨0, 1, -1, 0, 3, 1, 0, 328, 0⟩ := by decide
  rw [updateNegotiation_eq, hq] at h
  have hfs : samplingFreqHz refPlatform ⟨0, 1, -1, 0, 3, 1, 0, 328, 0⟩ = 48000 := by decide
  rw [hfs] at h
  have hbig : ∀ r, r < 65536 →
      bitpoolCandidate refPlatform ⟨0, 1, -1, 0, 3, 1, 0, r, 0⟩ 48000 >
        (((⟨663, 10, 0⟩ : tA2D_ENCODER_UPDATE_PARAMS).MaxBitPool : Nat) : Int) := by
    intro r hr
    have hm : ¬ ((0 : Int) = refPlatform.SBC_JOINT_STEREO ∨ (0 : Int) = refPlatform.SBC_STEREO) := by
      decide
    rw [bitpoolCandidate_mono _ _ _ hm, estimateMono_negative_blocks r hr]
    show _ > ((10 : Nat) : Int)
    split_ifs <;> omega
  rw [negotiate_diverges _ _ _ (by decide) hbig fuel _ 0 0 (by decide) (Or.inl rfl)] at h
  cases h

/-- C5: for every encoder configuration that the file can store, legal or
not (sub-band and block counts in 0..255, which are copied from `uint8_t` init
parameters, and a channel count in 0..2; zero counts are reset before the
loop), every peer type and every `(MinBitPool, MaxBitPool)`, the negotiation
loop ends within 65537 iterations, also when the 16-bit target rate wraps
around, and `a2d_sbc_encoder_update` returns. -/
theorem update_negotiation_terminates (P : Platform) (hP : P.SmallModeCodes)
    (cb : tA2D_SBC_ENCODER_CB) (hc : ByteCounts cb.sbc_encoder_params)
    (u : tA2D_ENCODER_UPDATE_PARAMS) (fuel : Nat) (hf : 65537 ≤ fuel) :
    (∃ n, updateNegotiation P fuel cb u = some n) ∧
    (∃ cb1, a2d_sbc_encoder_update P fuel cb u = some cb1) := by
  obtain ⟨n, hn⟩ := updateNegotiation_total P hP cb hc u fuel hf
  refine ⟨⟨n, hn⟩, ?_⟩
  unfold a2d_sbc_encoder_update
  rw [hn]
  exact ⟨_, rfl⟩

/-- Witness for C5: a non-EDR peer, zero sub-band and channel counts, 255 blocks
and the empty range `[250, 0]`. -/
theorem update_negotiation_terminates_witness :
    refPlatform.SmallModeCodes ∧
    ByteCounts (sessionCb false false 2 0 255 0 0 ⟨48000, 2, 16⟩ 663).sbc_encoder_params ∧
    (∃ n, updateNegotiation refPlatform 65537
      (sessionCb false false 2 0 255 0 0 ⟨48000, 2, 16⟩ 663) ⟨663, 0, 250⟩ = some n) ∧
    (∃ cb1, a2d_sbc_encoder_update refPlatform 65537
      (sessionCb false false 2 0 255 0 0 ⟨48000, 2, 16⟩ 663) ⟨663, 0, 250⟩ = some cb1) :=
  ⟨by decide, by decide,
    update_negotiation_terminates refPlatform (by decide) _ (by decide) _ 65537 (le_refl _)⟩

/-- C6: on a legal configuration the negotiation of `a2d_sbc_encoder_update`
ends, and the target rates at which it evaluated a candidate either all go
down in steps of 5 kbps or all go up in steps of 5 kbps; no candidate is
evaluated once `protect` is 3. -/
theorem update_rates_monotone (P : Platform) (hP : P.SmallModeCodes)
    (cb : tA2D_SBC_ENCODER_CB) (hl : LegalCounts cb.sbc_encoder_params)
    (u : tA2D_ENCODER_UPDATE_PARAMS) :
    (∃ n, updateNegotiation P 65537 cb u = some n) ∧
    ∀ fuel n, updateNegotiation P fuel cb u = some n →
      (List.Chain' (fun a b => b + 5 = a) (n.visited.map Prod.fst) ∨
        List.Chain' (fun a b => b = a + 5) (n.visited.map Prod.fst)) ∧
      ∀ e ∈ n.visited, e.2 ≠ 3 := by
  have hb : ByteCounts cb.sbc_encoder_params := by
    obtain ⟨a, b, c⟩ := hl
    refine ⟨⟨?_, ?_⟩, ⟨?_, ?_⟩, ⟨?_, ?_⟩⟩ <;> omega
  refine ⟨updateNegotiation_total P hP cb hb u 65537 (le_refl _), ?_⟩
  intro fuel n h
  unfold updateNegotiation at h
  refine negotiate_visited _ _ u (updatePrepare_guard P cb u) ?_ fuel _ 0 n
    (a2d_sbc_source_rate_lt _) h
  intro r hr
  have hl' : LegalCounts { (updatePrepare P cb u).sbc_encoder_params with u16BitRate := r } := by
    rw [updatePrepare_params, resetZeroFields_legal _ hl]
    exact hl
  have := bitpoolCandidate_low_rates P hP
    { (updatePrepare P cb u).sbc_encoder_params with u16BitRate := r } hl'
    (samplingFreqHz P (updatePrepare P cb u).sbc_encoder_params)
    (samplingFreqHz_mem _ _) hr
  dsimp only
  rw [this]
  have : (0 : Int) ≤ (u.MaxBitPool : Int) := Int.ofNat_nonneg _
  omega

/-- Witness for C6: scenario E6, where the rate is raised 217 times. -/
theorem update_rates_monotone_witness :
    refPlatform.SmallModeCodes ∧ LegalCounts (scenarioE6 refPlatform true).sbc_encoder_params ∧
    (∃ n, updateNegotiation refPlatform 65537 (scenarioE6 refPlatform true) ⟨663, 250, 250⟩
      = some n) ∧
    ∀ fuel n, updateNegotiation refPlatform fuel (scenarioE6 refPlatform true) ⟨663, 250, 250⟩
        = some n →
      (List.Chain' (fun a b => b + 5 = a) (n.visited.map Prod.fst) ∨
        List.Chain' (fun a b => b = a + 5) (n.visited.map Prod.fst)) ∧
      ∀ e ∈ n.visited, e.2 ≠ 3 :=
  ⟨by decide, by decide,
    update_rates_monotone refPlatform (by decide) (scenarioE6 refPlatform true) (by decide)
      ⟨663, 250, 250⟩⟩


/-- Two runs of the negotiation of `a2d_sbc_encoder_update` from the same
control block that both end, end in the same state. -/
theorem updateNegotiation_unique (P : Platform) (cb : tA2D_SBC_ENCODER_CB)
    (u : tA2D_ENCODER_UPDATE_PARAMS) (f1 f2 : Nat) (n1 n2 : Negotiation)
    (h1 : updateNegotiation P f1 cb u = some n1) (h2 : updateNegotiation P f2 cb u = some n2) :
    n1 = n2 := by
  rw [updateNegotiation_eq] at h1 h2
  have a := negotiate_fuel_mono _ _ _ f1 f2 _ _ _ n1 h1
  have b := negotiate_fuel_mono _ _ _ f2 f1 _ _ _ n2 h2
  rw [Nat.add_comm f2 f1, a] at b
  exact Option.some.inj b

theorem scenarioE6Outcome_ref :
    scenarioE6Outcome refPlatform true = some (1413, 250, 2, 250) := by
  decide!

/-- C3: scenario E1. The update commits the bit pool 53, inside `[2, 53]`,
and sets `tx_sbc_frames` to `(663 - 1) / a2d_sbc_frame_length() = 5`; the
first budgeter call after `a2d_sbc_feeding_reset` returns one iteration of 5
frames, and the one packet built from it carries timestamp 0 (5 frames, 595
bytes). This holds with STEREO, JOINT_STEREO coded 2, 3 and coded 1, 0. -/
theorem scenario_E1 :
    scenarioE1Outcome refPlatform 1000000 =
      some (53, 5, 5, (1, 5), [⟨0, 595, 5, 5⟩]) ∧
    scenarioE1Outcome specPlatform 1000000 =
      some (53, 5, 5, (1, 5), [⟨0, 595, 5, 5⟩]) := by
  constructor <;> decide!

/-- C4, as stated, fails: in scenario E6 no run of the negotiation ends with
`protect = 3`. -/
theorem scenario_E6_protect_not_3 :
    ¬ ∃ fuel n, updateNegotiation refPlatform fuel (scenarioE6 refPlatform true)
      ⟨663, 250, 250⟩ = some n ∧ n.protect = 3 := by
  rintro ⟨fuel, n, h, hp⟩
  have h0 := scenarioE6Outcome_ref
  unfold scenarioE6Outcome at h0
  obtain ⟨n0, hn0, e⟩ := Option.map_eq_some'.mp h0
  have := updateNegotiation_unique _ _ _ _ _ _ _ h hn0
  subst this
  have e3 : n.protect = 2 := congrArg (fun t => t.2.2.1) e
  omega

/-- C4 (amended): in scenario E6 the negotiation ends with `protect = 2`: the
rate is only raised, up to the first rate at which the candidate is 250, and
this last candidate, which is in range, is committed as the bit pool. The
final rate is 1413 kbps for an EDR peer and 1414 kbps for a non-EDR peer
(1408 and 1409 kbps with STEREO coded 1 instead of 2). -/
theorem scenario_E6 :
    scenarioE6Outcome refPlatform true = some (1413, 250, 2, 250) ∧
    scenarioE6Outcome refPlatform false = some (1414, 250, 2, 250) ∧
    scenarioE6Outcome specPlatform true = some (1408, 250, 2, 250) ∧
    scenarioE6Outcome specPlatform false = some (1409, 250, 2, 250) := by
  refine ⟨?_, ?_, ?_, ?_⟩ <;> decide!

/-- C7 at its failing input: for the MONO configuration with 8 sub-bands at
16000 Hz and the range `[2, 250]`, the copy that the loop body clamps is
`16 * 8 = 128`, but the loop ends at once with the unclamped candidate 160,
and 160 is the bit pool that `a2d_sbc_encoder_update` leaves in the encoder
configuration. -/
theorem mono_commit_exceeds_clamp :
    monoClampedStore { (monoSession refPlatform).sbc_encoder_params with u16BitRate := 328 }
      16000 = 128 ∧
    (updateNegotiation refPlatform 65537 (monoSession refPlatform) ⟨663, 250, 2⟩).map
      (fun n => (n.u16BitRate, n.s16BitPool, n.protect)) = some (328, 160, 0) ∧
    (a2d_sbc_encoder_update refPlatform 65537 (monoSession refPlatform) ⟨663, 250, 2⟩).map
      (fun cb => cb.sbc_encoder_params.s16BitPool) = some 160 := by
  refine ⟨?_, ?_, ?_⟩ <;> decide!


/-- The MTU that `calculate_max_frames_per_packet` works with and leaves in
`TxAaMtuSize`: 663 for a 2-Mbps EDR peer with a larger MTU, the MTU itself
otherwise. -/
theorem calculate_max_frames_mtu (P : Platform) (cb : tA2D_SBC_ENCODER_CB) :
    (calculate_max_frames_per_packet P cb).2.TxAaMtuSize =
      if cb.is_peer_edr = true ∧ cb.peer_supports_3mbps = false ∧
          cb.TxAaMtuSize > MAX_2MBPS_AVDTP_MTU then MAX_2MBPS_AVDTP_MTU
      else cb.TxAaMtuSize := by
  unfold calculate_max_frames_per_packet
  dsimp only
  cases h1 : cb.is_peer_edr <;> cases h2 : cb.peer_supports_3mbps <;>
    by_cases h3 : cb.TxAaMtuSize > MAX_2MBPS_AVDTP_MTU <;> simp [h3]

theorem calculate_max_frames_params (P : Platform) (cb : tA2D_SBC_ENCODER_CB) :
    (calculate_max_frames_per_packet P cb).2.sbc_encoder_params =
      resetZeroFields cb.sbc_encoder_params := by
  unfold calculate_max_frames_per_packet
  dsimp only
  cases h1 : cb.is_peer_edr <;> cases h2 : cb.peer_supports_3mbps <;>
    by_cases h3 : cb.TxAaMtuSize > MAX_2MBPS_AVDTP_MTU <;> simp [h3]

theorem calculate_max_frames_flags (P : Platform) (cb : tA2D_SBC_ENCODER_CB) :
    (calculate_max_frames_per_packet P cb).2.is_peer_edr = cb.is_peer_edr ∧
    (calculate_max_frames_per_packet P cb).2.peer_supports_3mbps = cb.peer_supports_3mbps ∧
    (calculate_max_frames_per_packet P cb).2.timestamp = cb.timestamp ∧
    (calculate_max_frames_per_packet P cb).2.feeding_params = cb.feeding_params ∧
    (calculate_max_frames_per_packet P cb).2.feeding_state = cb.feeding_state := by
  unfold calculate_max_frames_per_packet
  dsimp only
  by_cases h3 : (cb.is_peer_edr && !cb.peer_supports_3mbps &&
      decide (cb.TxAaMtuSize > MAX_2MBPS_AVDTP_MTU)) = true <;> simp [h3]

/-- The value returned by `calculate_max_frames_per_packet`, in terms of the
MTU and the configuration it leaves. -/
theorem calculate_max_frames_result (P : Platform) (cb : tA2D_SBC_ENCODER_CB) :
    (calculate_max_frames_per_packet P cb).1 =
      toUInt8 (
        if (calculate_max_frames_per_packet P cb).2.sbc_encoder_params.s16SamplingFreq
            = P.SBC_sf44100 then
          toUInt16 (toUInt32 (((calculate_max_frames_per_packet P cb).2.TxAaMtuSize : Int)
              - A2DP_HDR_SIZE P) /
            (if a2d_sbc_frame_length P (calculate_max_frames_per_packet P cb).2.sbc_encoder_params
                = 0 then A2D_SBC_MAX_HQ_FRAME_SIZE_44_1
             else a2d_sbc_frame_length P
               (calculate_max_frames_per_packet P cb).2.sbc_encoder_params) : Nat)
        else if (calculate_max_frames_per_packet P cb).2.sbc_encoder_params.s16SamplingFreq
            = P.SBC_sf48000 then
          toUInt16 (toUInt32 (((calculate_max_frames_per_packet P cb).2.TxAaMtuSize : Int)
              - A2DP_HDR_SIZE P) /
            (if a2d_sbc_frame_length P (calculate_max_frames_per_packet P cb).2.sbc_encoder_params
                = 0 then A2D_SBC_MAX_HQ_FRAME_SIZE_48
             else a2d_sbc_frame_length P
               (calculate_max_frames_per_packet P cb).2.sbc_encoder_params) : Nat)
        else (0 : Nat)) := by
  rw [calculate_max_frames_mtu, calculate_max_frames_params]
  unfold calculate_max_frames_per_packet
  dsimp only
  cases h1 : cb.is_peer_edr <;> cases h2 : cb.peer_supports_3mbps <;>
    by_cases h3 : cb.TxAaMtuSize > MAX_2MBPS_AVDTP_MTU <;> simp [h3]

/-- With a valid channel mode the frame length is at least the 4 header
bytes. -/
theorem a2d_sbc_frame_length_ge (P : Platform) (p : SBC_ENC_PARAMS)
    (hm : p.s16ChannelMode = P.SBC_MONO ∨ p.s16ChannelMode = P.SBC_DUAL ∨
      p.s16ChannelMode = P.SBC_STEREO ∨ p.s16ChannelMode = P.SBC_JOINT_STEREO) :
    4 ≤ a2d_sbc_frame_length P p := by
  have key : ∀ a b : Int, 4 ≤ toUInt32 (A2D_SBC_FRAME_HEADER_SIZE_BYTES +
      (toUInt32 a / CHAR_BIT : Nat) + (toUInt32 b / CHAR_BIT : Nat)) := by
    intro a b
    have ha : toUInt32 a / CHAR_BIT < 536870912 := by
      unfold toUInt32 CHAR_BIT; omega
    have hb : toUInt32 b / CHAR_BIT < 536870912 := by
      unfold toUInt32 CHAR_BIT; omega
    generalize toUInt32 a / CHAR_BIT = n1 at ha ⊢
    generalize toUInt32 b / CHAR_BIT = n2 at hb ⊢
    unfold toUInt32 A2D_SBC_FRAME_HEADER_SIZE_BYTES
    omega
  unfold a2d_sbc_frame_length
  split_ifs with h1 h2 h3
  · exact key _ _
  · exact key _ _
  · exact key _ _
  · rcases hm with h | h | h | h <;> simp_all


/-- C8, as stated, fails: at codec rate 16000 Hz (STEREO, 8 sub-bands, 16
blocks, 2 channels, bit pool 0, MTU 663) the frame length is 12 and
`(663 - 1) / 12 = 55`, but `calculate_max_frames_per_packet` returns 0. -/
theorem max_frames_at_16000 :
    a2d_sbc_frame_length refPlatform
      (calculate_max_frames_per_packet refPlatform
        (sessionCb true true 2 8 16 0 2 ⟨48000, 2, 16⟩ 663)).2.sbc_encoder_params = 12 ∧
    (calculate_max_frames_per_packet refPlatform
      (sessionCb true true 2 8 16 0 2 ⟨48000, 2, 16⟩ 663)).1 = 0 ∧
    (calculate_max_frames_per_packet refPlatform
      (sessionCb true true 2 8 16 0 2 ⟨48000, 2, 16⟩ 663)).1 ≠
    ((calculate_max_frames_per_packet refPlatform
        (sessionCb true true 2 8 16 0 2 ⟨48000, 2, 16⟩ 663)).2.TxAaMtuSize
      - A2DP_HDR_SIZE refPlatform) /
      a2d_sbc_frame_length refPlatform
        (calculate_max_frames_per_packet refPlatform
          (sessionCb true true 2 8 16 0 2 ⟨48000, 2, 16⟩ 663)).2.sbc_encoder_params := by
  refine ⟨?_, ?_, ?_⟩ <;> decide!

/-- C8 (amended): for a valid channel mode and a 16-bit `TxAaMtuSize`, with
`mtu` the `TxAaMtuSize` left after the 2-Mbps clamp and `frame_len` the frame
length of the configuration left after the zero resets: at codec rate 44100
or 48000 Hz `calculate_max_frames_per_packet` returns
`(mtu - A2DP_HDR_SIZE) / frame_len` whenever `A2DP_HDR_SIZE ≤ mtu` and the
quotient fits the `uint8_t` result; at every other codec rate (16000, 32000)
it returns 0. -/
theorem max_frames_per_packet (P : Platform) (cb : tA2D_SBC_ENCODER_CB)
    (hm : cb.sbc_encoder_params.s16ChannelMode = P.SBC_MONO ∨
      cb.sbc_encoder_params.s16ChannelMode = P.SBC_DUAL ∨
      cb.sbc_encoder_params.s16ChannelMode = P.SBC_STEREO ∨
      cb.sbc_encoder_params.s16ChannelMode = P.SBC_JOINT_STEREO)
    (hmtu : cb.TxAaMtuSize < 65536) :
    a2d_sbc_frame_length P (calculate_max_frames_per_packet P cb).2.sbc_encoder_params ≠ 0 ∧
    ((cb.sbc_encoder_params.s16SamplingFreq = P.SBC_sf44100 ∨
        cb.sbc_encoder_params.s16SamplingFreq = P.SBC_sf48000) →
      A2DP_HDR_SIZE P ≤ (calculate_max_frames_per_packet P cb).2.TxAaMtuSize →
      ((calculate_max_frames_per_packet P cb).2.TxAaMtuSize - A2DP_HDR_SIZE P) /
        a2d_sbc_frame_length P (calculate_max_frames_per_packet P cb).2.sbc_encoder_params
        ≤ 255 →
      (calculate_max_frames_per_packet P cb).1 =
        ((calculate_max_frames_per_packet P cb).2.TxAaMtuSize - A2DP_HDR_SIZE P) /
          a2d_sbc_frame_length P (calculate_max_frames_per_packet P cb).2.sbc_encoder_params) ∧
    (cb.sbc_encoder_params.s16SamplingFreq ≠ P.SBC_sf44100 →
      cb.sbc_encoder_params.s16SamplingFreq ≠ P.SBC_sf48000 →
      (calculate_max_frames_per_packet P cb).1 = 0) := by
  obtain ⟨-, -, -, e4, e5, -⟩ := resetZeroFields_fields cb.sbc_encoder_params
  have hfl := a2d_sbc_frame_length_ge P (calculate_max_frames_per_packet P cb).2.sbc_encoder_params
    (by rw [calculate_max_frames_params, e4]; exact hm)
  have hfs : (calculate_max_frames_per_packet P cb).2.sbc_encoder_params.s16SamplingFreq =
      cb.sbc_encoder_params.s16SamplingFreq := by
    rw [calculate_max_frames_params, e5]
  have hmtu1 : (calculate_max_frames_per_packet P cb).2.TxAaMtuSize < 65536 := by
    rw [calculate_max_frames_mtu]
    unfold MAX_2MBPS_AVDTP_MTU
    split_ifs <;> omega
  refine ⟨by omega, ?_, ?_⟩
  · intro hs hh hq
    rw [calculate_max_frames_result P cb, hfs]
    generalize (calculate_max_frames_per_packet P cb).2.TxAaMtuSize = mtu at hh hq hmtu1 ⊢
    generalize a2d_sbc_frame_length P
      (calculate_max_frames_per_packet P cb).2.sbc_encoder_params = fl at hfl hq ⊢
    have e1 : toUInt32 ((mtu : Int) - (A2DP_HDR_SIZE P : Nat)) = mtu - A2DP_HDR_SIZE P := by
      unfold toUInt32; omega
    have e2 : ∀ q : Nat, q ≤ 255 → toUInt8 ((toUInt16 (q : Int) : Nat) : Int) = q := by
      intro q hq; unfold toUInt8 toUInt16; omega
    have hz : ¬ fl = 0 := by omega
    by_cases h44 : cb.sbc_encoder_params.s16SamplingFreq = P.SBC_sf44100
    · rw [if_pos h44, if_neg hz, e1]; exact e2 _ hq
    · have h48 : cb.sbc_encoder_params.s16SamplingFreq = P.SBC_sf48000 := by
        rcases hs with hs | hs
        · exact absurd hs h44
        · exact hs
      rw [if_neg h44, if_pos h48, if_neg hz, e1]; exact e2 _ hq
  · intro h44 h48
    rw [calculate_max_frames_result P cb, hfs, if_neg h44, if_neg h48]
    rfl

/-- Witness for C8: a 2-Mbps EDR peer at 44100 Hz with MTU 1000, clamped to 663. -/
theorem max_frames_per_packet_witness :
    (663 - 1) / a2d_sbc_frame_length refPlatform
        (calculate_max_frames_per_packet refPlatform
          (sessionCb true false 3 8 16 2 2 ⟨44100, 2, 16⟩ 1000)).2.sbc_encoder_params ≤ 255 ∧
    (calculate_max_frames_per_packet refPlatform
      (sessionCb true false 3 8 16 2 2 ⟨44100, 2, 16⟩ 1000)).1 =
    ((calculate_max_frames_per_packet refPlatform
        (sessionCb true false 3 8 16 2 2 ⟨44100, 2, 16⟩ 1000)).2.TxAaMtuSize
      - A2DP_HDR_SIZE refPlatform) /
      a2d_sbc_frame_length refPlatform
        (calculate_max_frames_per_packet refPlatform
          (sessionCb true false 3 8 16 2 2 ⟨44100, 2, 16⟩ 1000)).2.sbc_encoder_params :=
  ⟨by decide!,
   (max_frames_per_packet refPlatform (sessionCb true false 3 8 16 2 2 ⟨44100, 2, 16⟩ 1000)
      (Or.inr (Or.inr (Or.inr rfl))) (by decide!)).2.1 (Or.inl rfl) (by decide!) (by decide!)⟩


/-- C9: after `a2d_sbc_encoder_init` with requested MTU `m`, and after
`a2d_sbc_encoder_update` with `MinMtuSize = m`, the stored `TxAaMtuSize` is
`min c m` for the buffer-derived cap `c`, except that it is exactly 663 when
the peer is EDR without 3 Mbps and `min c m > 663`; for a non-EDR peer or a
3-Mbps peer it is always `min c m`. The update returns, with this MTU, for
counts in the byte range. -/
theorem tx_mtu_after_init_and_update (P : Platform) (cb : tA2D_SBC_ENCODER_CB)
    (u : tA2D_ENCODER_UPDATE_PARAMS) :
    (∀ (now_us : Nat) (is_peer_edr peer_supports_3mbps : Bool)
        (p_init_params : tA2D_ENCODER_INIT_PARAMS),
      (a2d_sbc_encoder_init P now_us is_peer_edr peer_supports_3mbps p_init_params).TxAaMtuSize =
        if is_peer_edr = true ∧ peer_supports_3mbps = false ∧
            min P.mtu_size p_init_params.MtuSize > 663 then 663
        else min P.mtu_size p_init_params.MtuSize) ∧
    (∀ fuel cb1, a2d_sbc_encoder_update P fuel cb u = some cb1 →
      cb1.TxAaMtuSize =
        if cb.is_peer_edr = true ∧ cb.peer_supports_3mbps = false ∧
            min P.mtu_size u.MinMtuSize > 663 then 663
        else min P.mtu_size u.MinMtuSize) ∧
    (P.SmallModeCodes → ByteCounts cb.sbc_encoder_params →
      ∃ cb1, a2d_sbc_encoder_update P 65537 cb u = some cb1 ∧
        cb1.TxAaMtuSize =
          if cb.is_peer_edr = true ∧ cb.peer_supports_3mbps = false ∧
              min P.mtu_size u.MinMtuSize > 663 then 663
          else min P.mtu_size u.MinMtuSize) := by
  have hmin : ∀ a b : Nat, (if a < b then a else b) = min a b := by
    intro a b; split_ifs <;> omega
  have key : ∀ fuel cb1, a2d_sbc_encoder_update P fuel cb u = some cb1 →
      cb1.TxAaMtuSize =
        if cb.is_peer_edr = true ∧ cb.peer_supports_3mbps = false ∧
            min P.mtu_size u.MinMtuSize > 663 then 663
        else min P.mtu_size u.MinMtuSize := by
    intro fuel cb1 h
    unfold a2d_sbc_encoder_update at h
    obtain ⟨n, -, rfl⟩ := Option.map_eq_some'.mp h
    show (calculate_max_frames_per_packet P _).2.TxAaMtuSize = _
    rw [calculate_max_frames_mtu]
    show (if cb.is_peer_edr = true ∧ cb.peer_supports_3mbps = false ∧
        (if P.mtu_size < u.MinMtuSize then P.mtu_size else u.MinMtuSize) > MAX_2MBPS_AVDTP_MTU
      then MAX_2MBPS_AVDTP_MTU
      else (if P.mtu_size < u.MinMtuSize then P.mtu_size else u.MinMtuSize)) = _
    rw [hmin]
    rfl
  refine ⟨?_, key, ?_⟩
  · intro now_us is_peer_edr peer_supports_3mbps p_init_params
    show (calculate_max_frames_per_packet P _).2.TxAaMtuSize = _
    rw [calculate_max_frames_mtu]
    show (if is_peer_edr = true ∧ peer_supports_3mbps = false ∧
        (if P.mtu_size < p_init_params.MtuSize then P.mtu_size else p_init_params.MtuSize)
          > MAX_2MBPS_AVDTP_MTU
      then MAX_2MBPS_AVDTP_MTU
      else (if P.mtu_size < p_init_params.MtuSize then P.mtu_size
        else p_init_params.MtuSize)) = _
    rw [hmin]
    rfl
  · intro hP hc
    obtain ⟨n, hn⟩ := updateNegotiation_total P hP cb hc u 65537 (le_refl _)
    have h : ∃ cb1, a2d_sbc_encoder_update P 65537 cb u = some cb1 := by
      unfold a2d_sbc_encoder_update
      rw [hn]
      exact ⟨_, rfl⟩
    obtain ⟨cb1, h1⟩ := h
    exact ⟨cb1, h1, key _ _ h1⟩

/-- Witness for C9: a 2-Mbps EDR peer and an update with `MinMtuSize = 1000`. -/
theorem tx_mtu_after_init_and_update_witness :
    refPlatform.SmallModeCodes ∧
    ByteCounts (sessionCb true false 3 8 16 2 2 ⟨44100, 2, 16⟩ 0).sbc_encoder_params ∧
    ∃ cb1, a2d_sbc_encoder_update refPlatform 65537
        (sessionCb true false 3 8 16 2 2 ⟨44100, 2, 16⟩ 0) ⟨1000, 53, 2⟩ = some cb1 ∧
      cb1.TxAaMtuSize =
        if (sessionCb true false 3 8 16 2 2 ⟨44100, 2, 16⟩ 0).is_peer_edr = true ∧
            (sessionCb true false 3 8 16 2 2 ⟨44100, 2, 16⟩ 0).peer_supports_3mbps = false ∧
            min refPlatform.mtu_size
              (⟨1000, 53, 2⟩ : tA2D_ENCODER_UPDATE_PARAMS).MinMtuSize > 663 then 663
        else min refPlatform.mtu_size (⟨1000, 53, 2⟩ : tA2D_ENCODER_UPDATE_PARAMS).MinMtuSize :=
  ⟨by decide, by decide,
   (tx_mtu_after_init_and_update refPlatform
      (sessionCb true false 3 8 16 2 2 ⟨44100, 2, 16⟩ 0) ⟨1000, 53, 2⟩).2.2
      (by decide) (by decide)⟩

theorem ite_snd_of (Q : Session → Prop) (c : Prop) [Decidable c] (a b : Bool × Session)
    (ha : Q a.2) (hb : Q b.2) : Q (if c then a else b).2 := by
  split_ifs <;> assumption

/-- `a2d_sbc_read_feeding` touches only the feeding state and the read
count. -/
theorem a2d_sbc_read_feeding_frame (P : Platform) (E : Callbacks) (s : Session) :
    (a2d_sbc_read_feeding P E s).2.enqueued = s.enqueued ∧
    (a2d_sbc_read_feeding P E s).2.cb.TxAaMtuSize = s.cb.TxAaMtuSize ∧
    (a2d_sbc_read_feeding P E s).2.cb.timestamp = s.cb.timestamp ∧
    (a2d_sbc_read_feeding P E s).2.cb.sbc_encoder_params = s.cb.sbc_encoder_params ∧
    (a2d_sbc_read_feeding P E s).2.cb.feeding_params = s.cb.feeding_params := by
  unfold a2d_sbc_read_feeding
  dsimp only
  refine ite_snd_of (fun t => t.enqueued = s.enqueued ∧ t.cb.TxAaMtuSize = s.cb.TxAaMtuSize ∧
    t.cb.timestamp = s.cb.timestamp ∧ t.cb.sbc_encoder_params = s.cb.sbc_encoder_params ∧
    t.cb.feeding_params = s.cb.feeding_params) _ _ _ ?_ ?_
  · refine ite_snd_of (fun t => t.enqueued = s.enqueued ∧
      t.cb.TxAaMtuSize = s.cb.TxAaMtuSize ∧
      t.cb.timestamp = s.cb.timestamp ∧ t.cb.sbc_encoder_params = s.cb.sbc_encoder_params ∧
      t.cb.feeding_params = s.cb.feeding_params) _ _ _ ?_ ?_ <;>
      exact ⟨rfl, rfl, rfl, rfl, rfl⟩
  · refine ite_snd_of (fun t => t.enqueued = s.enqueued ∧
      t.cb.TxAaMtuSize = s.cb.TxAaMtuSize ∧
      t.cb.timestamp = s.cb.timestamp ∧ t.cb.sbc_encoder_params = s.cb.sbc_encoder_params ∧
      t.cb.feeding_params = s.cb.feeding_params) _ _ _ ?_ ?_
    · exact ⟨rfl, rfl, rfl, rfl, rfl⟩
    · refine ite_snd_of (fun t => t.enqueued = s.enqueued ∧
        t.cb.TxAaMtuSize = s.cb.TxAaMtuSize ∧
        t.cb.timestamp = s.cb.timestamp ∧ t.cb.sbc_encoder_params = s.cb.sbc_encoder_params ∧
        t.cb.feeding_params = s.cb.feeding_params) _ _ _ ?_ ?_ <;>
        exact ⟨rfl, rfl, rfl, rfl, rfl⟩

/-- The inner loop of `a2d_sbc_encode_frames`, for a codec whose frames all
have length `L`: it leaves the enqueued buffers and the MTU alone, and the
buffer it fills holds `layer_specific ≤ 15` frames, `len = layer_specific * L`
bytes, below the MTU as soon as it holds two frames; `nb_frame` goes down. -/
theorem encodeBuffer_spec (P : Platform) (E : Callbacks) (L : Nat)
    (hcodec : ∀ p, P.SBC_Encoder p = L) (hL1 : L < 65536) :
    ∀ (n len ls : Nat) (s : Session), s.cb.TxAaMtuSize < 65536 → len = ls * L → ls < 15 →
      (1 ≤ ls → len + L < s.cb.TxAaMtuSize) →
      (encodeBuffer P E n len ls s).2.2.2.enqueued = s.enqueued ∧
      (encodeBuffer P E n len ls s).2.2.2.cb.TxAaMtuSize = s.cb.TxAaMtuSize ∧
      (encodeBuffer P E n len ls s).2.1 = (encodeBuffer P E n len ls s).2.2.1 * L ∧
      (encodeBuffer P E n len ls s).2.2.1 ≤ 15 ∧
      (2 ≤ (encodeBuffer P E n len ls s).2.2.1 →
        (encodeBuffer P E n len ls s).2.1 < s.cb.TxAaMtuSize) ∧
      (encodeBuffer P E n len ls s).1 ≤ n - 1 := by
  intro n
  induction n with
  | zero =>
    intro len ls s hT hlen hls hfit
    refine ⟨rfl, rfl, hlen, by show ls ≤ 15; omega, ?_, by show 0 ≤ 0; omega⟩
    intro h2
    show len < s.cb.TxAaMtuSize
    have := hfit (by show 1 ≤ ls; exact le_trans (by decide) h2)
    omega
  | succ n ih =>
    intro len ls s hT hlen hls hfit
    obtain ⟨f1, f2, -, -, -⟩ := a2d_sbc_read_feeding_frame P E s
    rw [encodeBuffer]
    dsimp only
    by_cases hr : (a2d_sbc_read_feeding P E s).1 = true
    · rw [if_pos hr]
      have hpl : (sbcEncode P (a2d_sbc_read_feeding P E s).2).cb.sbc_encoder_params.u16PacketLength
          = L := hcodec _
      have hTx : (sbcEncode P (a2d_sbc_read_feeding P E s).2).cb.TxAaMtuSize
          = s.cb.TxAaMtuSize := f2
      have hen : (sbcEncode P (a2d_sbc_read_feeding P E s).2).enqueued = s.enqueued := f1
      rw [hpl, hTx]
      have hlen1 : toUInt16 ((len + L : Nat) : Int) = (ls + 1) * L := by
        have hb : len + L < 65536 := by
          rcases Nat.eq_zero_or_pos ls with h0 | h0
          · subst h0; simp at hlen; omega
          · have := hfit h0; omega
        have : toUInt16 ((len + L : Nat) : Int) = len + L := by
          unfold toUInt16; omega
        rw [this, hlen]; ring
      have hls1 : toUInt16 ((ls + 1 : Nat) : Int) = ls + 1 := by
        unfold toUInt16; omega
      rw [hlen1, hls1]
      by_cases hc : (ls + 1) * L + L < s.cb.TxAaMtuSize ∧ ls + 1 < 15 ∧ n ≠ 0
      · rw [if_pos hc]
        obtain ⟨i1, i2, i3, i4, i5, i6⟩ := ih ((ls + 1) * L) (ls + 1)
          (sbcEncode P (a2d_sbc_read_feeding P E s).2) (by rw [hTx]; exact hT) rfl hc.2.1
          (by intro _; rw [hTx]; exact hc.1)
        rw [hTx] at i2 i5
        rw [hen] at i1
        exact ⟨i1, i2, i3, i4, i5, by omega⟩
      · rw [if_neg hc]
        refine ⟨hen, hTx, rfl, by show ls + 1 ≤ 15; omega, ?_, by show n ≤ n + 1 - 1; omega⟩
        intro h2
        show (ls + 1) * L < s.cb.TxAaMtuSize
        have h1 : 1 ≤ ls := by
          have : 2 ≤ ls + 1 := h2
          omega
        have := hfit h1
        rw [hlen] at this
        have e : (ls + 1) * L = ls * L + L := by ring
        omega
    · rw [if_neg hr]
      refine ⟨f1, f2, hlen, by show ls ≤ 15; omega, ?_, by show 0 ≤ n + 1 - 1; omega⟩
      intro h2
      show len < s.cb.TxAaMtuSize
      have := hfit (by show 1 ≤ ls; exact le_trans (by decide) h2)
      omega

/-- Every pass of the inner loop lowers `nb_frame`. -/
theorem encodeBuffer_nb_le (P : Platform) (E : Callbacks) :
    ∀ (n len ls : Nat) (s : Session), (encodeBuffer P E n len ls s).1 ≤ n - 1 := by
  intro n
  induction n with
  | zero => intro len ls s; exact Nat.le_refl 0
  | succ n ih =>
    intro len ls s
    rw [encodeBuffer]
    dsimp only
    split_ifs
    · exact le_trans (ih _ _ _) (by omega)
    · show n ≤ n + 1 - 1; omega
    · show 0 ≤ n + 1 - 1; omega

/-- The outer loop of `a2d_sbc_encode_frames` needs no more than `nb_frame`
passes: further fuel changes nothing. -/
theorem encodeLoop_fuel_enough (P : Platform) (E : Callbacks) :
    ∀ (fuel nb remain : Nat) (s : Session), nb ≤ fuel →
      encodeLoop P E (fuel + 1) nb remain s = encodeLoop P E fuel nb remain s := by
  intro fuel
  induction fuel with
  | zero =>
    intro nb remain s h
    have h0 : nb = 0 := by omega
    subst h0
    rw [encodeLoop, encodeLoop]
    exact if_pos rfl
  | succ fuel ih =>
    intro nb remain s h
    rw [encodeLoop, encodeLoop]
    by_cases h0 : nb = 0
    · rw [if_pos h0, if_pos h0]
    · rw [if_neg h0, if_neg h0]
      have hb := encodeBuffer_nb_le P E nb 0 0 s
      dsimp only
      by_cases hl : (encodeBuffer P E nb 0 0 s).2.1 ≠ 0
      · rw [if_pos hl, if_pos hl]
        by_cases ha : E.enqueue_callback (encodeBuffer P E nb 0 0 s).2.2.2.enqueued.length = false
        · rw [if_pos ha, if_pos ha]
        · rw [if_neg ha, if_neg ha]
          exact ih _ _ _ (by omega)
      · rw [if_neg hl, if_neg hl]
        exact ih _ _ _ (by omega)

/-- The buffers that the outer loop hands to the enqueue callback, for a codec
whose frames all have length `L`. -/
theorem encodeLoop_spec (P : Platform) (E : Callbacks) (L : Nat)
    (hcodec : ∀ p, P.SBC_Encoder p = L) (hL1 : L < 65536) :
    ∀ (fuel nb remain : Nat) (s : Session), s.cb.TxAaMtuSize < 65536 →
      ∃ new, (encodeLoop P E fuel nb remain s).enqueued = s.enqueued ++ new ∧
        (encodeLoop P E fuel nb remain s).cb.TxAaMtuSize = s.cb.TxAaMtuSize ∧
        ∀ pkt ∈ new, 1 ≤ pkt.layer_specific ∧ pkt.layer_specific ≤ 15 ∧
          pkt.len = pkt.layer_specific * L ∧
          (L ≤ s.cb.TxAaMtuSize → pkt.len ≤ s.cb.TxAaMtuSize) ∧
          (2 ≤ pkt.layer_specific → pkt.len < s.cb.TxAaMtuSize) := by
  intro fuel
  induction fuel with
  | zero =>
    intro nb remain s _
    exact ⟨[], by simp [encodeLoop], rfl, by simp⟩
  | succ fuel ih =>
    intro nb remain s hT
    rw [encodeLoop]
    by_cases h0 : nb = 0
    · rw [if_pos h0]
      exact ⟨[], by simp, rfl, by simp⟩
    · rw [if_neg h0]
      dsimp only
      obtain ⟨b1, b2, b3, b4, b5, -⟩ := encodeBuffer_spec P E L hcodec hL1 nb 0 0 s hT
        (by simp) (by decide) (by intro h; omega)
      by_cases hl : (encodeBuffer P E nb 0 0 s).2.1 ≠ 0
      · rw [if_pos hl]
        have hgood : ∀ ts dn, ∀ pkt ∈ [(⟨ts, (encodeBuffer P E nb 0 0 s).2.1,
            (encodeBuffer P E nb 0 0 s).2.2.1, dn⟩ : Packet)],
            1 ≤ pkt.layer_specific ∧ pkt.layer_specific ≤ 15 ∧
            pkt.len = pkt.layer_specific * L ∧
            (L ≤ s.cb.TxAaMtuSize → pkt.len ≤ s.cb.TxAaMtuSize) ∧
            (2 ≤ pkt.layer_specific → pkt.len < s.cb.TxAaMtuSize) := by
          intro ts dn pkt hp
          rw [List.mem_singleton] at hp
          subst hp
          have h1 : 1 ≤ (encodeBuffer P E nb 0 0 s).2.2.1 := by
            by_contra hc
            have hz : (encodeBuffer P E nb 0 0 s).2.2.1 = 0 := by omega
            rw [hz] at b3
            simp at b3
            exact hl b3
          refine ⟨h1, b4, b3, ?_, b5⟩
          intro hLT
          show (encodeBuffer P E nb 0 0 s).2.1 ≤ s.cb.TxAaMtuSize
          rcases Nat.lt_or_ge (encodeBuffer P E nb 0 0 s).2.2.1 2 with h2 | h2
          · have h3 : (encodeBuffer P E nb 0 0 s).2.2.1 = 1 := by omega
            rw [b3, h3]; omega
          · exact le_of_lt (b5 h2)
        by_cases ha : E.enqueue_callback (encodeBuffer P E nb 0 0 s).2.2.2.enqueued.length = false
        · rw [if_pos ha]
          refine ⟨[⟨(encodeBuffer P E nb 0 0 s).2.2.2.cb.timestamp,
            (encodeBuffer P E nb 0 0 s).2.1, (encodeBuffer P E nb 0 0 s).2.2.1,
            toUInt8 ((remain : Int) - (encodeBuffer P E nb 0 0 s).1)⟩], ?_, b2,
            hgood _ _⟩
          show (encodeBuffer P E nb 0 0 s).2.2.2.enqueued ++ _ = _
          rw [b1]
        · rw [if_neg ha]
          obtain ⟨new, n1, n2, n3⟩ := ih (encodeBuffer P E nb 0 0 s).1
            (encodeBuffer P E nb 0 0 s).1
            (stampAndEnqueue (encodeBuffer P E nb 0 0 s).2.2.2
              (toUInt16 (s.cb.sbc_encoder_params.s16NumOfSubBands *
                s.cb.sbc_encoder_params.s16NumOfBlocks))
              (encodeBuffer P E nb 0 0 s).2.1 (encodeBuffer P E nb 0 0 s).2.2.1
              (toUInt8 ((remain : Int) - (encodeBuffer P E nb 0 0 s).1))
              (E.enqueue_callback (encodeBuffer P E nb 0 0 s).2.2.2.enqueued.length))
            (by show (encodeBuffer P E nb 0 0 s).2.2.2.cb.TxAaMtuSize < 65536
                rw [b2]; exact hT)
          have hTx : (stampAndEnqueue (encodeBuffer P E nb 0 0 s).2.2.2
              (toUInt16 (s.cb.sbc_encoder_params.s16NumOfSubBands *
                s.cb.sbc_encoder_params.s16NumOfBlocks))
              (encodeBuffer P E nb 0 0 s).2.1 (encodeBuffer P E nb 0 0 s).2.2.1
              (toUInt8 ((remain : Int) - (encodeBuffer P E nb 0 0 s).1))
              (E.enqueue_callback
                (encodeBuffer P E nb 0 0 s).2.2.2.enqueued.length)).cb.TxAaMtuSize
              = s.cb.TxAaMtuSize := b2
          rw [hTx] at n2 n3
          refine ⟨⟨(encodeBuffer P E nb 0 0 s).2.2.2.cb.timestamp,
            (encodeBuffer P E nb 0 0 s).2.1, (encodeBuffer P E nb 0 0 s).2.2.1,
            toUInt8 ((remain : Int) - (encodeBuffer P E nb 0 0 s).1)⟩ :: new, ?_, n2, ?_⟩
          · rw [n1]
            show ((encodeBuffer P E nb 0 0 s).2.2.2.enqueued ++ _) ++ new = _
            rw [b1, List.append_assoc]
            rfl
          · intro pkt hp
            rcases List.mem_cons.mp hp with hp | hp
            · exact hgood _ _ pkt (by rw [hp]; exact List.mem_singleton.mpr rfl)
            · exact n3 pkt hp
      · rw [if_neg hl]
        obtain ⟨new, n1, n2, n3⟩ := ih (encodeBuffer P E nb 0 0 s).1 remain
          (encodeBuffer P E nb 0 0 s).2.2.2 (by rw [b2]; exact hT)
        rw [b2] at n2 n3
        rw [b1] at n1
        exact ⟨new, n1, n2, n3⟩

/-- C10, as stated, fails: with `TxAaMtuSize = 100` and frames of 119 bytes
(the frame length of the configuration, as the codec emits them) the one
buffer that `a2d_sbc_encode_frames(1)` hands to the enqueue callback has
`len = 119 > 100`. -/
theorem encode_frames_len_exceeds_mtu :
    (∀ p, refPlatform.SBC_Encoder p =
      a2d_sbc_frame_length refPlatform (packetSession 100).cb.sbc_encoder_params) ∧
    0 < a2d_sbc_frame_length refPlatform (packetSession 100).cb.sbc_encoder_params ∧
    (a2d_sbc_encode_frames refPlatform plentifulCallbacks 1 (packetSession 100)).enqueued =
      [⟨0, 119, 1, 1⟩] ∧
    ¬ ∀ pkt ∈ (a2d_sbc_encode_frames refPlatform plentifulCallbacks 1
        (packetSession 100)).enqueued,
      1 ≤ pkt.layer_specific ∧ pkt.layer_specific ≤ 15 ∧
        pkt.len ≤ (packetSession 100).cb.TxAaMtuSize := by
  refine ⟨fun _ => ?_, ?_, ?_, ?_⟩
  · show (119 : Nat) = a2d_sbc_frame_length refPlatform (packetSession 100).cb.sbc_encoder_params
    decide!
  · decide!
  · decide!
  · decide!

/-- C10 (amended): for every requested frame count, every 16-bit
`TxAaMtuSize` and every behaviour of the read and enqueue callbacks, when the
codec emits frames of the fixed length `a2d_sbc_frame_length()`, each buffer
that `a2d_sbc_encode_frames` hands to the enqueue callback has frame count
(`layer_specific`) between 1 and 15 and `len = layer_specific * frame length`;
`len` is at most `TxAaMtuSize` whenever one frame fits in `TxAaMtuSize`, and
below it as soon as the buffer holds two frames. -/
theorem encode_frames_packet_bounds (P : Platform) (E : Callbacks) (nb_frame : Nat)
    (s : Session) (hT : s.cb.TxAaMtuSize < 65536)
    (hcodec : ∀ p, P.SBC_Encoder p = a2d_sbc_frame_length P s.cb.sbc_encoder_params)
    (hL : a2d_sbc_frame_length P s.cb.sbc_encoder_params < 65536) :
    ∃ new, (a2d_sbc_encode_frames P E nb_frame s).enqueued = s.enqueued ++ new ∧
      ∀ pkt ∈ new, 1 ≤ pkt.layer_specific ∧ pkt.layer_specific ≤ 15 ∧
        pkt.len = pkt.layer_specific * a2d_sbc_frame_length P s.cb.sbc_encoder_params ∧
        (a2d_sbc_frame_length P s.cb.sbc_encoder_params ≤ s.cb.TxAaMtuSize →
          pkt.len ≤ s.cb.TxAaMtuSize) ∧
        (2 ≤ pkt.layer_specific → pkt.len < s.cb.TxAaMtuSize) := by
  obtain ⟨new, h1, -, h3⟩ := encodeLoop_spec P E _ hcodec hL nb_frame nb_frame nb_frame s hT
  exact ⟨new, h1, h3⟩

/-- Witness for C10: seven frames of 119 bytes with `TxAaMtuSize = 663`. -/
theorem encode_frames_packet_bounds_witness :
    (packetSession 663).cb.TxAaMtuSize < 65536 ∧
    (∀ p, refPlatform.SBC_Encoder p =
      a2d_sbc_frame_length refPlatform (packetSession 663).cb.sbc_encoder_params) ∧
    ∃ new, (a2d_sbc_encode_frames refPlatform plentifulCallbacks 7 (packetSession 663)).enqueued
        = (packetSession 663).enqueued ++ new ∧
      ∀ pkt ∈ new, 1 ≤ pkt.layer_specific ∧ pkt.layer_specific ≤ 15 ∧
        pkt.len = pkt.layer_specific *
          a2d_sbc_frame_length refPlatform (packetSession 663).cb.sbc_encoder_params ∧
        (a2d_sbc_frame_length refPlatform (packetSession 663).cb.sbc_encoder_params
            ≤ (packetSession 663).cb.TxAaMtuSize →
          pkt.len ≤ (packetSession 663).cb.TxAaMtuSize) ∧
        (2 ≤ pkt.layer_specific → pkt.len < (packetSession 663).cb.TxAaMtuSize) :=
  ⟨by decide!,
    fun _ => (by decide! : (119 : Nat) =
      a2d_sbc_frame_length refPlatform (packetSession 663).cb.sbc_encoder_params),
    encode_frames_packet_bounds refPlatform plentifulCallbacks 7 (packetSession 663)
      (by decide!)
      (fun _ => (by decide! : (119 : Nat) =
        a2d_sbc_frame_length refPlatform (packetSession 663).cb.sbc_encoder_params))
      (by decide!)⟩


/-! ### The source rate and the codec rate -/

/-- The sampling-frequency code that `a2d_sbc_feeding_init` leaves, when the
codec initialisation does not touch it. -/
theorem a2d_sbc_feeding_init_freq (P : Platform)
    (hInit : ∀ p, (P.SBC_Encoder_Init p).s16SamplingFreq = p.s16SamplingFreq)
    (cb : tA2D_SBC_ENCODER_CB) (f : tA2D_FEEDING_PARAMS) :
    (a2d_sbc_feeding_init P cb f).sbc_encoder_params.s16SamplingFreq =
      if f.sampling_freq = 8000 ∨ f.sampling_freq = 12000 ∨ f.sampling_freq = 16000 ∨
          f.sampling_freq = 24000 ∨ f.sampling_freq = 32000 ∨ f.sampling_freq = 48000 then
        P.SBC_sf48000
      else if f.sampling_freq = 11025 ∨ f.sampling_freq = 22050 ∨
          f.sampling_freq = 44100 then P.SBC_sf44100
      else cb.sbc_encoder_params.s16SamplingFreq := by
  unfold a2d_sbc_feeding_init
  dsimp only
  split_ifs <;> simp_all

/-- C19: after `a2d_sbc_feeding_init` with a source rate of 11025, 22050 or
44100 Hz the codec sampling frequency is the code of 44100 Hz, with a source
rate of 8000, 12000, 16000, 24000, 32000 or 48000 Hz it is the code of
48000 Hz, whatever it was before, and with any other source rate it is what it
was before. The codec initialisation is taken not to touch the sampling
frequency. -/
theorem feeding_init_codec_rate (P : Platform)
    (hInit : ∀ p, (P.SBC_Encoder_Init p).s16SamplingFreq = p.s16SamplingFreq)
    (cb : tA2D_SBC_ENCODER_CB) (f : tA2D_FEEDING_PARAMS) :
    ((f.sampling_freq = 11025 ∨ f.sampling_freq = 22050 ∨ f.sampling_freq = 44100) →
      (a2d_sbc_feeding_init P cb f).sbc_encoder_params.s16SamplingFreq = P.SBC_sf44100) ∧
    ((f.sampling_freq = 8000 ∨ f.sampling_freq = 12000 ∨ f.sampling_freq = 16000 ∨
        f.sampling_freq = 24000 ∨ f.sampling_freq = 32000 ∨ f.sampling_freq = 48000) →
      (a2d_sbc_feeding_init P cb f).sbc_encoder_params.s16SamplingFreq = P.SBC_sf48000) ∧
    ((f.sampling_freq ≠ 11025 ∧ f.sampling_freq ≠ 22050 ∧ f.sampling_freq ≠ 44100 ∧
        f.sampling_freq ≠ 8000 ∧ f.sampling_freq ≠ 12000 ∧ f.sampling_freq ≠ 16000 ∧
        f.sampling_freq ≠ 24000 ∧ f.sampling_freq ≠ 32000 ∧ f.sampling_freq ≠ 48000) →
      (a2d_sbc_feeding_init P cb f).sbc_encoder_params.s16SamplingFreq =
        cb.sbc_encoder_params.s16SamplingFreq) := by
  rw [a2d_sbc_feeding_init_freq P hInit]
  refine ⟨fun h => ?_, fun h => ?_, fun h => ?_⟩
  · rw [if_neg (by omega), if_pos h]
  · rw [if_pos h]
  · rw [if_neg (by omega), if_neg (by omega)]

/-- Witness for C19: a codec at 16000 Hz and a source at 22050 Hz. -/
theorem feeding_init_codec_rate_witness :
    (∀ p, (refPlatform.SBC_Encoder_Init p).s16SamplingFreq = p.s16SamplingFreq) ∧
    (monoSession refPlatform).sbc_encoder_params.s16SamplingFreq = refPlatform.SBC_sf16000 ∧
    (a2d_sbc_feeding_init refPlatform (monoSession refPlatform)
      ⟨22050, 2, 16⟩).sbc_encoder_params.s16SamplingFreq = refPlatform.SBC_sf44100 :=
  ⟨fun _ => rfl, rfl,
    (feeding_init_codec_rate refPlatform (fun _ => rfl) (monoSession refPlatform)
      ⟨22050, 2, 16⟩).1 (Or.inr (Or.inl rfl))⟩

/-- C20, as stated, fails: with the codec at 16000 Hz and a source at
16000 Hz, `a2d_sbc_feeding_init` moves the codec to 48000 Hz; the same
happens at 32000 Hz. -/
theorem feeding_init_equal_rates_forced :
    (sessionCb true true 3 8 16 refPlatform.SBC_sf16000 2 ⟨0, 0, 0⟩
      663).sbc_encoder_params.s16SamplingFreq = refPlatform.SBC_sf16000 ∧
    (a2d_sbc_feeding_init refPlatform
      (sessionCb true true 3 8 16 refPlatform.SBC_sf16000 2 ⟨0, 0, 0⟩ 663)
      ⟨16000, 2, 16⟩).sbc_encoder_params.s16SamplingFreq = refPlatform.SBC_sf48000 ∧
    (a2d_sbc_feeding_init refPlatform
      (sessionCb true true 3 8 16 refPlatform.SBC_sf32000 2 ⟨0, 0, 0⟩ 663)
      ⟨32000, 2, 16⟩).sbc_encoder_params.s16SamplingFreq = refPlatform.SBC_sf48000 ∧
    refPlatform.SBC_sf48000 ≠ refPlatform.SBC_sf16000 ∧
    refPlatform.SBC_sf48000 ≠ refPlatform.SBC_sf32000 := by
  decide

/-- C20 (amended): when the codec is at 44100 Hz or 48000 Hz and the source
rate passed to `a2d_sbc_feeding_init` is the same, the codec sampling
frequency is left as it is; when the codec is at 16000 Hz or 32000 Hz and the
source rate is the same, it is moved to 48000 Hz. The codec initialisation is
taken not to touch the sampling frequency. -/
theorem feeding_init_equal_rates (P : Platform)
    (hInit : ∀ p, (P.SBC_Encoder_Init p).s16SamplingFreq = p.s16SamplingFreq)
    (cb : tA2D_SBC_ENCODER_CB) (f : tA2D_FEEDING_PARAMS) :
    (cb.sbc_encoder_params.s16SamplingFreq = P.SBC_sf44100 → f.sampling_freq = 44100 →
      (a2d_sbc_feeding_init P cb f).sbc_encoder_params.s16SamplingFreq =
        cb.sbc_encoder_params.s16SamplingFreq) ∧
    (cb.sbc_encoder_params.s16SamplingFreq = P.SBC_sf48000 → f.sampling_freq = 48000 →
      (a2d_sbc_feeding_init P cb f).sbc_encoder_params.s16SamplingFreq =
        cb.sbc_encoder_params.s16SamplingFreq) ∧
    (cb.sbc_encoder_params.s16SamplingFreq = P.SBC_sf16000 → f.sampling_freq = 16000 →
      (a2d_sbc_feeding_init P cb f).sbc_encoder_params.s16SamplingFreq = P.SBC_sf48000) ∧
    (cb.sbc_encoder_params.s16SamplingFreq = P.SBC_sf32000 → f.sampling_freq = 32000 →
      (a2d_sbc_feeding_init P cb f).sbc_encoder_params.s16SamplingFreq = P.SBC_sf48000) := by
  rw [a2d_sbc_feeding_init_freq P hInit]
  refine ⟨fun hc h => ?_, fun hc h => ?_, fun _ h => ?_, fun _ h => ?_⟩
  · rw [if_neg (by omega), if_pos (by omega)]; exact hc.symm
  · rw [if_pos (by omega)]; exact hc.symm
  · rw [if_pos (by omega)]
  · rw [if_pos (by omega)]

/-- Witness for C20 (amended): codec and source at 44100 Hz. -/
theorem feeding_init_equal_rates_witness :
    (∀ p, (refPlatform.SBC_Encoder_Init p).s16SamplingFreq = p.s16SamplingFreq) ∧
    (scenarioE1 refPlatform).sbc_encoder_params.s16SamplingFreq = refPlatform.SBC_sf44100 ∧
    (a2d_sbc_feeding_init refPlatform (scenarioE1 refPlatform)
      ⟨44100, 2, 16⟩).sbc_encoder_params.s16SamplingFreq =
        (scenarioE1 refPlatform).sbc_encoder_params.s16SamplingFreq :=
  ⟨fun _ => rfl, rfl,
    (feeding_init_equal_rates refPlatform (fun _ => rfl) (scenarioE1 refPlatform)
      ⟨44100, 2, 16⟩).1 rfl rfl⟩


/-! ### The budgeter -/

/-- The value returned by `calculate_max_frames_per_packet` does not depend
on the statistics and the feeding state. -/
theorem calculate_max_frames_congr (P : Platform) (cb : tA2D_SBC_ENCODER_CB)
    (st : a2d_sbc_encoder_stats_t) (fs : tA2D_FEEDING_STATE) :
    (calculate_max_frames_per_packet P { cb with stats := st, feeding_state := fs }).1 =
      (calculate_max_frames_per_packet P cb).1 := by
  unfold calculate_max_frames_per_packet
  dsimp only
  by_cases h3 : (cb.is_peer_edr && !cb.peer_supports_3mbps &&
      decide (cb.TxAaMtuSize > MAX_2MBPS_AVDTP_MTU)) = true <;> simp [h3]

/-- The counter after the credit, as it stands in `a2d_sbc_get_num_frame_iteration`. -/
theorem creditedCounter_eq (cb : tA2D_SBC_ENCODER_CB) (now_us : Nat) :
    toUInt32 (cb.feeding_state.counter +
      toUInt32 (cb.feeding_state.bytes_per_tick *
        (if cb.feeding_state.last_frame_us ≠ 0 then
          toUInt32 (((now_us : Int) - cb.feeding_state.last_frame_us) % 18446744073709551616)
        else A2D_SBC_ENCODER_INTERVAL_MS * 1000) : Nat) /
        (A2D_SBC_ENCODER_INTERVAL_MS * 1000) : Nat) = creditedCounter cb now_us := rfl

/-- The limited `projected_nof`, as it stands in `a2d_sbc_get_num_frame_iteration`. -/
theorem projectedFrames_eq (P : Platform) (cb : tA2D_SBC_ENCODER_CB) (now_us : Nat) :
    (if creditedCounter cb now_us / pcm_bytes_per_frame cb > P.MAX_PCM_FRAME_NUM_PER_TICK then
      P.MAX_PCM_FRAME_NUM_PER_TICK
    else creditedCounter cb now_us / pcm_bytes_per_frame cb) = projectedFrames P cb now_us := rfl

/-- The `tx_sbc_frames` read by the EDR branch, as it stands in
`a2d_sbc_get_num_frame_iteration`. -/
theorem edrFrames_eq (P : Platform) (cb : tA2D_SBC_ENCODER_CB) :
    (if cb.tx_sbc_frames = 0 then (calculate_max_frames_per_packet P cb).1
      else cb.tx_sbc_frames) = edrFrames P cb := rfl

/-- After the first limit `projected_nof` is at most `MAX_PCM_FRAME_NUM_PER_TICK`. -/
theorem projectedFrames_le (P : Platform) (cb : tA2D_SBC_ENCODER_CB) (now_us : Nat) :
    projectedFrames P cb now_us ≤ P.MAX_PCM_FRAME_NUM_PER_TICK := by
  unfold projectedFrames
  split_ifs <;> omega

/-- `calculate_max_frames_per_packet` leaves the feeding state alone. -/
theorem calculate_max_frames_feeding_state (P : Platform) (cb : tA2D_SBC_ENCODER_CB) :
    (calculate_max_frames_per_packet P cb).2.feeding_state = cb.feeding_state :=
  (calculate_max_frames_flags P cb).2.2.2.2

/-- `calculate_max_frames_per_packet` leaves the timestamp alone. -/
theorem calculate_max_frames_timestamp (P : Platform) (cb : tA2D_SBC_ENCODER_CB) :
    (calculate_max_frames_per_packet P cb).2.timestamp = cb.timestamp :=
  (calculate_max_frames_flags P cb).2.2.1

/-- `calculate_max_frames_per_packet` leaves the PCM source alone. -/
theorem calculate_max_frames_feeding_params (P : Platform) (cb : tA2D_SBC_ENCODER_CB) :
    (calculate_max_frames_per_packet P cb).2.feeding_params = cb.feeding_params :=
  (calculate_max_frames_flags P cb).2.2.2.1

/-- `calculate_max_frames_per_packet` leaves the peer kind alone. -/
theorem calculate_max_frames_is_peer_edr (P : Platform) (cb : tA2D_SBC_ENCODER_CB) :
    (calculate_max_frames_per_packet P cb).2.is_peer_edr = cb.is_peer_edr :=
  (calculate_max_frames_flags P cb).1

/-- The pair `(num_of_iterations, num_of_frames)` that
`a2d_sbc_get_num_frame_iteration` returns. -/
theorem a2d_sbc_get_num_frame_iteration_pair (P : Platform) (cb : tA2D_SBC_ENCODER_CB)
    (now_us : Nat) :
    (a2d_sbc_get_num_frame_iteration P cb now_us).1 =
      if cb.is_peer_edr = true ∧ edrFrames P cb ≠ 0 ∧
          edrFrames P cb < projectedFrames P cb now_us then
        (if toUInt8 (projectedFrames P cb now_us / edrFrames P cb : Nat) >
            A2D_SBC_MAX_PCM_ITER_NUM_PER_TICK then A2D_SBC_MAX_PCM_ITER_NUM_PER_TICK
          else toUInt8 (projectedFrames P cb now_us / edrFrames P cb : Nat),
         edrFrames P cb)
      else (1, toUInt8 (projectedFrames P cb now_us)) := by
  unfold a2d_sbc_get_num_frame_iteration
  dsimp only
  simp only [creditedCounter_eq, decide_eq_true_eq, projectedFrames_eq,
    apply_ite Prod.fst, apply_ite tA2D_SBC_ENCODER_CB.tx_sbc_frames,
    calculate_max_frames_congr, edrFrames_eq]
  have hle := projectedFrames_le P cb now_us
  by_cases he : cb.is_peer_edr = true
  · by_cases h0 : edrFrames P cb = 0
    · have hc : ¬ (cb.is_peer_edr = true ∧ edrFrames P cb ≠ 0 ∧
          edrFrames P cb < projectedFrames P cb now_us) := fun h => h.2.1 h0
      rw [if_pos he, if_pos h0, if_neg hc]
    · by_cases hlt : edrFrames P cb < projectedFrames P cb now_us
      · have hc : cb.is_peer_edr = true ∧ edrFrames P cb ≠ 0 ∧
          edrFrames P cb < projectedFrames P cb now_us := ⟨he, h0, hlt⟩
        rw [if_pos he, if_neg h0, if_pos hlt, if_pos hc]
      · have hc : ¬ (cb.is_peer_edr = true ∧ edrFrames P cb ≠ 0 ∧
          edrFrames P cb < projectedFrames P cb now_us) := fun h => hlt h.2.2
        rw [if_pos he, if_neg h0, if_neg hlt, if_neg hc]
  · have hc : ¬ (cb.is_peer_edr = true ∧ edrFrames P cb ≠ 0 ∧
        edrFrames P cb < projectedFrames P cb now_us) := fun h => he h.1
    have hm : ¬ projectedFrames P cb now_us > P.MAX_PCM_FRAME_NUM_PER_TICK := by omega
    rw [if_neg he, if_neg hc, if_neg hm]

/-- The credit counter that `a2d_sbc_get_num_frame_iteration` leaves: the
credited counter, replaced in the "Audio Congestion" branch of an EDR peer by
the PCM bytes of the frames returned, less the PCM bytes of the frames
returned. -/
theorem a2d_sbc_get_num_frame_iteration_counter (P : Platform) (cb : tA2D_SBC_ENCODER_CB)
    (now_us : Nat) :
    (a2d_sbc_get_num_frame_iteration P cb now_us).2.feeding_state.counter =
      toUInt32 (((if iterationsClamped P cb now_us then
          toUInt32 ((a2d_sbc_get_num_frame_iteration P cb now_us).1.1 *
            (a2d_sbc_get_num_frame_iteration P cb now_us).1.2 * pcm_bytes_per_frame cb : Nat)
          else creditedCounter cb now_us : Nat) : Int) - toUInt32
        ((a2d_sbc_get_num_frame_iteration P cb now_us).1.1 *
          (a2d_sbc_get_num_frame_iteration P cb now_us).1.2 * pcm_bytes_per_frame cb : Nat)) := by
  rw [a2d_sbc_get_num_frame_iteration_pair]
  unfold a2d_sbc_get_num_frame_iteration iterationsClamped
  dsimp only
  simp only [creditedCounter_eq, decide_eq_true_eq, projectedFrames_eq,
    apply_ite Prod.snd, apply_ite tA2D_SBC_ENCODER_CB.tx_sbc_frames,
    apply_ite tA2D_SBC_ENCODER_CB.feeding_state, apply_ite tA2D_FEEDING_STATE.counter,
    calculate_max_frames_congr, calculate_max_frames_feeding_state, edrFrames_eq]
  have hle := projectedFrames_le P cb now_us
  have hm : ¬ projectedFrames P cb now_us > P.MAX_PCM_FRAME_NUM_PER_TICK := by omega
  by_cases he : cb.is_peer_edr = true
  · by_cases h0 : edrFrames P cb = 0
    · simp [he, h0]
    · by_cases hlt : edrFrames P cb < projectedFrames P cb now_us
      · by_cases hcl : toUInt8 (projectedFrames P cb now_us / edrFrames P cb : Nat) >
            A2D_SBC_MAX_PCM_ITER_NUM_PER_TICK
        · simp [he, h0, hlt, hcl]
        · simp [he, h0, hlt, hcl]
      · simp [he, h0, hlt]
  · simp [he, hm]

/-- What `a2d_sbc_get_num_frame_iteration` leaves of the control block beside
the credit counter and the statistics. -/
theorem a2d_sbc_get_num_frame_iteration_frame (P : Platform) (cb : tA2D_SBC_ENCODER_CB)
    (now_us : Nat) :
    (a2d_sbc_get_num_frame_iteration P cb now_us).2.feeding_state.last_frame_us = now_us ∧
    (a2d_sbc_get_num_frame_iteration P cb now_us).2.feeding_state.bytes_per_tick =
      cb.feeding_state.bytes_per_tick ∧
    (a2d_sbc_get_num_frame_iteration P cb now_us).2.feeding_state.aa_feed_residue =
      cb.feeding_state.aa_feed_residue ∧
    (a2d_sbc_get_num_frame_iteration P cb now_us).2.feeding_state.aa_feed_counter =
      cb.feeding_state.aa_feed_counter ∧
    (a2d_sbc_get_num_frame_iteration P cb now_us).2.timestamp = cb.timestamp ∧
    (a2d_sbc_get_num_frame_iteration P cb now_us).2.feeding_params = cb.feeding_params ∧
    (a2d_sbc_get_num_frame_iteration P cb now_us).2.is_peer_edr = cb.is_peer_edr ∧
    (a2d_sbc_get_num_frame_iteration P cb now_us).2.sbc_encoder_params =
      (if cb.is_peer_edr = true ∧ cb.tx_sbc_frames = 0 then
        resetZeroFields cb.sbc_encoder_params else cb.sbc_encoder_params) ∧
    (a2d_sbc_get_num_frame_iteration P cb now_us).2.tx_sbc_frames =
      (if cb.is_peer_edr = true then edrFrames P cb else cb.tx_sbc_frames) := by
  unfold a2d_sbc_get_num_frame_iteration
  dsimp only
  simp only [apply_ite Prod.snd, apply_ite tA2D_SBC_ENCODER_CB.tx_sbc_frames,
    apply_ite tA2D_SBC_ENCODER_CB.feeding_state, apply_ite tA2D_SBC_ENCODER_CB.timestamp,
    apply_ite tA2D_SBC_ENCODER_CB.feeding_params, apply_ite tA2D_SBC_ENCODER_CB.is_peer_edr,
    apply_ite tA2D_SBC_ENCODER_CB.sbc_encoder_params,
    apply_ite tA2D_FEEDING_STATE.last_frame_us, apply_ite tA2D_FEEDING_STATE.bytes_per_tick,
    apply_ite tA2D_FEEDING_STATE.aa_feed_residue, apply_ite tA2D_FEEDING_STATE.aa_feed_counter,
    calculate_max_frames_congr, calculate_max_frames_feeding_state,
    calculate_max_frames_params, calculate_max_frames_timestamp,
    calculate_max_frames_feeding_params, calculate_max_frames_is_peer_edr, edrFrames_eq,
    ite_self]
  simp only [true_and, and_true]
  by_cases he : cb.is_peer_edr = true
  · by_cases ht : cb.tx_sbc_frames = 0
    · simp [he, ht]
    · simp [he, ht]
  · simp [he]


/-- C16: when `last_frame_us` is 0 the budgeter takes the elapsed time to be
20000 microseconds whatever `now_us` is, and the credit it adds to the counter
is exactly `bytes_per_tick` (which `a2d_sbc_feeding_reset` leaves below
2^32 / 20000 for every source of the data model). In a state with
`pcm_bytes_per_frame > 0`, where the division of the budgeter is defined and
the call returns, the control block it leaves has `last_frame_us = now_us` and
the counter so credited (replaced in the "Audio Congestion" branch of an EDR
peer by the PCM bytes of the frames returned) less the PCM bytes of the frames
returned. -/
theorem first_tick_credit (P : Platform) (cb : tA2D_SBC_ENCODER_CB) (now_us : Nat)
    (h0 : cb.feeding_state.last_frame_us = 0)
    (hb : cb.feeding_state.bytes_per_tick * 20000 < 4294967296) :
    us_this_tick cb now_us = 20000 ∧
    tickCredit cb now_us = cb.feeding_state.bytes_per_tick ∧
    creditedCounter cb now_us =
      (cb.feeding_state.counter + cb.feeding_state.bytes_per_tick) % 4294967296 ∧
    (0 < pcm_bytes_per_frame cb →
      (a2d_sbc_get_num_frame_iteration P cb now_us).2.feeding_state.last_frame_us = now_us ∧
      (a2d_sbc_get_num_frame_iteration P cb now_us).2.feeding_state.counter =
        toUInt32 (((if iterationsClamped P cb now_us then
            toUInt32 ((a2d_sbc_get_num_frame_iteration P cb now_us).1.1 *
              (a2d_sbc_get_num_frame_iteration P cb now_us).1.2 * pcm_bytes_per_frame cb : Nat)
            else (cb.feeding_state.counter + cb.feeding_state.bytes_per_tick)
              % 4294967296 : Nat) : Int) - toUInt32
          ((a2d_sbc_get_num_frame_iteration P cb now_us).1.1 *
            (a2d_sbc_get_num_frame_iteration P cb now_us).1.2 * pcm_bytes_per_frame cb : Nat))) := by
  have hu : us_this_tick cb now_us = 20000 := by
    unfold us_this_tick
    rw [if_neg (by simp [h0])]
    rfl
  have hc : tickCredit cb now_us = cb.feeding_state.bytes_per_tick := by
    unfold tickCredit
    rw [hu]
    have e : toUInt32 ((cb.feeding_state.bytes_per_tick * 20000 : Nat) : Int) =
        cb.feeding_state.bytes_per_tick * 20000 := by
      unfold toUInt32
      omega
    rw [e]
    show cb.feeding_state.bytes_per_tick * 20000 / 20000 = _
    omega
  have hcc : creditedCounter cb now_us =
      (cb.feeding_state.counter + cb.feeding_state.bytes_per_tick) % 4294967296 := by
    unfold creditedCounter
    rw [hc]
    unfold toUInt32
    omega
  refine ⟨hu, hc, hcc, fun _ => ⟨(a2d_sbc_get_num_frame_iteration_frame P cb now_us).1, ?_⟩⟩
  rw [a2d_sbc_get_num_frame_iteration_counter, hcc]

/-- Witness for C16: the first tick after `a2d_sbc_feeding_reset` in the
configuration of scenario E1 (512 PCM bytes per frame), at
`now_us = 123456789`. -/
theorem first_tick_credit_witness :
    pcm_bytes_per_frame (a2d_sbc_feeding_reset (scenarioE1 refPlatform)) = 512 ∧
    (a2d_sbc_feeding_reset (scenarioE1 refPlatform)).feeding_state.last_frame_us = 0 ∧
    (a2d_sbc_feeding_reset (scenarioE1 refPlatform)).feeding_state.bytes_per_tick = 3528 ∧
    tickCredit (a2d_sbc_feeding_reset (scenarioE1 refPlatform)) 123456789 =
      (a2d_sbc_feeding_reset (scenarioE1 refPlatform)).feeding_state.bytes_per_tick ∧
    (a2d_sbc_get_num_frame_iteration refPlatform
      (a2d_sbc_feeding_reset (scenarioE1 refPlatform))
      123456789).2.feeding_state.last_frame_us = 123456789 :=
  ⟨by decide!, by decide!, by decide!,
    (first_tick_credit refPlatform (a2d_sbc_feeding_reset (scenarioE1 refPlatform)) 123456789
      (by decide!) (by decide!)).2.1,
    ((first_tick_credit refPlatform (a2d_sbc_feeding_reset (scenarioE1 refPlatform)) 123456789
      (by decide!) (by decide!)).2.2.2 (by decide!)).1⟩


/-- C17: for a non-EDR peer, with `pcm_bytes_per_frame > 0` and a frame limit
`MAX_PCM_FRAME_NUM_PER_TICK` that fits the `uint8_t` result, at every
`now_us` the budgeter returns 1 iteration and
`min(floor(c / pcm_bytes_per_frame), MAX_PCM_FRAME_NUM_PER_TICK)` frames,
where `c` is the counter after the credit of the tick, and it leaves
`counter = c - frames * pcm_bytes_per_frame`: the "Audio Congestion" store of
the non-EDR branch is never made. When the limit does not apply, what is left
is less than the PCM bytes of one frame. -/
theorem non_edr_budget (P : Platform) (cb : tA2D_SBC_ENCODER_CB) (now_us : Nat)
    (hedr : cb.is_peer_edr = false) (hpcm : 0 < pcm_bytes_per_frame cb)
    (hmax : P.MAX_PCM_FRAME_NUM_PER_TICK ≤ 255) :
    (a2d_sbc_get_num_frame_iteration P cb now_us).1 =
      (1, min (creditedCounter cb now_us / pcm_bytes_per_frame cb)
        P.MAX_PCM_FRAME_NUM_PER_TICK) ∧
    (a2d_sbc_get_num_frame_iteration P cb now_us).2.feeding_state.counter =
      creditedCounter cb now_us -
        min (creditedCounter cb now_us / pcm_bytes_per_frame cb)
          P.MAX_PCM_FRAME_NUM_PER_TICK * pcm_bytes_per_frame cb ∧
    min (creditedCounter cb now_us / pcm_bytes_per_frame cb)
      P.MAX_PCM_FRAME_NUM_PER_TICK * pcm_bytes_per_frame cb ≤ creditedCounter cb now_us ∧
    (creditedCounter cb now_us / pcm_bytes_per_frame cb ≤ P.MAX_PCM_FRAME_NUM_PER_TICK →
      (a2d_sbc_get_num_frame_iteration P cb now_us).2.feeding_state.counter <
        pcm_bytes_per_frame cb) := by
  have hp : projectedFrames P cb now_us =
      min (creditedCounter cb now_us / pcm_bytes_per_frame cb)
        P.MAX_PCM_FRAME_NUM_PER_TICK := by
    unfold projectedFrames
    split_ifs <;> omega
  have hple := projectedFrames_le P cb now_us
  have hc32 : creditedCounter cb now_us < 4294967296 := by
    unfold creditedCounter toUInt32
    omega
  have hmul : projectedFrames P cb now_us * pcm_bytes_per_frame cb ≤
      creditedCounter cb now_us := by
    have h1 : projectedFrames P cb now_us ≤
        creditedCounter cb now_us / pcm_bytes_per_frame cb := by
      rw [hp]; exact Nat.min_le_left _ _
    calc projectedFrames P cb now_us * pcm_bytes_per_frame cb
        ≤ creditedCounter cb now_us / pcm_bytes_per_frame cb * pcm_bytes_per_frame cb :=
          Nat.mul_le_mul_right _ h1
      _ ≤ creditedCounter cb now_us := Nat.div_mul_le_self _ _
  have hpair : (a2d_sbc_get_num_frame_iteration P cb now_us).1 =
      (1, projectedFrames P cb now_us) := by
    rw [a2d_sbc_get_num_frame_iteration_pair]
    have hc : ¬ (cb.is_peer_edr = true ∧ edrFrames P cb ≠ 0 ∧
        edrFrames P cb < projectedFrames P cb now_us) := by
      rw [hedr]; simp
    rw [if_neg hc]
    have e : toUInt8 ((projectedFrames P cb now_us : Nat) : Int) =
        projectedFrames P cb now_us := by
      unfold toUInt8
      omega
    rw [e]
  have hncl : ¬ iterationsClamped P cb now_us := by
    unfold iterationsClamped
    rw [hedr]; simp
  have hcnt : (a2d_sbc_get_num_frame_iteration P cb now_us).2.feeding_state.counter =
      creditedCounter cb now_us -
        min (creditedCounter cb now_us / pcm_bytes_per_frame cb)
          P.MAX_PCM_FRAME_NUM_PER_TICK * pcm_bytes_per_frame cb := by
    rw [a2d_sbc_get_num_frame_iteration_counter, if_neg hncl, hpair, ← hp]
    show toUInt32 ((creditedCounter cb now_us : Int) -
      toUInt32 ((1 * projectedFrames P cb now_us * pcm_bytes_per_frame cb : Nat) : Int)) = _
    rw [Nat.one_mul]
    generalize projectedFrames P cb now_us * pcm_bytes_per_frame cb = m at hmul ⊢
    generalize creditedCounter cb now_us = c at hmul hc32 ⊢
    unfold toUInt32
    omega
  refine ⟨by rw [hpair, hp], hcnt, by rw [← hp]; exact hmul, ?_⟩
  intro hle
  rw [hcnt, Nat.min_eq_left hle]
  have h1 := Nat.div_add_mod (creditedCounter cb now_us) (pcm_bytes_per_frame cb)
  have h2 := Nat.mod_lt (creditedCounter cb now_us) hpcm
  rw [Nat.mul_comm] at h1
  omega

/-- Witness for C17: the first tick of a non-EDR peer in the configuration of
`tickCb`. -/
theorem non_edr_budget_witness :
    (tickCb false 0 0 0).is_peer_edr = false ∧ 0 < pcm_bytes_per_frame (tickCb false 0 0 0) ∧
    refPlatform.MAX_PCM_FRAME_NUM_PER_TICK ≤ 255 ∧
    (a2d_sbc_get_num_frame_iteration refPlatform (tickCb false 0 0 0) 5000).1 =
      (1, min (creditedCounter (tickCb false 0 0 0) 5000 /
        pcm_bytes_per_frame (tickCb false 0 0 0)) refPlatform.MAX_PCM_FRAME_NUM_PER_TICK) :=
  ⟨by decide, by decide!, by decide,
    (non_edr_budget refPlatform (tickCb false 0 0 0) 5000 (by decide) (by decide!)
      (by decide)).1⟩

/-- C18: for an EDR peer with `tx_sbc_frames = t > 0`, in a state with
`pcm_bytes_per_frame > 0` (the divisor of the budgeter, which does not return
otherwise), and with projected frame count `p` (after the limit
`MAX_PCM_FRAME_NUM_PER_TICK`, which fits the `uint8_t` results), the budgeter
returns `t` frames and `min(floor(p / t), 3)` iterations when `t < p`, and `p`
frames and 1 iteration when `t >= p`; with `t = 7` and `p = 14` that is 2
iterations of 7 frames. Here `p` is
`min(floor(c / pcm_bytes_per_frame), MAX_PCM_FRAME_NUM_PER_TICK)` for the
counter `c` after the credit of the tick: `p` frames are paid by `c`, and
when the limit does not apply `p + 1` frames are not. -/
theorem edr_budget (P : Platform) (cb : tA2D_SBC_ENCODER_CB) (now_us : Nat)
    (hedr : cb.is_peer_edr = true) (ht : 0 < cb.tx_sbc_frames)
    (hpcm : 0 < pcm_bytes_per_frame cb)
    (hmax : P.MAX_PCM_FRAME_NUM_PER_TICK ≤ 255) :
    (cb.tx_sbc_frames < projectedFrames P cb now_us →
      (a2d_sbc_get_num_frame_iteration P cb now_us).1 =
        (min (projectedFrames P cb now_us / cb.tx_sbc_frames) 3, cb.tx_sbc_frames)) ∧
    (cb.tx_sbc_frames ≥ projectedFrames P cb now_us →
      (a2d_sbc_get_num_frame_iteration P cb now_us).1 = (1, projectedFrames P cb now_us)) ∧
    (cb.tx_sbc_frames = 7 → projectedFrames P cb now_us = 14 →
      (a2d_sbc_get_num_frame_iteration P cb now_us).1 = (2, 7)) ∧
    projectedFrames P cb now_us =
      min (creditedCounter cb now_us / pcm_bytes_per_frame cb)
        P.MAX_PCM_FRAME_NUM_PER_TICK ∧
    projectedFrames P cb now_us * pcm_bytes_per_frame cb ≤ creditedCounter cb now_us ∧
    (creditedCounter cb now_us / pcm_bytes_per_frame cb ≤ P.MAX_PCM_FRAME_NUM_PER_TICK →
      creditedCounter cb now_us <
        (projectedFrames P cb now_us + 1) * pcm_bytes_per_frame cb) := by
  have hp : projectedFrames P cb now_us =
      min (creditedCounter cb now_us / pcm_bytes_per_frame cb)
        P.MAX_PCM_FRAME_NUM_PER_TICK := by
    unfold projectedFrames
    split_ifs <;> omega
  have hmul : projectedFrames P cb now_us * pcm_bytes_per_frame cb ≤
      creditedCounter cb now_us := by
    have h1 : projectedFrames P cb now_us ≤
        creditedCounter cb now_us / pcm_bytes_per_frame cb := by
      rw [hp]; exact Nat.min_le_left _ _
    calc projectedFrames P cb now_us * pcm_bytes_per_frame cb
        ≤ creditedCounter cb now_us / pcm_bytes_per_frame cb * pcm_bytes_per_frame cb :=
          Nat.mul_le_mul_right _ h1
      _ ≤ creditedCounter cb now_us := Nat.div_mul_le_self _ _
  have hfl : creditedCounter cb now_us / pcm_bytes_per_frame cb ≤
      P.MAX_PCM_FRAME_NUM_PER_TICK →
      creditedCounter cb now_us <
        (projectedFrames P cb now_us + 1) * pcm_bytes_per_frame cb := by
    intro hle
    rw [hp, Nat.min_eq_left hle]
    have h1 := Nat.div_add_mod (creditedCounter cb now_us) (pcm_bytes_per_frame cb)
    have h2 := Nat.mod_lt (creditedCounter cb now_us) hpcm
    rw [Nat.add_mul, Nat.one_mul, Nat.mul_comm]
    omega
  have hple := projectedFrames_le P cb now_us
  have ht0 : cb.tx_sbc_frames ≠ 0 := by omega
  have hedrF : edrFrames P cb = cb.tx_sbc_frames := by
    unfold edrFrames
    rw [if_neg ht0]
  have hlt : cb.tx_sbc_frames < projectedFrames P cb now_us →
      (a2d_sbc_get_num_frame_iteration P cb now_us).1 =
        (min (projectedFrames P cb now_us / cb.tx_sbc_frames) 3, cb.tx_sbc_frames) := by
    intro h
    rw [a2d_sbc_get_num_frame_iteration_pair, hedrF]
    have hc : cb.is_peer_edr = true ∧ cb.tx_sbc_frames ≠ 0 ∧
        cb.tx_sbc_frames < projectedFrames P cb now_us := ⟨hedr, ht0, h⟩
    rw [if_pos hc]
    have hq : projectedFrames P cb now_us / cb.tx_sbc_frames ≤ 255 :=
      le_trans (Nat.div_le_self _ _) (le_trans hple hmax)
    have e : toUInt8 ((projectedFrames P cb now_us / cb.tx_sbc_frames : Nat) : Int) =
        projectedFrames P cb now_us / cb.tx_sbc_frames := by
      generalize projectedFrames P cb now_us / cb.tx_sbc_frames = q at hq ⊢
      unfold toUInt8
      omega
    rw [e]
    generalize projectedFrames P cb now_us / cb.tx_sbc_frames = q
    show (if q > 3 then 3 else q, cb.tx_sbc_frames) = _
    split_ifs with h3
    · rw [Nat.min_eq_right (by omega)]
    · rw [Nat.min_eq_left (by omega)]
  refine ⟨hlt, ?_, ?_, hp, hmul, hfl⟩
  · intro h
    rw [a2d_sbc_get_num_frame_iteration_pair, hedrF]
    have hc : ¬ (cb.is_peer_edr = true ∧ cb.tx_sbc_frames ≠ 0 ∧
        cb.tx_sbc_frames < projectedFrames P cb now_us) := fun hh => by omega
    rw [if_neg hc]
    have e : toUInt8 ((projectedFrames P cb now_us : Nat) : Int) =
        projectedFrames P cb now_us := by
      unfold toUInt8
      omega
    rw [e]
  · intro h7 h14
    rw [hlt (by omega), h7, h14]
    rfl

/-- Witness for C18: scenario E4, a tick 60 ms after the last one with
`tx_sbc_frames = 7`; the 10584 bytes of credit are 20 frames, limited to 14,
and the budgeter returns 2 iterations of 7 frames. -/
theorem edr_budget_witness :
    (tickCb true 7 0 1000).is_peer_edr = true ∧ (tickCb true 7 0 1000).tx_sbc_frames = 7 ∧
    pcm_bytes_per_frame (tickCb true 7 0 1000) = 512 ∧
    refPlatform.MAX_PCM_FRAME_NUM_PER_TICK ≤ 255 ∧
    projectedFrames refPlatform (tickCb true 7 0 1000) 61000 = 14 ∧
    (a2d_sbc_get_num_frame_iteration refPlatform (tickCb true 7 0 1000) 61000).1 = (2, 7) :=
  ⟨by decide, by decide, by decide!, by decide, by decide!,
    (edr_budget refPlatform (tickCb true 7 0 1000) 61000 (by decide) (by decide)
      (by decide!) (by decide)).2.2.1 (by decide) (by decide!)⟩


/-! ### The packetizer and its events -/

/-- `a2d_sbc_read_feeding` makes one call of the read callback and leaves the
events, the credit counter and the tick state alone. -/
theorem a2d_sbc_read_feeding_log (P : Platform) (E : Callbacks) (s : Session) :
    (a2d_sbc_read_feeding P E s).2.log = s.log ∧
    (a2d_sbc_read_feeding P E s).2.reads = s.reads + 1 ∧
    (a2d_sbc_read_feeding P E s).2.cb.feeding_state.counter = s.cb.feeding_state.counter ∧
    (a2d_sbc_read_feeding P E s).2.cb.feeding_state.bytes_per_tick =
      s.cb.feeding_state.bytes_per_tick ∧
    (a2d_sbc_read_feeding P E s).2.cb.feeding_state.last_frame_us =
      s.cb.feeding_state.last_frame_us ∧
    (a2d_sbc_read_feeding P E s).2.cb.tx_sbc_frames = s.cb.tx_sbc_frames ∧
    (a2d_sbc_read_feeding P E s).2.cb.is_peer_edr = s.cb.is_peer_edr := by
  unfold a2d_sbc_read_feeding
  dsimp only
  refine ite_snd_of (fun t => t.log = s.log ∧ t.reads = s.reads + 1 ∧
    t.cb.feeding_state.counter = s.cb.feeding_state.counter ∧
    t.cb.feeding_state.bytes_per_tick = s.cb.feeding_state.bytes_per_tick ∧
    t.cb.feeding_state.last_frame_us = s.cb.feeding_state.last_frame_us ∧
    t.cb.tx_sbc_frames = s.cb.tx_sbc_frames ∧ t.cb.is_peer_edr = s.cb.is_peer_edr) _ _ _ ?_ ?_
  · refine ite_snd_of (fun t => t.log = s.log ∧ t.reads = s.reads + 1 ∧
      t.cb.feeding_state.counter = s.cb.feeding_state.counter ∧
      t.cb.feeding_state.bytes_per_tick = s.cb.feeding_state.bytes_per_tick ∧
      t.cb.feeding_state.last_frame_us = s.cb.feeding_state.last_frame_us ∧
      t.cb.tx_sbc_frames = s.cb.tx_sbc_frames ∧ t.cb.is_peer_edr = s.cb.is_peer_edr)
      _ _ _ ?_ ?_ <;>
      exact ⟨rfl, rfl, rfl, rfl, rfl, rfl, rfl⟩
  · refine ite_snd_of (fun t => t.log = s.log ∧ t.reads = s.reads + 1 ∧
      t.cb.feeding_state.counter = s.cb.feeding_state.counter ∧
      t.cb.feeding_state.bytes_per_tick = s.cb.feeding_state.bytes_per_tick ∧
      t.cb.feeding_state.last_frame_us = s.cb.feeding_state.last_frame_us ∧
      t.cb.tx_sbc_frames = s.cb.tx_sbc_frames ∧ t.cb.is_peer_edr = s.cb.is_peer_edr)
      _ _ _ ?_ ?_
    · exact ⟨rfl, rfl, rfl, rfl, rfl, rfl, rfl⟩
    · refine ite_snd_of (fun t => t.log = s.log ∧ t.reads = s.reads + 1 ∧
        t.cb.feeding_state.counter = s.cb.feeding_state.counter ∧
        t.cb.feeding_state.bytes_per_tick = s.cb.feeding_state.bytes_per_tick ∧
        t.cb.feeding_state.last_frame_us = s.cb.feeding_state.last_frame_us ∧
        t.cb.tx_sbc_frames = s.cb.tx_sbc_frames ∧ t.cb.is_peer_edr = s.cb.is_peer_edr)
        _ _ _ ?_ ?_ <;>
        exact ⟨rfl, rfl, rfl, rfl, rfl, rfl, rfl⟩

/-- The credit counter after the underflow branch of `a2d_sbc_encode_frames`
taken with `nb_frame` frames left, from the counter `counter` and the
configuration of `cb`. -/
theorem refundUnderflow_counter (s : Session) (nb_frame : Nat) :
    (refundUnderflow s nb_frame).cb.feeding_state.counter =
      toUInt32 (s.cb.feeding_state.counter +
        Int.tdiv (toInt32 ((nb_frame : Int) *
          s.cb.sbc_encoder_params.s16NumOfSubBands *
          s.cb.sbc_encoder_params.s16NumOfBlocks *
          s.cb.feeding_params.num_channel *
          s.cb.feeding_params.bit_per_sample)) 8) := rfl

/-- The inner loop of `a2d_sbc_encode_frames` as a sequence of events: `j`
frames are read and encoded, and then either the loop is left with
`nb_frame` lowered by `j` and the credit counter as it was, or the source
underflows with `n - j` frames left, which are credited back. -/
theorem encodeBuffer_log (P : Platform) (E : Callbacks) :
    ∀ (n len ls : Nat) (s : Session),
      ∃ (j : Nat) (u : Bool),
        (encodeBuffer P E n len ls s).2.2.2.log =
          s.log ++ List.replicate j PacketizerEvent.frame ++
            (if u = true then [PacketizerEvent.underflow] else []) ∧
        (u = false → (encodeBuffer P E n len ls s).1 + j = n ∧
          (encodeBuffer P E n len ls s).2.2.2.cb.feeding_state.counter =
            s.cb.feeding_state.counter) ∧
        (u = true → j < n ∧ (encodeBuffer P E n len ls s).1 = 0 ∧
          (encodeBuffer P E n len ls s).2.2.2.cb.feeding_state.counter =
            toUInt32 (s.cb.feeding_state.counter +
              Int.tdiv (toInt32 (((n - j : Nat) : Int) *
                s.cb.sbc_encoder_params.s16NumOfSubBands *
                s.cb.sbc_encoder_params.s16NumOfBlocks *
                s.cb.feeding_params.num_channel *
                s.cb.feeding_params.bit_per_sample)) 8)) ∧
        (0 < n → 0 < j ∨ u = true) ∧
        (encodeBuffer P E n len ls s).2.2.2.reads = s.reads + j + (if u = true then 1 else 0) ∧
        (encodeBuffer P E n len ls s).2.2.2.cb.sbc_encoder_params.s16NumOfSubBands =
          s.cb.sbc_encoder_params.s16NumOfSubBands ∧
        (encodeBuffer P E n len ls s).2.2.2.cb.sbc_encoder_params.s16NumOfBlocks =
          s.cb.sbc_encoder_params.s16NumOfBlocks ∧
        (encodeBuffer P E n len ls s).2.2.2.cb.feeding_params = s.cb.feeding_params ∧
        (encodeBuffer P E n len ls s).2.2.2.enqueued = s.enqueued ∧
        (encodeBuffer P E n len ls s).2.2.2.cb.timestamp = s.cb.timestamp := by
  intro n
  induction n with
  | zero =>
    intro len ls s
    refine ⟨0, false, ?_, ?_, ?_, ?_, rfl, rfl, rfl, rfl, rfl, rfl⟩
    · show s.log = s.log ++ [] ++ []
      simp
    · intro _; exact ⟨rfl, rfl⟩
    · intro h; exact absurd h (by decide)
    · intro h; exact absurd h (by decide)
  | succ n ih =>
    intro len ls s
    obtain ⟨f1, f2, f3, f4, f5⟩ := a2d_sbc_read_feeding_frame P E s
    obtain ⟨g1, g2, g3, -⟩ := a2d_sbc_read_feeding_log P E s
    rw [encodeBuffer]
    dsimp only
    by_cases hr : (a2d_sbc_read_feeding P E s).1 = true
    · rw [if_pos hr]
      have hlog : (sbcEncode P (a2d_sbc_read_feeding P E s).2).log =
          s.log ++ [PacketizerEvent.frame] := by
        show (a2d_sbc_read_feeding P E s).2.log ++ [PacketizerEvent.frame] = _
        rw [g1]
      have hcnt : (sbcEncode P (a2d_sbc_read_feeding P E s).2).cb.feeding_state.counter =
          s.cb.feeding_state.counter := g3
      have hrd : (sbcEncode P (a2d_sbc_read_feeding P E s).2).reads = s.reads + 1 := g2
      have hns : (sbcEncode P (a2d_sbc_read_feeding P E s).2).cb.sbc_encoder_params.s16NumOfSubBands
          = s.cb.sbc_encoder_params.s16NumOfSubBands := by
        show (a2d_sbc_read_feeding P E s).2.cb.sbc_encoder_params.s16NumOfSubBands = _
        rw [f4]
      have hnb : (sbcEncode P (a2d_sbc_read_feeding P E s).2).cb.sbc_encoder_params.s16NumOfBlocks
          = s.cb.sbc_encoder_params.s16NumOfBlocks := by
        show (a2d_sbc_read_feeding P E s).2.cb.sbc_encoder_params.s16NumOfBlocks = _
        rw [f4]
      have hfp : (sbcEncode P (a2d_sbc_read_feeding P E s).2).cb.feeding_params =
          s.cb.feeding_params := f5
      have hen : (sbcEncode P (a2d_sbc_read_feeding P E s).2).enqueued = s.enqueued := f1
      have hts : (sbcEncode P (a2d_sbc_read_feeding P E s).2).cb.timestamp = s.cb.timestamp := f3
      split_ifs with hc
      · obtain ⟨j, u, i1, i2, i3, i4, i5, i6, i7, i8, i9, i10⟩ := ih
          (toUInt16 ((len + (sbcEncode P
            (a2d_sbc_read_feeding P E s).2).cb.sbc_encoder_params.u16PacketLength : Nat) : Int))
          (toUInt16 ((ls + 1 : Nat) : Int)) (sbcEncode P (a2d_sbc_read_feeding P E s).2)
        rw [hlog] at i1
        rw [hcnt] at i2
        rw [hcnt, hns, hnb, hfp] at i3
        rw [hrd] at i5
        rw [hns] at i6
        rw [hnb] at i7
        rw [hfp] at i8
        rw [hen] at i9
        rw [hts] at i10
        refine ⟨j + 1, u, ?_, ?_, ?_, fun _ => ?_, ?_, i6, i7, i8, i9, i10⟩
        · rw [i1, List.replicate_succ]
          simp
        · intro hu
          obtain ⟨a, b⟩ := i2 hu
          exact ⟨by omega, b⟩
        · intro hu
          obtain ⟨a, b, c⟩ := i3 hu
          refine ⟨by omega, b, ?_⟩
          rw [c]
          have e : n + 1 - (j + 1) = n - j := by omega
          rw [e]
        · left; omega
        · rw [i5]; omega
      · refine ⟨1, false, ?_, ?_, ?_, ?_, ?_, hns, hnb, hfp, hen, hts⟩
        · show (sbcEncode P (a2d_sbc_read_feeding P E s).2).log = _
          rw [hlog]
          simp
        · intro _; exact ⟨rfl, hcnt⟩
        · intro h; exact absurd h (by decide)
        · intro _; left; exact Nat.one_pos
        · show (sbcEncode P (a2d_sbc_read_feeding P E s).2).reads = _
          rw [hrd]
          simp
    · rw [if_neg hr]
      refine ⟨0, true, ?_, ?_, ?_, ?_, ?_, ?_, ?_, f5, f1, f3⟩
      · show (a2d_sbc_read_feeding P E s).2.log ++ [PacketizerEvent.underflow] = _
        rw [g1]
        simp
      · intro h; exact absurd h (by decide)
      · intro _
        refine ⟨Nat.succ_pos n, rfl, ?_⟩
        rw [refundUnderflow_counter, g3, f4, f5]
        rfl
      · intro _; right; rfl
      · show (a2d_sbc_read_feeding P E s).2.reads = _
        rw [g2]
        simp
      · show (a2d_sbc_read_feeding P E s).2.cb.sbc_encoder_params.s16NumOfSubBands = _
        rw [f4]
      · show (a2d_sbc_read_feeding P E s).2.cb.sbc_encoder_params.s16NumOfBlocks = _
        rw [f4]


/-- With no frame left the outer loop of `a2d_sbc_encode_frames` does nothing. -/
theorem encodeLoop_zero (P : Platform) (E : Callbacks) (fuel remain : Nat) (s : Session) :
    encodeLoop P E fuel 0 remain s = s := by
  cases fuel with
  | zero => rfl
  | succ fuel => rw [encodeLoop]; exact if_pos rfl

/-- The outer loop of `a2d_sbc_encode_frames` as a sequence of events. The
frames read and encoded are at most `nb_frame`; when the source underflows,
the frames not encoded are credited back to the counter, which is otherwise
left alone; without underflow and without refusal all `nb_frame` frames are
encoded; a refusal of the enqueue callback is the last event; and every
`frame` and `underflow` event is one call of the read callback. -/
theorem encodeLoop_log (P : Platform) (E : Callbacks) :
    ∀ (fuel nb remain : Nat) (s : Session), nb ≤ fuel →
      ∃ new : List PacketizerEvent,
        (encodeLoop P E fuel nb remain s).log = s.log ++ new ∧
        new.count PacketizerEvent.frame ≤ nb ∧
        (PacketizerEvent.underflow ∈ new →
          new.count PacketizerEvent.frame < nb ∧
          (encodeLoop P E fuel nb remain s).cb.feeding_state.counter =
            toUInt32 (s.cb.feeding_state.counter +
              Int.tdiv (toInt32 (((nb - new.count PacketizerEvent.frame : Nat) : Int) *
                s.cb.sbc_encoder_params.s16NumOfSubBands *
                s.cb.sbc_encoder_params.s16NumOfBlocks *
                s.cb.feeding_params.num_channel *
                s.cb.feeding_params.bit_per_sample)) 8)) ∧
        (PacketizerEvent.underflow ∉ new →
          (encodeLoop P E fuel nb remain s).cb.feeding_state.counter =
            s.cb.feeding_state.counter) ∧
        (PacketizerEvent.underflow ∉ new → PacketizerEvent.enqueue false ∉ new →
          new.count PacketizerEvent.frame = nb) ∧
        (PacketizerEvent.enqueue false ∉ new ∨
          ∃ pre, new = pre ++ [PacketizerEvent.enqueue false] ∧
            PacketizerEvent.enqueue false ∉ pre) ∧
        (encodeLoop P E fuel nb remain s).reads =
          s.reads + new.count PacketizerEvent.frame + new.count PacketizerEvent.underflow ∧
        (encodeLoop P E fuel nb remain s).cb.sbc_encoder_params.s16NumOfSubBands =
          s.cb.sbc_encoder_params.s16NumOfSubBands ∧
        (encodeLoop P E fuel nb remain s).cb.sbc_encoder_params.s16NumOfBlocks =
          s.cb.sbc_encoder_params.s16NumOfBlocks ∧
        (encodeLoop P E fuel nb remain s).cb.feeding_params = s.cb.feeding_params := by
  intro fuel
  induction fuel with
  | zero =>
    intro nb remain s h
    have h0 : nb = 0 := by omega
    subst h0
    exact ⟨[], by simp [encodeLoop], by simp, by simp, fun _ => rfl, fun _ _ => rfl,
      Or.inl (by simp), by simp [encodeLoop], rfl, rfl, rfl⟩
  | succ fuel ih =>
    intro nb remain s h
    by_cases h0 : nb = 0
    · subst h0
      rw [encodeLoop_zero]
      exact ⟨[], by simp, by simp, by simp, fun _ => rfl, fun _ _ => rfl,
        Or.inl (by simp), by simp, rfl, rfl, rfl⟩
    · rw [encodeLoop, if_neg h0]
      dsimp only
      obtain ⟨j, u, b1, b2, b3, b4, b5, b6, b7, b8, -, -⟩ := encodeBuffer_log P E nb 0 0 s
      generalize encodeBuffer P E nb 0 0 s = R at b1 b2 b3 b4 b5 b6 b7 b8 ⊢
      have hj := b4 (by omega)
      cases u with
      | true =>
        obtain ⟨c1, c2, c3⟩ := b3 rfl
        rw [c2]
        simp only [encodeLoop_zero, if_true] at b1 b5 ⊢
        by_cases hl : R.2.1 ≠ 0
        · rw [if_pos hl]
          refine ⟨List.replicate j PacketizerEvent.frame ++ [PacketizerEvent.underflow] ++
            [PacketizerEvent.enqueue (E.enqueue_callback R.2.2.2.enqueued.length)],
            ?_, ?_, ?_, ?_, ?_, ?_, ?_, ?_, ?_, ?_⟩
          · split_ifs <;>
            · show R.2.2.2.log ++ _ = _
              rw [b1]; simp
          · simp [List.count_replicate]; omega
          · intro _
            have hk : (List.replicate j PacketizerEvent.frame ++ [PacketizerEvent.underflow] ++
                [PacketizerEvent.enqueue (E.enqueue_callback R.2.2.2.enqueued.length)]).count
                PacketizerEvent.frame = j := by
              simp [List.count_replicate]
            rw [hk]
            refine ⟨c1, ?_⟩
            split_ifs <;> exact c3
          · intro hn
            exact absurd (by simp) hn
          · intro hn
            exact absurd (by simp) hn
          · by_cases ha : E.enqueue_callback R.2.2.2.enqueued.length = false
            · right
              refine ⟨_, by rw [ha], ?_⟩
              simp [List.mem_replicate]
            · left
              simp [List.mem_replicate, ha]
          · have hk : ∀ b, (List.replicate j PacketizerEvent.frame ++
                [PacketizerEvent.underflow] ++ [PacketizerEvent.enqueue b]).count
                PacketizerEvent.frame = j ∧
                (List.replicate j PacketizerEvent.frame ++
                [PacketizerEvent.underflow] ++ [PacketizerEvent.enqueue b]).count
                PacketizerEvent.underflow = 1 := by
              intro b
              simp [List.count_replicate]
            rw [(hk _).1, (hk _).2]
            split_ifs <;> exact b5
          · split_ifs <;> exact b6
          · split_ifs <;> exact b7
          · split_ifs <;> exact b8
        · rw [if_neg hl]
          refine ⟨List.replicate j PacketizerEvent.frame ++ [PacketizerEvent.underflow],
            by rw [b1, List.append_assoc], ?_, ?_, ?_, ?_, ?_, ?_, b6, b7, b8⟩
          · simp [List.count_replicate]; omega
          · intro _
            have hk : (List.replicate j PacketizerEvent.frame ++
                [PacketizerEvent.underflow]).count PacketizerEvent.frame = j := by
              simp [List.count_replicate]
            rw [hk]
            exact ⟨c1, c3⟩
          · intro hn
            exact absurd (by simp) hn
          · intro hn
            exact absurd (by simp) hn
          · left
            simp [List.mem_replicate]
          · have hk : (List.replicate j PacketizerEvent.frame ++
                [PacketizerEvent.underflow]).count PacketizerEvent.frame = j ∧
                (List.replicate j PacketizerEvent.frame ++
                [PacketizerEvent.underflow]).count PacketizerEvent.underflow = 1 := by
              simp [List.count_replicate]
            rw [hk.1, hk.2]
            exact b5
      | false =>
        obtain ⟨c1, c2⟩ := b2 rfl
        have hj1 : 0 < j := by
          rcases hj with hj | hj
          · exact hj
          · exact absurd hj (by decide)
        simp only [Bool.false_eq_true, if_false, List.append_nil, Nat.add_zero] at b1 b5
        have hkj : ∀ l : List PacketizerEvent,
            (List.replicate j PacketizerEvent.frame ++ l).count PacketizerEvent.frame =
              j + l.count PacketizerEvent.frame ∧
            (List.replicate j PacketizerEvent.frame ++ l).count PacketizerEvent.underflow =
              l.count PacketizerEvent.underflow ∧
            (PacketizerEvent.underflow ∈ List.replicate j PacketizerEvent.frame ++ l ↔
              PacketizerEvent.underflow ∈ l) ∧
            (PacketizerEvent.enqueue false ∈ List.replicate j PacketizerEvent.frame ++ l ↔
              PacketizerEvent.enqueue false ∈ l) := by
          intro l
          simp [List.count_replicate, List.mem_replicate]
        by_cases hl : R.2.1 ≠ 0
        · rw [if_pos hl]
          by_cases ha : E.enqueue_callback R.2.2.2.enqueued.length = false
          · rw [if_pos ha, ha]
            refine ⟨List.replicate j PacketizerEvent.frame ++ [PacketizerEvent.enqueue false],
              ?_, ?_, ?_, ?_, ?_, ?_, ?_, b6, b7, b8⟩
            · show R.2.2.2.log ++ _ = _
              rw [b1, List.append_assoc]
            · rw [(hkj _).1]; simp; omega
            · intro hm
              rw [(hkj _).2.2.1] at hm
              simp at hm
            · intro _; exact c2
            · intro _ hn
              exact absurd (by simp) hn
            · right
              exact ⟨_, rfl, by simp [List.mem_replicate]⟩
            · rw [(hkj _).1, (hkj _).2.1]
              show R.2.2.2.reads = _
              rw [b5]; simp
          · rw [if_neg ha]
            have hat : E.enqueue_callback R.2.2.2.enqueued.length = true := by
              cases h : E.enqueue_callback R.2.2.2.enqueued.length
              · exact absurd h ha
              · rfl
            rw [hat]
            obtain ⟨new2, n1, n2, n3, n4, n5, n6, n7, n8, n9, n10⟩ := ih R.1 R.1
              (stampAndEnqueue R.2.2.2
                (toUInt16 (s.cb.sbc_encoder_params.s16NumOfSubBands *
                  s.cb.sbc_encoder_params.s16NumOfBlocks))
                R.2.1 R.2.2.1 (toUInt8 ((remain : Int) - R.1)) true) (by omega)
            have e1 : (stampAndEnqueue R.2.2.2
                (toUInt16 (s.cb.sbc_encoder_params.s16NumOfSubBands *
                  s.cb.sbc_encoder_params.s16NumOfBlocks))
                R.2.1 R.2.2.1 (toUInt8 ((remain : Int) - R.1)) true).log =
                s.log ++ (List.replicate j PacketizerEvent.frame ++
                  [PacketizerEvent.enqueue true]) := by
              show R.2.2.2.log ++ _ = _
              rw [b1, List.append_assoc]
            have e2 : (stampAndEnqueue R.2.2.2
                (toUInt16 (s.cb.sbc_encoder_params.s16NumOfSubBands *
                  s.cb.sbc_encoder_params.s16NumOfBlocks))
                R.2.1 R.2.2.1 (toUInt8 ((remain : Int) - R.1)) true).cb.feeding_state.counter =
                s.cb.feeding_state.counter := c2
            have e3 : (stampAndEnqueue R.2.2.2
                (toUInt16 (s.cb.sbc_encoder_params.s16NumOfSubBands *
                  s.cb.sbc_encoder_params.s16NumOfBlocks))
                R.2.1 R.2.2.1 (toUInt8 ((remain : Int) - R.1)) true).reads =
                s.reads + j := b5
            have e4 : (stampAndEnqueue R.2.2.2
                (toUInt16 (s.cb.sbc_encoder_params.s16NumOfSubBands *
                  s.cb.sbc_encoder_params.s16NumOfBlocks))
                R.2.1 R.2.2.1 (toUInt8 ((remain : Int) - R.1))
                true).cb.sbc_encoder_params.s16NumOfSubBands =
                s.cb.sbc_encoder_params.s16NumOfSubBands := b6
            have e5 : (stampAndEnqueue R.2.2.2
                (toUInt16 (s.cb.sbc_encoder_params.s16NumOfSubBands *
                  s.cb.sbc_encoder_params.s16NumOfBlocks))
                R.2.1 R.2.2.1 (toUInt8 ((remain : Int) - R.1))
                true).cb.sbc_encoder_params.s16NumOfBlocks =
                s.cb.sbc_encoder_params.s16NumOfBlocks := b7
            have e6 : (stampAndEnqueue R.2.2.2
                (toUInt16 (s.cb.sbc_encoder_params.s16NumOfSubBands *
                  s.cb.sbc_encoder_params.s16NumOfBlocks))
                R.2.1 R.2.2.1 (toUInt8 ((remain : Int) - R.1))
                true).cb.feeding_params = s.cb.feeding_params := b8
            rw [e1] at n1
            rw [e2, e4, e5, e6] at n3
            rw [e2] at n4
            rw [e3] at n7
            rw [e4] at n8
            rw [e5] at n9
            rw [e6] at n10
            have hk2 : (List.replicate j PacketizerEvent.frame ++
                (PacketizerEvent.enqueue true :: new2)).count PacketizerEvent.frame =
                j + new2.count PacketizerEvent.frame ∧
              (List.replicate j PacketizerEvent.frame ++
                (PacketizerEvent.enqueue true :: new2)).count PacketizerEvent.underflow =
                new2.count PacketizerEvent.underflow ∧
              (PacketizerEvent.underflow ∈ List.replicate j PacketizerEvent.frame ++
                (PacketizerEvent.enqueue true :: new2) ↔ PacketizerEvent.underflow ∈ new2) ∧
              (PacketizerEvent.enqueue false ∈ List.replicate j PacketizerEvent.frame ++
                (PacketizerEvent.enqueue true :: new2) ↔
                PacketizerEvent.enqueue false ∈ new2) := by
              simp [List.count_replicate, List.mem_replicate]
            refine ⟨List.replicate j PacketizerEvent.frame ++
              (PacketizerEvent.enqueue true :: new2), ?_, ?_, ?_, ?_, ?_, ?_, ?_, n8, n9, n10⟩
            · rw [n1]; simp
            · rw [hk2.1]; omega
            · intro hm
              rw [hk2.2.2.1] at hm
              obtain ⟨m1, m2⟩ := n3 hm
              rw [hk2.1]
              refine ⟨by omega, ?_⟩
              rw [m2]
              have e : R.1 - new2.count PacketizerEvent.frame =
                  nb - (j + new2.count PacketizerEvent.frame) := by omega
              rw [e]
            · intro hm
              rw [hk2.2.2.1] at hm
              exact n4 hm
            · intro hm hr
              rw [hk2.2.2.1] at hm
              rw [hk2.2.2.2] at hr
              rw [hk2.1, n5 hm hr]
              omega
            · rcases n6 with n6 | ⟨pre, p1, p2⟩
              · left
                rw [hk2.2.2.2]
                exact n6
              · right
                refine ⟨List.replicate j PacketizerEvent.frame ++
                  (PacketizerEvent.enqueue true :: pre), ?_, ?_⟩
                · rw [p1]; simp
                · simp [List.mem_replicate, p2]
            · rw [n7, hk2.1, hk2.2.1]
              omega
        · rw [if_neg hl]
          obtain ⟨new2, n1, n2, n3, n4, n5, n6, n7, n8, n9, n10⟩ := ih R.1 remain R.2.2.2
            (by omega)
          rw [b1] at n1
          rw [c2, b6, b7, b8] at n3
          rw [c2] at n4
          rw [b5] at n7
          rw [b6] at n8
          rw [b7] at n9
          rw [b8] at n10
          refine ⟨List.replicate j PacketizerEvent.frame ++ new2,
            ?_, ?_, ?_, ?_, ?_, ?_, ?_, n8, n9, n10⟩
          · rw [n1, List.append_assoc]
          · rw [(hkj _).1]; omega
          · intro hm
            rw [(hkj _).2.2.1] at hm
            obtain ⟨m1, m2⟩ := n3 hm
            rw [(hkj _).1]
            refine ⟨by omega, ?_⟩
            rw [m2]
            have e : R.1 - new2.count PacketizerEvent.frame =
                nb - (j + new2.count PacketizerEvent.frame) := by omega
            rw [e]
          · intro hm
            rw [(hkj _).2.2.1] at hm
            exact n4 hm
          · intro hm hr
            rw [(hkj _).2.2.1] at hm
            rw [(hkj _).2.2.2] at hr
            rw [(hkj _).1, n5 hm hr]
            omega
          · rcases n6 with n6 | ⟨pre, p1, p2⟩
            · left
              rw [(hkj _).2.2.2]
              exact n6
            · right
              refine ⟨List.replicate j PacketizerEvent.frame ++ pre, ?_, ?_⟩
              · rw [p1, List.append_assoc]
              · simp [List.mem_replicate, p2]
          · rw [n7, (hkj _).1, (hkj _).2.1]
            omega


/-- C13: in every call `a2d_sbc_encode_frames(nb_frame)` in which the source
underflows, after the `k` frames encoded in the call (the `frame` events of
the call), `k < nb_frame` and the credit counter on return is the counter at
entry plus `floor((nb_frame - k) * sub_bands * blocks * num_channel *
bit_per_sample / 8)`, which is at least
`(nb_frame - k) * pcm_bytes_per_frame`, the unit of the budgeter. No 32-bit
wrap is assumed: the product for `nb_frame` frames fits an `int` and the
refund fits the counter. -/
theorem underflow_refund (P : Platform) (E : Callbacks) (nb_frame : Nat) (s : Session)
    (hX : 0 ≤ s.cb.sbc_encoder_params.s16NumOfSubBands *
      s.cb.sbc_encoder_params.s16NumOfBlocks * (s.cb.feeding_params.num_channel : Int) *
      (s.cb.feeding_params.bit_per_sample : Int))
    (hfit : (nb_frame : Int) * (s.cb.sbc_encoder_params.s16NumOfSubBands *
      s.cb.sbc_encoder_params.s16NumOfBlocks * (s.cb.feeding_params.num_channel : Int) *
      (s.cb.feeding_params.bit_per_sample : Int)) < 2147483648)
    (hc : (s.cb.feeding_state.counter : Int) +
      (nb_frame : Int) * (s.cb.sbc_encoder_params.s16NumOfSubBands *
      s.cb.sbc_encoder_params.s16NumOfBlocks * (s.cb.feeding_params.num_channel : Int) *
      (s.cb.feeding_params.bit_per_sample : Int)) / 8 < 4294967296) :
    ∃ new : List PacketizerEvent,
      (a2d_sbc_encode_frames P E nb_frame s).log = s.log ++ new ∧
      (PacketizerEvent.underflow ∈ new →
        new.count PacketizerEvent.frame < nb_frame ∧
        ((a2d_sbc_encode_frames P E nb_frame s).cb.feeding_state.counter : Int) =
          s.cb.feeding_state.counter +
            ((nb_frame - new.count PacketizerEvent.frame : Nat) : Int) *
              (s.cb.sbc_encoder_params.s16NumOfSubBands *
                s.cb.sbc_encoder_params.s16NumOfBlocks *
                (s.cb.feeding_params.num_channel : Int) *
                (s.cb.feeding_params.bit_per_sample : Int)) / 8 ∧
        (a2d_sbc_encode_frames P E nb_frame s).cb.feeding_state.counter ≥
          s.cb.feeding_state.counter +
            (nb_frame - new.count PacketizerEvent.frame) * pcm_bytes_per_frame s.cb) := by
  obtain ⟨new, h1, -, h3, -⟩ := encodeLoop_log P E nb_frame nb_frame nb_frame s (le_refl _)
  refine ⟨new, h1, fun hu => ?_⟩
  obtain ⟨hk, hcnt⟩ := h3 hu
  have hm : nb_frame - new.count PacketizerEvent.frame ≤ nb_frame := Nat.sub_le _ _
  have hnb : (1 : Int) ≤ nb_frame := by
    have : 0 < nb_frame := by omega
    exact_mod_cast this
  have hcnt1 : (a2d_sbc_encode_frames P E nb_frame s).cb.feeding_state.counter =
      toUInt32 (s.cb.feeding_state.counter +
        Int.tdiv (toInt32 (((nb_frame - new.count PacketizerEvent.frame : Nat) : Int) *
          s.cb.sbc_encoder_params.s16NumOfSubBands *
          s.cb.sbc_encoder_params.s16NumOfBlocks *
          s.cb.feeding_params.num_channel *
          s.cb.feeding_params.bit_per_sample)) 8) := hcnt
  generalize (a2d_sbc_encode_frames P E nb_frame s).cb.feeding_state.counter = c1 at hcnt1 ⊢
  generalize nb_frame - new.count PacketizerEvent.frame = m at hm hcnt1 ⊢
  have e : (m : Int) * s.cb.sbc_encoder_params.s16NumOfSubBands *
      s.cb.sbc_encoder_params.s16NumOfBlocks * (s.cb.feeding_params.num_channel : Int) *
      (s.cb.feeding_params.bit_per_sample : Int) =
      m * (s.cb.sbc_encoder_params.s16NumOfSubBands *
      s.cb.sbc_encoder_params.s16NumOfBlocks * (s.cb.feeding_params.num_channel : Int) *
      (s.cb.feeding_params.bit_per_sample : Int)) := by ring
  rw [e] at hcnt1
  have hpcm : pcm_bytes_per_frame s.cb = toUInt32 (Int.tdiv (toInt32
      (s.cb.sbc_encoder_params.s16NumOfSubBands *
      s.cb.sbc_encoder_params.s16NumOfBlocks * (s.cb.feeding_params.num_channel : Int) *
      (s.cb.feeding_params.bit_per_sample : Int))) 8) := rfl
  rw [hpcm]
  generalize s.cb.sbc_encoder_params.s16NumOfSubBands *
    s.cb.sbc_encoder_params.s16NumOfBlocks * (s.cb.feeding_params.num_channel : Int) *
    (s.cb.feeding_params.bit_per_sample : Int) = X at hX hfit hc hcnt1 ⊢
  generalize s.cb.feeding_state.counter = c0 at hc hcnt1 ⊢
  have hmI : (m : Int) ≤ nb_frame := by exact_mod_cast hm
  have hm0 : (0 : Int) ≤ m := Int.ofNat_nonneg m
  have hmX0 : 0 ≤ (m : Int) * X := mul_nonneg hm0 hX
  have hmX : (m : Int) * X ≤ (nb_frame : Int) * X := mul_le_mul_of_nonneg_right hmI hX
  have hX31 : X < 2147483648 := by nlinarith
  have q1 : toInt32 ((m : Int) * X) = m * X := toInt32_of_small _ (by omega) (by omega)
  have q2 : toInt32 X = X := toInt32_of_small _ (by omega) (by omega)
  have d1 : ((m : Int) * X).tdiv 8 = m * X / 8 := Int.tdiv_eq_ediv hmX0 (by decide)
  have d2 : X.tdiv 8 = X / 8 := Int.tdiv_eq_ediv hX (by decide)
  rw [q1, d1] at hcnt1
  rw [q2, d2]
  have hle8 : (m : Int) * (X / 8) ≤ m * X / 8 := by
    apply Int.le_ediv_of_mul_le (by decide)
    have := Int.ediv_mul_le X (by decide : (8 : Int) ≠ 0)
    nlinarith
  have hp : ((toUInt32 (X / 8) : Nat) : Int) = X / 8 := by
    rw [toUInt32_cast]
    exact Int.emod_eq_of_lt (by omega) (by omega)
  have hc1 : (c1 : Int) = c0 + m * X / 8 := by
    rw [hcnt1, toUInt32_cast]
    generalize (m : Int) * X = a at hmX0 hmX ⊢
    generalize (nb_frame : Int) * X = b at hfit hc hmX
    exact Int.emod_eq_of_lt (by omega) (by omega)
  refine ⟨hk, hc1, ?_⟩
  have : ((c0 + m * toUInt32 (X / 8) : Nat) : Int) ≤ c1 := by
    push_cast
    rw [hp, hc1]
    omega
  exact_mod_cast this

/-- Witness for C13: five frames are asked of a source that runs dry after
two; the three frames not encoded are credited back, 1536 bytes. -/
theorem underflow_refund_witness :
    (a2d_sbc_encode_frames refPlatform (starvingCallbacks 2) 5 (packetSession 663)).log =
      [PacketizerEvent.frame, PacketizerEvent.frame, PacketizerEvent.underflow,
        PacketizerEvent.enqueue true] ∧
    (a2d_sbc_encode_frames refPlatform (starvingCallbacks 2) 5
      (packetSession 663)).cb.feeding_state.counter = 1536 ∧
    pcm_bytes_per_frame (packetSession 663).cb = 512 ∧
    ∃ new : List PacketizerEvent,
      (a2d_sbc_encode_frames refPlatform (starvingCallbacks 2) 5 (packetSession 663)).log =
        (packetSession 663).log ++ new ∧
      (PacketizerEvent.underflow ∈ new →
        new.count PacketizerEvent.frame < 5 ∧
        ((a2d_sbc_encode_frames refPlatform (starvingCallbacks 2) 5
          (packetSession 663)).cb.feeding_state.counter : Int) =
          (packetSession 663).cb.feeding_state.counter +
            ((5 - new.count PacketizerEvent.frame : Nat) : Int) *
              ((packetSession 663).cb.sbc_encoder_params.s16NumOfSubBands *
                (packetSession 663).cb.sbc_encoder_params.s16NumOfBlocks *
                ((packetSession 663).cb.feeding_params.num_channel : Int) *
                ((packetSession 663).cb.feeding_params.bit_per_sample : Int)) / 8 ∧
        (a2d_sbc_encode_frames refPlatform (starvingCallbacks 2) 5
          (packetSession 663)).cb.feeding_state.counter ≥
          (packetSession 663).cb.feeding_state.counter +
            (5 - new.count PacketizerEvent.frame) * pcm_bytes_per_frame (packetSession 663).cb) :=
  ⟨by decide!, by decide!, by decide!,
    underflow_refund refPlatform (starvingCallbacks 2) 5 (packetSession 663)
      (by decide!) (by decide!) (by decide!)⟩


/-- An element that ends a list and does not occur before its end occurs
nowhere else in it. -/
theorem last_occurrence {α : Type} (x : α) :
    ∀ (l pre post : List α), x ∉ l → l ++ [x] = pre ++ x :: post → post = [] := by
  intro l
  induction l with
  | nil =>
    intro pre post _ h
    cases pre with
    | nil =>
      simp at h
      exact h
    | cons a pre => simp at h
  | cons a l ih =>
    intro pre post hx h
    cases pre with
    | nil =>
      simp at h
      exact absurd h.1 (fun e => hx (by rw [e]; exact List.mem_cons_self _ _))
    | cons b pre =>
      simp at h
      exact ih pre post (fun hm => hx (List.mem_cons_of_mem _ hm)) h.2

/-- C14, as stated, fails: for an EDR peer with `tx_sbc_frames = 3` the first
tick has a budget of 2 iterations of 3 frames; when the enqueue callback
refuses the first buffer, `a2d_sbc_send_frames` still runs the second
iteration, which calls the read callback three more times and the enqueue
callback once more. -/
theorem send_frames_continues_after_refusal :
    (a2d_sbc_get_num_frame_iteration refPlatform (tickSession true 3).cb 0).1 = (2, 3) ∧
    refusingCallbacks.enqueue_callback 0 = false ∧
    (a2d_sbc_send_frames refPlatform refusingCallbacks 0 (tickSession true 3)).log =
      [PacketizerEvent.frame, PacketizerEvent.frame, PacketizerEvent.frame,
        PacketizerEvent.enqueue false,
        PacketizerEvent.frame, PacketizerEvent.frame, PacketizerEvent.frame,
        PacketizerEvent.enqueue true] ∧
    (a2d_sbc_send_frames refPlatform refusingCallbacks 0 (tickSession true 3)).reads = 6 ∧
    (a2d_sbc_send_frames refPlatform refusingCallbacks 0
      (tickSession true 3)).enqueued.length = 2 := by
  refine ⟨?_, ?_, ?_, ?_, ?_⟩ <;> decide!

/-- C14 (amended): in every call of `a2d_sbc_encode_frames`, that is in every
iteration of the loop of `a2d_sbc_send_frames`, a refusal of the enqueue
callback is the last event: neither the read callback nor the enqueue
callback is called again before `a2d_sbc_encode_frames` returns (the reads
made in the call are its `frame` and `underflow` events). The same holds of a
call of `a2d_sbc_send_frames` whose budget is one iteration. -/
theorem encode_frames_stops_at_refusal (P : Platform) (E : Callbacks) (nb_frame : Nat)
    (s : Session) :
    (∃ new : List PacketizerEvent,
      (a2d_sbc_encode_frames P E nb_frame s).log = s.log ++ new ∧
      (∀ pre post, new = pre ++ PacketizerEvent.enqueue false :: post → post = []) ∧
      (a2d_sbc_encode_frames P E nb_frame s).reads =
        s.reads + new.count PacketizerEvent.frame + new.count PacketizerEvent.underflow) ∧
    (∀ timestamp_us, (a2d_sbc_get_num_frame_iteration P s.cb timestamp_us).1.1 = 1 →
      ∃ new : List PacketizerEvent,
        (a2d_sbc_send_frames P E timestamp_us s).log = s.log ++ new ∧
        (∀ pre post, new = pre ++ PacketizerEvent.enqueue false :: post → post = []) ∧
        (a2d_sbc_send_frames P E timestamp_us s).reads =
          s.reads + new.count PacketizerEvent.frame +
            new.count PacketizerEvent.underflow) := by
  have key : ∀ (n : Nat) (t : Session), ∃ new : List PacketizerEvent,
      (a2d_sbc_encode_frames P E n t).log = t.log ++ new ∧
      (∀ pre post, new = pre ++ PacketizerEvent.enqueue false :: post → post = []) ∧
      (a2d_sbc_encode_frames P E n t).reads =
        t.reads + new.count PacketizerEvent.frame + new.count PacketizerEvent.underflow := by
    intro n t
    obtain ⟨new, h1, -, -, -, -, h6, h7, -⟩ := encodeLoop_log P E n n n t (le_refl _)
    refine ⟨new, h1, ?_, h7⟩
    intro pre post h
    rcases h6 with h6 | ⟨l, h6, h6b⟩
    · exact absurd (by rw [h]; simp) h6
    · rw [h6] at h
      exact last_occurrence _ l pre post h6b h
  refine ⟨key nb_frame s, ?_⟩
  intro timestamp_us h1
  unfold a2d_sbc_send_frames
  dsimp only
  rw [h1]
  split_ifs with h0
  · exact ⟨[], by simp, by simp, by simp⟩
  · exact key _ _

/-- Witness for C14 (amended): the first iteration of the tick above, in which
the first buffer is refused. -/
theorem encode_frames_stops_at_refusal_witness :
    (a2d_sbc_encode_frames refPlatform refusingCallbacks 3 (tickSession true 3)).log =
      [PacketizerEvent.frame, PacketizerEvent.frame, PacketizerEvent.frame,
        PacketizerEvent.enqueue false] ∧
    ∃ new : List PacketizerEvent,
      (a2d_sbc_encode_frames refPlatform refusingCallbacks 3 (tickSession true 3)).log =
        (tickSession true 3).log ++ new ∧
      (∀ pre post, new = pre ++ PacketizerEvent.enqueue false :: post → post = []) ∧
      (a2d_sbc_encode_frames refPlatform refusingCallbacks 3 (tickSession true 3)).reads =
        (tickSession true 3).reads + new.count PacketizerEvent.frame +
          new.count PacketizerEvent.underflow :=
  ⟨by decide!,
    (encode_frames_stops_at_refusal refPlatform refusingCallbacks 3 (tickSession true 3)).1⟩


/-! ### Timestamps -/

/-- The running timestamp after two runs of buffers. -/
theorem timestampAfter_append (step : Nat) :
    ∀ (l1 l2 : List Packet) (t : Nat),
      timestampAfter step t (l1 ++ l2) = timestampAfter step (timestampAfter step t l1) l2 := by
  intro l1
  induction l1 with
  | nil => intro l2 t; rfl
  | cons p l1 ih => intro l2 t; exact ih l2 _

/-- Two chains of buffers, the second starting at the running timestamp that
the first leaves, make one chain. -/
theorem TimestampsChained_append (step : Nat) :
    ∀ (l1 l2 : List Packet) (t : Nat), TimestampsChained step t l1 →
      TimestampsChained step (timestampAfter step t l1) l2 →
      TimestampsChained step t (l1 ++ l2) := by
  intro l1
  induction l1 with
  | nil => intro l2 t _ h; exact h
  | cons p l1 ih =>
    intro l2 t h1 h2
    exact ⟨h1.1, ih l2 _ h1.2 h2⟩

/-- In a chain of buffers each buffer after the first carries the timestamp
of the one before, advanced by its frames. -/
theorem TimestampsChained_pairs (step : Nat) :
    ∀ (l : List Packet) (t : Nat), TimestampsChained step t l →
      (∀ p, l[0]? = some p → p.timestamp = t) ∧
      ∀ (k : Nat) (p q : Packet), l[k]? = some p → l[k + 1]? = some q →
        q.timestamp = toUInt32 (p.timestamp + p.layer_specific * step : Nat) := by
  intro l
  induction l with
  | nil =>
    intro t _
    exact ⟨fun p h => by simp at h, fun k p q h => by simp at h⟩
  | cons a l ih =>
    intro t h
    obtain ⟨h1, h2⟩ := h
    obtain ⟨i1, i2⟩ := ih _ h2
    refine ⟨fun p hp => ?_, fun k p q hp hq => ?_⟩
    · simp at hp
      rw [← hp]; exact h1
    · cases k with
      | zero =>
        simp at hp hq
        rw [← hp, h1]
        exact i1 q hq
      | succ k =>
        simp at hp hq
        exact i2 k p q hp hq

/-- The buffers that the outer loop of `a2d_sbc_encode_frames` hands to the
enqueue callback carry the running timestamp, which advances by
`layer_specific * blocm_x_subband` with each of them. -/
theorem encodeLoop_timestamps (P : Platform) (E : Callbacks) :
    ∀ (fuel nb remain : Nat) (s : Session),
      ∃ pk : List Packet,
        (encodeLoop P E fuel nb remain s).enqueued = s.enqueued ++ pk ∧
        TimestampsChained (toUInt16 (s.cb.sbc_encoder_params.s16NumOfSubBands *
          s.cb.sbc_encoder_params.s16NumOfBlocks)) s.cb.timestamp pk ∧
        (encodeLoop P E fuel nb remain s).cb.timestamp =
          timestampAfter (toUInt16 (s.cb.sbc_encoder_params.s16NumOfSubBands *
            s.cb.sbc_encoder_params.s16NumOfBlocks)) s.cb.timestamp pk ∧
        (encodeLoop P E fuel nb remain s).cb.sbc_encoder_params.s16NumOfSubBands =
          s.cb.sbc_encoder_params.s16NumOfSubBands ∧
        (encodeLoop P E fuel nb remain s).cb.sbc_encoder_params.s16NumOfBlocks =
          s.cb.sbc_encoder_params.s16NumOfBlocks := by
  intro fuel
  induction fuel with
  | zero =>
    intro nb remain s
    exact ⟨[], by simp [encodeLoop], trivial, rfl, rfl, rfl⟩
  | succ fuel ih =>
    intro nb remain s
    by_cases h0 : nb = 0
    · subst h0
      rw [encodeLoop_zero]
      exact ⟨[], by simp, trivial, rfl, rfl, rfl⟩
    · rw [encodeLoop, if_neg h0]
      dsimp only
      obtain ⟨j, u, -, -, -, -, -, b6, b7, -, b9, b10⟩ := encodeBuffer_log P E nb 0 0 s
      generalize encodeBuffer P E nb 0 0 s = R at b6 b7 b9 b10 ⊢
      by_cases hl : R.2.1 ≠ 0
      · rw [if_pos hl]
        by_cases ha : E.enqueue_callback R.2.2.2.enqueued.length = false
        · rw [if_pos ha]
          refine ⟨[⟨s.cb.timestamp, R.2.1, R.2.2.1, toUInt8 ((remain : Int) - R.1)⟩],
            ?_, ⟨rfl, trivial⟩, ?_, b6, b7⟩
          · show R.2.2.2.enqueued ++ [⟨R.2.2.2.cb.timestamp, _, _, _⟩] = _
            rw [b9, b10]
          · show toUInt32 ((R.2.2.2.cb.timestamp + _ : Nat) : Int) = _
            rw [b10]
            rfl
        · rw [if_neg ha]
          obtain ⟨pk, n1, n2, n3, n4, n5⟩ := ih R.1 R.1
            (stampAndEnqueue R.2.2.2
              (toUInt16 (s.cb.sbc_encoder_params.s16NumOfSubBands *
                s.cb.sbc_encoder_params.s16NumOfBlocks))
              R.2.1 R.2.2.1 (toUInt8 ((remain : Int) - R.1))
              (E.enqueue_callback R.2.2.2.enqueued.length))
          have e1 : (stampAndEnqueue R.2.2.2
              (toUInt16 (s.cb.sbc_encoder_params.s16NumOfSubBands *
                s.cb.sbc_encoder_params.s16NumOfBlocks))
              R.2.1 R.2.2.1 (toUInt8 ((remain : Int) - R.1))
              (E.enqueue_callback R.2.2.2.enqueued.length)).enqueued =
              s.enqueued ++ [⟨s.cb.timestamp, R.2.1, R.2.2.1,
                toUInt8 ((remain : Int) - R.1)⟩] := by
            show R.2.2.2.enqueued ++ [⟨R.2.2.2.cb.timestamp, _, _, _⟩] = _
            rw [b9, b10]
          have e2 : (stampAndEnqueue R.2.2.2
              (toUInt16 (s.cb.sbc_encoder_params.s16NumOfSubBands *
                s.cb.sbc_encoder_params.s16NumOfBlocks))
              R.2.1 R.2.2.1 (toUInt8 ((remain : Int) - R.1))
              (E.enqueue_callback R.2.2.2.enqueued.length)).cb.timestamp =
              toUInt32 ((s.cb.timestamp + R.2.2.1 *
                toUInt16 (s.cb.sbc_encoder_params.s16NumOfSubBands *
                  s.cb.sbc_encoder_params.s16NumOfBlocks) : Nat) : Int) := by
            show toUInt32 ((R.2.2.2.cb.timestamp + _ : Nat) : Int) = _
            rw [b10]
          have e3 : (stampAndEnqueue R.2.2.2
              (toUInt16 (s.cb.sbc_encoder_params.s16NumOfSubBands *
                s.cb.sbc_encoder_params.s16NumOfBlocks))
              R.2.1 R.2.2.1 (toUInt8 ((remain : Int) - R.1))
              (E.enqueue_callback
                R.2.2.2.enqueued.length)).cb.sbc_encoder_params.s16NumOfSubBands =
              s.cb.sbc_encoder_params.s16NumOfSubBands := b6
          have e4 : (stampAndEnqueue R.2.2.2
              (toUInt16 (s.cb.sbc_encoder_params.s16NumOfSubBands *
                s.cb.sbc_encoder_params.s16NumOfBlocks))
              R.2.1 R.2.2.1 (toUInt8 ((remain : Int) - R.1))
              (E.enqueue_callback
                R.2.2.2.enqueued.length)).cb.sbc_encoder_params.s16NumOfBlocks =
              s.cb.sbc_encoder_params.s16NumOfBlocks := b7
          rw [e1] at n1
          rw [e2, e3, e4] at n2 n3
          rw [e3] at n4
          rw [e4] at n5
          refine ⟨⟨s.cb.timestamp, R.2.1, R.2.2.1, toUInt8 ((remain : Int) - R.1)⟩ :: pk,
            ?_, ⟨rfl, n2⟩, n3, n4, n5⟩
          rw [n1]; simp
      · rw [if_neg hl]
        obtain ⟨pk, n1, n2, n3, n4, n5⟩ := ih R.1 remain R.2.2.2
        rw [b9] at n1
        rw [b6, b7, b10] at n2 n3
        rw [b6] at n4
        rw [b7] at n5
        exact ⟨pk, n1, n2, n3, n4, n5⟩

/-- The buffers of the iterations of `a2d_sbc_send_frames` carry the running
timestamp. -/
theorem sendLoop_timestamps (P : Platform) (E : Callbacks) (nb_frame : Nat) :
    ∀ (n : Nat) (s : Session),
      ∃ pk : List Packet,
        (sendLoop P E nb_frame n s).enqueued = s.enqueued ++ pk ∧
        TimestampsChained (toUInt16 (s.cb.sbc_encoder_params.s16NumOfSubBands *
          s.cb.sbc_encoder_params.s16NumOfBlocks)) s.cb.timestamp pk ∧
        (sendLoop P E nb_frame n s).cb.timestamp =
          timestampAfter (toUInt16 (s.cb.sbc_encoder_params.s16NumOfSubBands *
            s.cb.sbc_encoder_params.s16NumOfBlocks)) s.cb.timestamp pk ∧
        (sendLoop P E nb_frame n s).cb.sbc_encoder_params.s16NumOfSubBands =
          s.cb.sbc_encoder_params.s16NumOfSubBands ∧
        (sendLoop P E nb_frame n s).cb.sbc_encoder_params.s16NumOfBlocks =
          s.cb.sbc_encoder_params.s16NumOfBlocks := by
  intro n
  induction n with
  | zero =>
    intro s
    exact ⟨[], by simp [sendLoop], trivial, rfl, rfl, rfl⟩
  | succ n ih =>
    intro s
    rw [sendLoop]
    obtain ⟨pk1, a1, a2, a3, a4, a5⟩ :=
      encodeLoop_timestamps P E nb_frame nb_frame nb_frame s
    obtain ⟨pk2, c1, c2, c3, c4, c5⟩ := ih (a2d_sbc_encode_frames P E nb_frame s)
    have e1 : (a2d_sbc_encode_frames P E nb_frame s).enqueued = s.enqueued ++ pk1 := a1
    have e2 : (a2d_sbc_encode_frames P E nb_frame s).cb.timestamp = _ := a3
    have e3 : (a2d_sbc_encode_frames P E nb_frame s).cb.sbc_encoder_params.s16NumOfSubBands
        = _ := a4
    have e4 : (a2d_sbc_encode_frames P E nb_frame s).cb.sbc_encoder_params.s16NumOfBlocks
        = _ := a5
    rw [e1] at c1
    rw [e2, e3, e4] at c2 c3
    rw [e3] at c4
    rw [e4] at c5
    refine ⟨pk1 ++ pk2, by rw [c1, List.append_assoc],
      TimestampsChained_append _ _ _ _ a2 c2, ?_, c4, c5⟩
    rw [c3, timestampAfter_append]

/-- The buffers of one tick carry the running timestamp. -/
theorem a2d_sbc_send_frames_timestamps (P : Platform) (E : Callbacks) (timestamp_us : Nat)
    (s : Session) (hNS : s.cb.sbc_encoder_params.s16NumOfSubBands ≠ 0)
    (hNB : s.cb.sbc_encoder_params.s16NumOfBlocks ≠ 0) :
    ∃ pk : List Packet,
      (a2d_sbc_send_frames P E timestamp_us s).enqueued = s.enqueued ++ pk ∧
      TimestampsChained (toUInt16 (s.cb.sbc_encoder_params.s16NumOfSubBands *
        s.cb.sbc_encoder_params.s16NumOfBlocks)) s.cb.timestamp pk ∧
      (a2d_sbc_send_frames P E timestamp_us s).cb.timestamp =
        timestampAfter (toUInt16 (s.cb.sbc_encoder_params.s16NumOfSubBands *
          s.cb.sbc_encoder_params.s16NumOfBlocks)) s.cb.timestamp pk ∧
      (a2d_sbc_send_frames P E timestamp_us s).cb.sbc_encoder_params.s16NumOfSubBands =
        s.cb.sbc_encoder_params.s16NumOfSubBands ∧
      (a2d_sbc_send_frames P E timestamp_us s).cb.sbc_encoder_params.s16NumOfBlocks =
        s.cb.sbc_encoder_params.s16NumOfBlocks := by
  obtain ⟨-, -, -, -, f5, -, -, f8, -⟩ := a2d_sbc_get_num_frame_iteration_frame P s.cb timestamp_us
  obtain ⟨r1, r2, -⟩ := resetZeroFields_fields s.cb.sbc_encoder_params
  rw [if_neg hNS] at r1
  rw [if_neg hNB] at r2
  have gNS : (a2d_sbc_get_num_frame_iteration P s.cb
      timestamp_us).2.sbc_encoder_params.s16NumOfSubBands =
      s.cb.sbc_encoder_params.s16NumOfSubBands := by
    rw [f8]
    split_ifs
    · exact r1
    · rfl
  have gNB : (a2d_sbc_get_num_frame_iteration P s.cb
      timestamp_us).2.sbc_encoder_params.s16NumOfBlocks =
      s.cb.sbc_encoder_params.s16NumOfBlocks := by
    rw [f8]
    split_ifs
    · exact r2
    · rfl
  unfold a2d_sbc_send_frames
  dsimp only
  split_ifs with h0
  · exact ⟨[], by simp, trivial, f5, gNS, gNB⟩
  · obtain ⟨pk, c1, c2, c3, c4, c5⟩ := sendLoop_timestamps P E
      (a2d_sbc_get_num_frame_iteration P s.cb timestamp_us).1.2
      (a2d_sbc_get_num_frame_iteration P s.cb timestamp_us).1.1
      { s with cb := (a2d_sbc_get_num_frame_iteration P s.cb timestamp_us).2 }
    simp only [gNS, gNB, f5] at c2 c3 c4 c5
    exact ⟨pk, c1, c2, c3, c4, c5⟩

/-- The buffers of a sequence of ticks carry the running timestamp. -/
theorem sendTicks_timestamps (P : Platform) (E : Callbacks) :
    ∀ (ticks : List Nat) (s : Session), s.cb.sbc_encoder_params.s16NumOfSubBands ≠ 0 →
      s.cb.sbc_encoder_params.s16NumOfBlocks ≠ 0 →
      ∃ pk : List Packet,
        (sendTicks P E ticks s).enqueued = s.enqueued ++ pk ∧
        TimestampsChained (toUInt16 (s.cb.sbc_encoder_params.s16NumOfSubBands *
          s.cb.sbc_encoder_params.s16NumOfBlocks)) s.cb.timestamp pk := by
  intro ticks
  induction ticks with
  | nil =>
    intro s _ _
    exact ⟨[], by simp [sendTicks], trivial⟩
  | cons t ticks ih =>
    intro s hNS hNB
    rw [sendTicks]
    obtain ⟨pk1, a1, a2, a3, a4, a5⟩ := a2d_sbc_send_frames_timestamps P E t s hNS hNB
    obtain ⟨pk2, c1, c2⟩ := ih (a2d_sbc_send_frames P E t s) (by rw [a4]; exact hNS)
      (by rw [a5]; exact hNB)
    rw [a1] at c1
    rw [a3, a4, a5] at c2
    exact ⟨pk1 ++ pk2, by rw [c1, List.append_assoc], TimestampsChained_append _ _ _ _ a2 c2⟩

/-- C11: over any sequence of ticks, with a sub-band count and a block count
that are positive and whose product fits `blocm_x_subband`, the buffers handed
to the enqueue callback, within one call of `a2d_sbc_encode_frames` or across
calls, carry a running timestamp: the first carries the timestamp of the
control block, and each following one carries the timestamp of the one before
plus `layer_specific * sub_bands * blocks` of the one before, modulo 2^32.
`a2d_sbc_encoder_init` sets the timestamp to 0, and `a2d_sbc_encoder_update`,
`a2d_sbc_feeding_init` and `a2d_sbc_feeding_reset` keep it, so the first
buffer after init carries 0. -/
theorem timestamps_advance (P : Platform) (E : Callbacks) (ticks : List Nat) (s : Session)
    (hNS : 0 < s.cb.sbc_encoder_params.s16NumOfSubBands)
    (hNB : 0 < s.cb.sbc_encoder_params.s16NumOfBlocks)
    (hfit : s.cb.sbc_encoder_params.s16NumOfSubBands *
      s.cb.sbc_encoder_params.s16NumOfBlocks < 65536) :
    (∃ pk : List Packet,
      (sendTicks P E ticks s).enqueued = s.enqueued ++ pk ∧
      (∀ p, pk[0]? = some p → p.timestamp = s.cb.timestamp) ∧
      (∀ (k : Nat) (p q : Packet), pk[k]? = some p → pk[k + 1]? = some q →
        (q.timestamp : Int) = (p.timestamp + p.layer_specific *
          (s.cb.sbc_encoder_params.s16NumOfSubBands *
            s.cb.sbc_encoder_params.s16NumOfBlocks)) % 4294967296)) ∧
    (∀ (now_us : Nat) (edr m3 : Bool) (ip : tA2D_ENCODER_INIT_PARAMS),
      (a2d_sbc_encoder_init P now_us edr m3 ip).timestamp = 0) ∧
    (∀ (cb : tA2D_SBC_ENCODER_CB) (f : tA2D_FEEDING_PARAMS),
      (a2d_sbc_feeding_init P cb f).timestamp = cb.timestamp ∧
      (a2d_sbc_feeding_reset cb).timestamp = cb.timestamp) ∧
    (∀ (fuel : Nat) (cb cb1 : tA2D_SBC_ENCODER_CB) (u : tA2D_ENCODER_UPDATE_PARAMS),
      a2d_sbc_encoder_update P fuel cb u = some cb1 → cb1.timestamp = cb.timestamp) := by
  refine ⟨?_, ?_, ?_, ?_⟩
  · obtain ⟨pk, h1, h2⟩ := sendTicks_timestamps P E ticks s (by omega) (by omega)
    obtain ⟨i1, i2⟩ := TimestampsChained_pairs _ pk _ h2
    refine ⟨pk, h1, i1, fun k p q hp hq => ?_⟩
    rw [i2 k p q hp hq, toUInt32_cast]
    have hpos : 0 ≤ s.cb.sbc_encoder_params.s16NumOfSubBands *
        s.cb.sbc_encoder_params.s16NumOfBlocks := by positivity
    have e : ((toUInt16 (s.cb.sbc_encoder_params.s16NumOfSubBands *
        s.cb.sbc_encoder_params.s16NumOfBlocks) : Nat) : Int) =
        s.cb.sbc_encoder_params.s16NumOfSubBands *
          s.cb.sbc_encoder_params.s16NumOfBlocks := by
      generalize s.cb.sbc_encoder_params.s16NumOfSubBands *
        s.cb.sbc_encoder_params.s16NumOfBlocks = x at hfit hpos
      unfold toUInt16
      omega
    push_cast
    rw [e]
  · intro now_us edr m3 ip
    unfold a2d_sbc_encoder_init
    dsimp only
    rw [calculate_max_frames_timestamp]
  · intro cb f
    refine ⟨?_, rfl⟩
    unfold a2d_sbc_feeding_init
    dsimp only
    split_ifs <;> rfl
  · intro fuel cb cb1 u h
    unfold a2d_sbc_encoder_update at h
    rw [Option.map_eq_some'] at h
    obtain ⟨n, -, hn⟩ := h
    rw [← hn]
    dsimp only
    rw [calculate_max_frames_timestamp]
    rfl

/-- Witness for C11: two ticks 20 ms apart for an EDR peer with
`tx_sbc_frames = 3`; the buffers hold 3 frames of 8 sub-bands and 16 blocks,
and the timestamps advance by 384. -/
theorem timestamps_advance_witness :
    ((sendTicks refPlatform plentifulCallbacks [0, 20000] (tickSession true 3)).enqueued.map
      fun p => (p.timestamp, p.layer_specific)) = [(0, 3), (384, 3), (768, 3), (1152, 3)] ∧
    ∃ pk : List Packet,
      (sendTicks refPlatform plentifulCallbacks [0, 20000] (tickSession true 3)).enqueued =
        (tickSession true 3).enqueued ++ pk ∧
      (∀ p, pk[0]? = some p → p.timestamp = (tickSession true 3).cb.timestamp) ∧
      (∀ (k : Nat) (p q : Packet), pk[k]? = some p → pk[k + 1]? = some q →
        (q.timestamp : Int) = (p.timestamp + p.layer_specific *
          ((tickSession true 3).cb.sbc_encoder_params.s16NumOfSubBands *
            (tickSession true 3).cb.sbc_encoder_params.s16NumOfBlocks)) % 4294967296) :=
  ⟨by decide!,
    (timestamps_advance refPlatform plentifulCallbacks [0, 20000] (tickSession true 3)
      (by decide) (by decide) (by decide)).1⟩


/-! ### Credit accounting -/

/-- The frames projected for a tick are covered by the credited counter. -/
theorem projectedFrames_mul_le (P : Platform) (cb : tA2D_SBC_ENCODER_CB) (now_us : Nat) :
    projectedFrames P cb now_us * pcm_bytes_per_frame cb ≤ creditedCounter cb now_us := by
  have h1 : projectedFrames P cb now_us ≤
      creditedCounter cb now_us / pcm_bytes_per_frame cb := by
    unfold projectedFrames
    split_ifs <;> omega
  calc projectedFrames P cb now_us * pcm_bytes_per_frame cb
      ≤ creditedCounter cb now_us / pcm_bytes_per_frame cb * pcm_bytes_per_frame cb :=
        Nat.mul_le_mul_right _ h1
    _ ≤ creditedCounter cb now_us := Nat.div_mul_le_self _ _

/-- Truncation to `uint8_t` does not raise a count. -/
theorem toUInt8_le (x : Nat) : toUInt8 (x : Int) ≤ x := by
  unfold toUInt8
  omega

/-- Outside the "Audio Congestion" branch the budget of a tick is within the
frames projected for it. -/
theorem budget_le_projected (P : Platform) (cb : tA2D_SBC_ENCODER_CB) (now_us : Nat)
    (hcl : ¬ iterationsClamped P cb now_us) :
    (a2d_sbc_get_num_frame_iteration P cb now_us).1.1 *
      (a2d_sbc_get_num_frame_iteration P cb now_us).1.2 ≤ projectedFrames P cb now_us := by
  rw [a2d_sbc_get_num_frame_iteration_pair]
  by_cases hc : cb.is_peer_edr = true ∧ edrFrames P cb ≠ 0 ∧
      edrFrames P cb < projectedFrames P cb now_us
  · rw [if_pos hc]
    have h3 : ¬ toUInt8 (projectedFrames P cb now_us / edrFrames P cb : Nat) >
        A2D_SBC_MAX_PCM_ITER_NUM_PER_TICK := fun h => hcl ⟨hc.1, hc.2.1, hc.2.2, h⟩
    rw [if_neg h3]
    show toUInt8 (projectedFrames P cb now_us / edrFrames P cb : Nat) * edrFrames P cb ≤ _
    exact le_trans (Nat.mul_le_mul_right _ (toUInt8_le _)) (Nat.div_mul_le_self _ _)
  · rw [if_neg hc]
    show 1 * toUInt8 (projectedFrames P cb now_us : Nat) ≤ _
    rw [Nat.one_mul]
    exact toUInt8_le _

/-- Outside the "Audio Congestion" branch, and when the credit does not wrap
the counter, the budgeter adds the credit of the tick and takes the PCM bytes
of the frames it returns. -/
theorem budget_balance (P : Platform) (cb : tA2D_SBC_ENCODER_CB) (now_us : Nat)
    (hcl : ¬ iterationsClamped P cb now_us)
    (hfit : cb.feeding_state.counter + tickCredit cb now_us < 4294967296) :
    (a2d_sbc_get_num_frame_iteration P cb now_us).2.feeding_state.counter +
      (a2d_sbc_get_num_frame_iteration P cb now_us).1.1 *
        (a2d_sbc_get_num_frame_iteration P cb now_us).1.2 * pcm_bytes_per_frame cb =
      cb.feeding_state.counter + tickCredit cb now_us := by
  have hc : creditedCounter cb now_us = cb.feeding_state.counter + tickCredit cb now_us := by
    unfold creditedCounter toUInt32
    omega
  have hb := Nat.mul_le_mul_right (pcm_bytes_per_frame cb) (budget_le_projected P cb now_us hcl)
  have hp := projectedFrames_mul_le P cb now_us
  rw [a2d_sbc_get_num_frame_iteration_counter, if_neg hcl, ← hc]
  generalize (a2d_sbc_get_num_frame_iteration P cb now_us).1.1 *
    (a2d_sbc_get_num_frame_iteration P cb now_us).1.2 * pcm_bytes_per_frame cb = N at hb ⊢
  generalize projectedFrames P cb now_us * pcm_bytes_per_frame cb = M at hb hp
  rw [hc] at hp ⊢
  generalize cb.feeding_state.counter + tickCredit cb now_us = c at hfit hp ⊢
  unfold toUInt32
  omega

/-- The PCM bytes behind one frame depend on the sub-band and block counts
and on the source. -/
theorem pcm_bytes_per_frame_congr (cb1 cb2 : tA2D_SBC_ENCODER_CB)
    (h1 : cb1.sbc_encoder_params.s16NumOfSubBands = cb2.sbc_encoder_params.s16NumOfSubBands)
    (h2 : cb1.sbc_encoder_params.s16NumOfBlocks = cb2.sbc_encoder_params.s16NumOfBlocks)
    (h3 : cb1.feeding_params = cb2.feeding_params) :
    pcm_bytes_per_frame cb1 = pcm_bytes_per_frame cb2 := by
  unfold pcm_bytes_per_frame
  rw [h1, h2, h3]

/-- With PCM bytes behind a frame, the sub-band and block counts are not
zero. -/
theorem counts_ne_zero_of_pcm (cb : tA2D_SBC_ENCODER_CB) (h : 0 < pcm_bytes_per_frame cb) :
    cb.sbc_encoder_params.s16NumOfSubBands ≠ 0 ∧ cb.sbc_encoder_params.s16NumOfBlocks ≠ 0 := by
  constructor
  · intro h0
    unfold pcm_bytes_per_frame at h
    rw [h0] at h
    simp [toInt32, toUInt32] at h
  · intro h0
    unfold pcm_bytes_per_frame at h
    rw [h0] at h
    simp [toInt32, toUInt32] at h

/-- The iterations of `a2d_sbc_send_frames` as a sequence of events: without
underflow and without refusal, each of the `n` iterations encodes `nb_frame`
frames, and the credit counter is left alone. -/
theorem sendLoop_log (P : Platform) (E : Callbacks) (nb_frame : Nat) :
    ∀ (n : Nat) (s : Session),
      ∃ new : List PacketizerEvent,
        (sendLoop P E nb_frame n s).log = s.log ++ new ∧
        (PacketizerEvent.underflow ∉ new → PacketizerEvent.enqueue false ∉ new →
          new.count PacketizerEvent.frame = n * nb_frame ∧
          (sendLoop P E nb_frame n s).cb.feeding_state.counter =
            s.cb.feeding_state.counter) ∧
        (sendLoop P E nb_frame n s).cb.sbc_encoder_params.s16NumOfSubBands =
          s.cb.sbc_encoder_params.s16NumOfSubBands ∧
        (sendLoop P E nb_frame n s).cb.sbc_encoder_params.s16NumOfBlocks =
          s.cb.sbc_encoder_params.s16NumOfBlocks ∧
        (sendLoop P E nb_frame n s).cb.feeding_params = s.cb.feeding_params := by
  intro n
  induction n with
  | zero =>
    intro s
    exact ⟨[], by simp [sendLoop], fun _ _ => ⟨by simp, rfl⟩, rfl, rfl, rfl⟩
  | succ n ih =>
    intro s
    rw [sendLoop]
    obtain ⟨new1, a1, -, -, a4, a5, -, -, a8, a9, a10⟩ :=
      encodeLoop_log P E nb_frame nb_frame nb_frame s (le_refl _)
    obtain ⟨new2, c1, c2, c3, c4, c5⟩ := ih (a2d_sbc_encode_frames P E nb_frame s)
    have e1 : (a2d_sbc_encode_frames P E nb_frame s).log = s.log ++ new1 := a1
    have e3 : (a2d_sbc_encode_frames P E nb_frame s).cb.sbc_encoder_params.s16NumOfSubBands
        = _ := a8
    have e4 : (a2d_sbc_encode_frames P E nb_frame s).cb.sbc_encoder_params.s16NumOfBlocks
        = _ := a9
    have e5 : (a2d_sbc_encode_frames P E nb_frame s).cb.feeding_params = _ := a10
    rw [e1] at c1
    rw [e3] at c3
    rw [e4] at c4
    rw [e5] at c5
    refine ⟨new1 ++ new2, by rw [c1, List.append_assoc], ?_, c3, c4, c5⟩
    intro hu hr
    rw [List.mem_append, not_or] at hu hr
    obtain ⟨d1, d2⟩ := c2 hu.2 hr.2
    have d3 : (a2d_sbc_encode_frames P E nb_frame s).cb.feeding_state.counter =
        s.cb.feeding_state.counter := a4 hu.1
    rw [List.count_append, a5 hu.1 hr.1, d1, d2, d3]
    exact ⟨by ring, rfl⟩

/-- One tick outside the "Audio Congestion" branch, without underflow and
without refusal: the counter and the credit of the tick are the PCM bytes of
the frames encoded and the counter left. -/
theorem a2d_sbc_send_frames_balance (P : Platform) (E : Callbacks) (timestamp_us : Nat)
    (s : Session) (hpcm : 0 < pcm_bytes_per_frame s.cb)
    (hcl : ¬ iterationsClamped P s.cb timestamp_us)
    (hfit : s.cb.feeding_state.counter + tickCredit s.cb timestamp_us < 4294967296) :
    ∃ new : List PacketizerEvent,
      (a2d_sbc_send_frames P E timestamp_us s).log = s.log ++ new ∧
      (PacketizerEvent.underflow ∉ new → PacketizerEvent.enqueue false ∉ new →
        s.cb.feeding_state.counter + tickCredit s.cb timestamp_us =
          new.count PacketizerEvent.frame * pcm_bytes_per_frame s.cb +
            (a2d_sbc_send_frames P E timestamp_us s).cb.feeding_state.counter) ∧
      pcm_bytes_per_frame (a2d_sbc_send_frames P E timestamp_us s).cb =
        pcm_bytes_per_frame s.cb := by
  obtain ⟨hNS, hNB⟩ := counts_ne_zero_of_pcm s.cb hpcm
  obtain ⟨-, -, -, -, -, f6, -, f8, -⟩ :=
    a2d_sbc_get_num_frame_iteration_frame P s.cb timestamp_us
  obtain ⟨r1, r2, -⟩ := resetZeroFields_fields s.cb.sbc_encoder_params
  rw [if_neg hNS] at r1
  rw [if_neg hNB] at r2
  have gNS : (a2d_sbc_get_num_frame_iteration P s.cb
      timestamp_us).2.sbc_encoder_params.s16NumOfSubBands =
      s.cb.sbc_encoder_params.s16NumOfSubBands := by
    rw [f8]
    split_ifs
    · exact r1
    · rfl
  have gNB : (a2d_sbc_get_num_frame_iteration P s.cb
      timestamp_us).2.sbc_encoder_params.s16NumOfBlocks =
      s.cb.sbc_encoder_params.s16NumOfBlocks := by
    rw [f8]
    split_ifs
    · exact r2
    · rfl
  have hbal := budget_balance P s.cb timestamp_us hcl hfit
  unfold a2d_sbc_send_frames
  dsimp only
  split_ifs with h0
  · refine ⟨[], by simp, fun _ _ => ?_, pcm_bytes_per_frame_congr _ _ gNS gNB f6⟩
    rw [h0] at hbal
    simp at hbal
    simp
    exact hbal.symm
  · obtain ⟨new, c1, c2, c3, c4, c5⟩ := sendLoop_log P E
      (a2d_sbc_get_num_frame_iteration P s.cb timestamp_us).1.2
      (a2d_sbc_get_num_frame_iteration P s.cb timestamp_us).1.1
      { s with cb := (a2d_sbc_get_num_frame_iteration P s.cb timestamp_us).2 }
    refine ⟨new, c1, fun hu hr => ?_, ?_⟩
    · obtain ⟨d1, d2⟩ := c2 hu hr
      rw [d1, d2]
      show _ = _ + (a2d_sbc_get_num_frame_iteration P s.cb timestamp_us).2.feeding_state.counter
      rw [← hbal]
      ring
    · exact pcm_bytes_per_frame_congr _ _ (c3.trans gNS) (c4.trans gNB) (c5.trans f6)

/-- A sequence of ticks outside the "Audio Congestion" branch, without
underflow and without refusal: the counter at the start and the credits added
are the PCM bytes of the frames encoded and the counter left. -/
theorem sendTicks_balance (P : Platform) (E : Callbacks) :
    ∀ (ticks : List Nat) (s : Session), 0 < pcm_bytes_per_frame s.cb →
      Uncongested P E ticks s →
      ∃ new : List PacketizerEvent,
        (sendTicks P E ticks s).log = s.log ++ new ∧
        (PacketizerEvent.underflow ∉ new → PacketizerEvent.enqueue false ∉ new →
          s.cb.feeding_state.counter + creditsAdded P E ticks s =
            new.count PacketizerEvent.frame * pcm_bytes_per_frame s.cb +
              (sendTicks P E ticks s).cb.feeding_state.counter) := by
  intro ticks
  induction ticks with
  | nil =>
    intro s _ _
    exact ⟨[], by simp [sendTicks], fun _ _ => by simp [sendTicks, creditsAdded]⟩
  | cons t ticks ih =>
    intro s hpcm hq
    obtain ⟨q1, q2, q3⟩ := hq
    rw [sendTicks, creditsAdded]
    obtain ⟨new1, a1, a2, a3⟩ := a2d_sbc_send_frames_balance P E t s hpcm q1 q2
    obtain ⟨new2, c1, c2⟩ := ih (a2d_sbc_send_frames P E t s) (by rw [a3]; exact hpcm) q3
    rw [a1] at c1
    rw [a3] at c2
    refine ⟨new1 ++ new2, by rw [c1, List.append_assoc], fun hu hr => ?_⟩
    rw [List.mem_append, not_or] at hu hr
    have d1 := a2 hu.1 hr.1
    have d2 := c2 hu.2 hr.2
    rw [List.count_append, Nat.add_mul]
    omega

/-- C12, as stated, fails: for an EDR peer with `tx_sbc_frames = 3`, starting
from the state that `a2d_sbc_feeding_reset` leaves, a first tick and a second
one 45 ms later, with a source that never runs dry and a transport that never
refuses, add 3528 + 7938 = 11466 bytes of credit; 15 frames of 512 bytes are
encoded and the counter is left at 0. The second tick takes the "Audio
Congestion" branch, which replaces the counter and discards 3786 bytes. -/
theorem credit_discarded_on_congestion :
    a2d_sbc_feeding_reset (tickSession true 3).cb = (tickSession true 3).cb ∧
    (tickSession true 3).cb.feeding_state.counter = 0 ∧
    creditsAdded refPlatform plentifulCallbacks [1000, 46000] (tickSession true 3) = 11466 ∧
    (sendTicks refPlatform plentifulCallbacks [1000, 46000] (tickSession true 3)).log.count
      PacketizerEvent.frame = 15 ∧
    PacketizerEvent.underflow ∉
      (sendTicks refPlatform plentifulCallbacks [1000, 46000] (tickSession true 3)).log ∧
    PacketizerEvent.enqueue false ∉
      (sendTicks refPlatform plentifulCallbacks [1000, 46000] (tickSession true 3)).log ∧
    pcm_bytes_per_frame (tickSession true 3).cb = 512 ∧
    (sendTicks refPlatform plentifulCallbacks [1000, 46000]
      (tickSession true 3)).cb.feeding_state.counter = 0 ∧
    11466 ≠ 15 * 512 + 0 ∧
    iterationsClamped refPlatform
      (a2d_sbc_send_frames refPlatform plentifulCallbacks 1000 (tickSession true 3)).cb
      46000 := by
  refine ⟨?_, ?_, ?_, ?_, ?_, ?_, ?_, ?_, ?_, ?_⟩ <;> decide!

/-- C12 (amended): over any finite sequence of `a2d_sbc_send_frames` ticks
none of which takes the "Audio Congestion" branch of an EDR peer or wraps the
counter at 32 bits, in which the source never underflows and the enqueue
callback never refuses, the counter at the start (0 after
`a2d_sbc_feeding_reset`) plus the sum of the credits added by the budgeter
equals the number of frames encoded times `pcm_bytes_per_frame` plus the
final value of the counter. -/
theorem credit_conservation (P : Platform) (E : Callbacks) (ticks : List Nat) (s : Session)
    (hpcm : 0 < pcm_bytes_per_frame s.cb) (hquiet : Uncongested P E ticks s) :
    ∃ new : List PacketizerEvent,
      (sendTicks P E ticks s).log = s.log ++ new ∧
      (PacketizerEvent.underflow ∉ new → PacketizerEvent.enqueue false ∉ new →
        s.cb.feeding_state.counter + creditsAdded P E ticks s =
          new.count PacketizerEvent.frame * pcm_bytes_per_frame s.cb +
            (sendTicks P E ticks s).cb.feeding_state.counter) :=
  sendTicks_balance P E ticks s hpcm hquiet

/-- Witness for C12 (amended): three ticks 20 ms apart for an EDR peer with
`tx_sbc_frames = 3`; 10584 bytes of credit, 18 frames of 512 bytes, 1368
bytes left. -/
theorem credit_conservation_witness :
    0 < pcm_bytes_per_frame (tickSession true 3).cb ∧
    Uncongested refPlatform plentifulCallbacks [1000, 21000, 41000] (tickSession true 3) ∧
    creditsAdded refPlatform plentifulCallbacks [1000, 21000, 41000] (tickSession true 3)
      = 10584 ∧
    (sendTicks refPlatform plentifulCallbacks [1000, 21000, 41000]
      (tickSession true 3)).log.count PacketizerEvent.frame = 18 ∧
    (sendTicks refPlatform plentifulCallbacks [1000, 21000, 41000]
      (tickSession true 3)).cb.feeding_state.counter = 1368 ∧
    ∃ new : List PacketizerEvent,
      (sendTicks refPlatform plentifulCallbacks [1000, 21000, 41000] (tickSession true 3)).log =
        (tickSession true 3).log ++ new ∧
      (PacketizerEvent.underflow ∉ new → PacketizerEvent.enqueue false ∉ new →
        (tickSession true 3).cb.feeding_state.counter +
          creditsAdded refPlatform plentifulCallbacks [1000, 21000, 41000] (tickSession true 3) =
          new.count PacketizerEvent.frame * pcm_bytes_per_frame (tickSession true 3).cb +
            (sendTicks refPlatform plentifulCallbacks [1000, 21000, 41000]
              (tickSession true 3)).cb.feeding_state.counter) :=
  ⟨by decide!, by decide!, by decide!, by decide!, by decide!,
    credit_conservation refPlatform plentifulCallbacks [1000, 21000, 41000]
      (tickSession true 3) (by decide!) (by decide!)⟩


/-- A value below 2^32 is kept by the conversion to `uint32_t`. -/
theorem toUInt32_of_lt (n : Nat) (h : n < 4294967296) : toUInt32 (n : Int) = n := by
  unfold toUInt32
  omega

/-- For a source of the data model (at most 48000 Hz, 16 bits, 2 channels)
`a2d_sbc_feeding_reset` leaves `last_frame_us = 0`, `counter = 0` and at most
3840 bytes per tick, so that `bytes_per_tick * 20000` fits 32 bits. -/
theorem a2d_sbc_feeding_reset_bytes_per_tick (cb : tA2D_SBC_ENCODER_CB)
    (hsf : cb.feeding_params.sampling_freq ≤ 48000)
    (hbps : cb.feeding_params.bit_per_sample ≤ 16)
    (hnc : cb.feeding_params.num_channel ≤ 2) :
    (a2d_sbc_feeding_reset cb).feeding_state.last_frame_us = 0 ∧
    (a2d_sbc_feeding_reset cb).feeding_state.counter = 0 ∧
    (a2d_sbc_feeding_reset cb).feeding_state.bytes_per_tick ≤ 3840 ∧
    (a2d_sbc_feeding_reset cb).feeding_state.bytes_per_tick * 20000 < 4294967296 := by
  have key : (a2d_sbc_feeding_reset cb).feeding_state.bytes_per_tick ≤ 3840 := by
    unfold a2d_sbc_feeding_reset A2D_SBC_ENCODER_INTERVAL_MS
    dsimp only
    rw [← Nat.cast_mul]
    have h1 : cb.feeding_params.sampling_freq * cb.feeding_params.bit_per_sample ≤ 768000 :=
      le_trans (Nat.mul_le_mul hsf hbps) (by decide)
    generalize cb.feeding_params.sampling_freq * cb.feeding_params.bit_per_sample = a at h1 ⊢
    rw [toUInt32_of_lt a (by omega)]
    have h2 : a / 8 * cb.feeding_params.num_channel ≤ 192000 :=
      le_trans (Nat.mul_le_mul (by omega : a / 8 ≤ 96000) hnc) (by decide)
    generalize a / 8 * cb.feeding_params.num_channel = b at h2 ⊢
    rw [toUInt32_of_lt (b * 20) (by omega), toUInt32_of_lt (b * 20 / 1000) (by omega)]
    omega
  exact ⟨rfl, rfl, key, by omega⟩


/-! ### Channel mode, reset and flush -/

/-- The channel mode that `a2d_sbc_feeding_init` leaves, when the codec
initialisation does not touch it. -/
theorem a2d_sbc_feeding_init_mode (P : Platform)
    (hInit : ∀ p, (P.SBC_Encoder_Init p).s16ChannelMode = p.s16ChannelMode)
    (cb : tA2D_SBC_ENCODER_CB) (f : tA2D_FEEDING_PARAMS) :
    (a2d_sbc_feeding_init P cb f).sbc_encoder_params.s16ChannelMode =
      if cb.sbc_encoder_params.s16ChannelMode = P.SBC_MONO then P.SBC_JOINT_STEREO
      else cb.sbc_encoder_params.s16ChannelMode := by
  unfold a2d_sbc_feeding_init
  dsimp only
  split_ifs <;> simp_all

/-- C21, as stated, fails: with a mono source (`num_channel = 1`) and an
encoder in STEREO mode, `a2d_sbc_feeding_init` leaves the encoder in STEREO
mode; the same holds of DUAL. The test of the source is on the channel mode of
the encoder, not on the channels of the source. -/
theorem feeding_init_mono_source_keeps_mode :
    (⟨44100, 1, 16⟩ : tA2D_FEEDING_PARAMS).num_channel = 1 ∧
    (a2d_sbc_feeding_init refPlatform
      (sessionCb true true refPlatform.SBC_STEREO 8 16 refPlatform.SBC_sf44100 2 ⟨0, 0, 0⟩ 663)
      ⟨44100, 1, 16⟩).sbc_encoder_params.s16ChannelMode = refPlatform.SBC_STEREO ∧
    (a2d_sbc_feeding_init refPlatform
      (sessionCb true true refPlatform.SBC_DUAL 8 16 refPlatform.SBC_sf44100 2 ⟨0, 0, 0⟩ 663)
      ⟨44100, 1, 16⟩).sbc_encoder_params.s16ChannelMode = refPlatform.SBC_DUAL ∧
    refPlatform.SBC_STEREO ≠ refPlatform.SBC_JOINT_STEREO ∧
    refPlatform.SBC_DUAL ≠ refPlatform.SBC_JOINT_STEREO := by
  decide

/-- C21 (amended): for every feeding parameters, whatever the number of
channels of the source, after `a2d_sbc_feeding_init` the encoder channel mode
is JOINT_STEREO when it was MONO before, and what it was before otherwise. The
codec initialisation is taken not to touch the channel mode. -/
theorem feeding_init_channel_mode (P : Platform)
    (hInit : ∀ p, (P.SBC_Encoder_Init p).s16ChannelMode = p.s16ChannelMode)
    (cb : tA2D_SBC_ENCODER_CB) (f : tA2D_FEEDING_PARAMS) :
    (cb.sbc_encoder_params.s16ChannelMode = P.SBC_MONO →
      (a2d_sbc_feeding_init P cb f).sbc_encoder_params.s16ChannelMode = P.SBC_JOINT_STEREO) ∧
    (cb.sbc_encoder_params.s16ChannelMode ≠ P.SBC_MONO →
      (a2d_sbc_feeding_init P cb f).sbc_encoder_params.s16ChannelMode =
        cb.sbc_encoder_params.s16ChannelMode) := by
  rw [a2d_sbc_feeding_init_mode P hInit]
  exact ⟨fun h => by rw [if_pos h], fun h => by rw [if_neg h]⟩

/-- Witness for C21 (amended): a MONO encoder and a mono source. -/
theorem feeding_init_channel_mode_witness :
    (∀ p, (refPlatform.SBC_Encoder_Init p).s16ChannelMode = p.s16ChannelMode) ∧
    (monoSession refPlatform).sbc_encoder_params.s16ChannelMode = refPlatform.SBC_MONO ∧
    (a2d_sbc_feeding_init refPlatform (monoSession refPlatform)
      ⟨16000, 1, 16⟩).sbc_encoder_params.s16ChannelMode = refPlatform.SBC_JOINT_STEREO :=
  ⟨fun _ => rfl, rfl,
    (feeding_init_channel_mode refPlatform (fun _ => rfl) (monoSession refPlatform)
      ⟨16000, 1, 16⟩).1 rfl⟩

/-- C22: for a source of at most 48000 Hz (every enumerated source rate) with
16 bits per sample and 1 or 2 channels, `a2d_sbc_feeding_reset` sets
`bytes_per_tick = floor(sampling_freq * 2 * num_channel * 20 / 1000)` and
every other field of the feeding state to 0. -/
theorem feeding_reset_state (cb : tA2D_SBC_ENCODER_CB)
    (hsf : cb.feeding_params.sampling_freq ≤ 48000)
    (hbps : cb.feeding_params.bit_per_sample = 16)
    (hnc : cb.feeding_params.num_channel = 1 ∨ cb.feeding_params.num_channel = 2) :
    (a2d_sbc_feeding_reset cb).feeding_state.bytes_per_tick =
      cb.feeding_params.sampling_freq * 2 * cb.feeding_params.num_channel * 20 / 1000 ∧
    (a2d_sbc_feeding_reset cb).feeding_state.counter = 0 ∧
    (a2d_sbc_feeding_reset cb).feeding_state.aa_feed_residue = 0 ∧
    (a2d_sbc_feeding_reset cb).feeding_state.aa_feed_counter = 0 ∧
    (a2d_sbc_feeding_reset cb).feeding_state.aa_frame_counter = 0 ∧
    (a2d_sbc_feeding_reset cb).feeding_state.last_frame_us = 0 := by
  refine ⟨?_, rfl, rfl, rfl, rfl, rfl⟩
  unfold a2d_sbc_feeding_reset A2D_SBC_ENCODER_INTERVAL_MS
  dsimp only
  rw [← Nat.cast_mul, hbps]
  generalize cb.feeding_params.sampling_freq = sf at hsf ⊢
  rw [toUInt32_of_lt (sf * 16) (by omega)]
  have e : sf * 16 / 8 = sf * 2 := by omega
  rw [e]
  rcases hnc with h | h <;> rw [h]
  · rw [toUInt32_of_lt (sf * 2 * 1 * 20) (by omega),
      toUInt32_of_lt (sf * 2 * 1 * 20 / 1000) (by omega)]
  · rw [toUInt32_of_lt (sf * 2 * 2 * 20) (by omega),
      toUInt32_of_lt (sf * 2 * 2 * 20 / 1000) (by omega)]

/-- Witness for C22: the 44100 Hz 16-bit stereo source of scenario E1, 3528
bytes per tick. -/
theorem feeding_reset_state_witness :
    (scenarioE1 refPlatform).feeding_params.sampling_freq = 44100 ∧
    (a2d_sbc_feeding_reset (scenarioE1 refPlatform)).feeding_state.bytes_per_tick =
      44100 * 2 * 2 * 20 / 1000 :=
  ⟨rfl, (feeding_reset_state (scenarioE1 refPlatform) (by decide) rfl (Or.inr rfl)).1⟩

/-- C23: `a2d_sbc_feeding_flush` sets `counter` and `aa_feed_residue` to 0 and
leaves every other field of the control block as it was. -/
theorem feeding_flush_frame (cb : tA2D_SBC_ENCODER_CB) :
    (a2d_sbc_feeding_flush cb).feeding_state.counter = 0 ∧
    (a2d_sbc_feeding_flush cb).feeding_state.aa_feed_residue = 0 ∧
    (a2d_sbc_feeding_flush cb).timestamp = cb.timestamp ∧
    (a2d_sbc_feeding_flush cb).stats = cb.stats ∧
    (a2d_sbc_feeding_flush cb).feeding_state.bytes_per_tick = cb.feeding_state.bytes_per_tick ∧
    (a2d_sbc_feeding_flush cb).feeding_state.last_frame_us = cb.feeding_state.last_frame_us ∧
    (a2d_sbc_feeding_flush cb).feeding_state.aa_feed_counter =
      cb.feeding_state.aa_feed_counter ∧
    (a2d_sbc_feeding_flush cb).feeding_state.aa_frame_counter =
      cb.feeding_state.aa_frame_counter ∧
    (a2d_sbc_feeding_flush cb).TxAaMtuSize = cb.TxAaMtuSize ∧
    (a2d_sbc_feeding_flush cb).tx_sbc_frames = cb.tx_sbc_frames ∧
    (a2d_sbc_feeding_flush cb).is_peer_edr = cb.is_peer_edr ∧
    (a2d_sbc_feeding_flush cb).peer_supports_3mbps = cb.peer_supports_3mbps ∧
    (a2d_sbc_feeding_flush cb).sbc_encoder_params = cb.sbc_encoder_params ∧
    (a2d_sbc_feeding_flush cb).feeding_params = cb.feeding_params :=
  ⟨rfl, rfl, rfl, rfl, rfl, rfl, rfl, rfl, rfl, rfl, rfl, rfl, rfl, rfl⟩


/-! ### The congestion branch and the bounds of the budget -/

/-- C24: for an EDR peer with `tx_sbc_frames = t > 0`, whenever
`floor(p / t) > 3` for the projected frame count `p` (after the limit
`MAX_PCM_FRAME_NUM_PER_TICK`, which fits the `uint8_t` results), the budgeter
takes its "Audio Congestion" branch, returns 3 iterations of `t` frames and
leaves the credit counter at exactly 0: the counter is replaced by
`3 * t * pcm_bytes_per_frame`, which is at most the credited counter, and then
debited by the same amount. -/
theorem edr_congestion_drain (P : Platform) (cb : tA2D_SBC_ENCODER_CB) (now_us : Nat)
    (hedr : cb.is_peer_edr = true) (ht : 0 < cb.tx_sbc_frames)
    (hmax : P.MAX_PCM_FRAME_NUM_PER_TICK ≤ 255)
    (hq : projectedFrames P cb now_us / cb.tx_sbc_frames > 3) :
    iterationsClamped P cb now_us ∧
    (a2d_sbc_get_num_frame_iteration P cb now_us).1 = (3, cb.tx_sbc_frames) ∧
    (a2d_sbc_get_num_frame_iteration P cb now_us).2.feeding_state.counter = 0 ∧
    (a2d_sbc_get_num_frame_iteration P cb now_us).2.feeding_state.counter =
      toUInt32 ((toUInt32 ((3 * cb.tx_sbc_frames * pcm_bytes_per_frame cb : Nat) : Int) : Int) -
        toUInt32 ((3 * cb.tx_sbc_frames * pcm_bytes_per_frame cb : Nat) : Int)) ∧
    3 * cb.tx_sbc_frames * pcm_bytes_per_frame cb ≤ creditedCounter cb now_us := by
  have hple := projectedFrames_le P cb now_us
  have ht0 : cb.tx_sbc_frames ≠ 0 := by omega
  have hedrF : edrFrames P cb = cb.tx_sbc_frames := by
    unfold edrFrames
    rw [if_neg ht0]
  have hq255 : projectedFrames P cb now_us / cb.tx_sbc_frames ≤ 255 :=
    le_trans (Nat.div_le_self _ _) (le_trans hple hmax)
  have e8 : toUInt8 ((projectedFrames P cb now_us / cb.tx_sbc_frames : Nat) : Int) =
      projectedFrames P cb now_us / cb.tx_sbc_frames := by
    generalize projectedFrames P cb now_us / cb.tx_sbc_frames = q at hq255 ⊢
    unfold toUInt8
    omega
  have h4t : 3 * cb.tx_sbc_frames ≤ projectedFrames P cb now_us := by
    have h1 := Nat.div_mul_le_self (projectedFrames P cb now_us) cb.tx_sbc_frames
    have h2 : 4 * cb.tx_sbc_frames ≤
        projectedFrames P cb now_us / cb.tx_sbc_frames * cb.tx_sbc_frames :=
      Nat.mul_le_mul_right _ hq
    omega
  have hlt : cb.tx_sbc_frames < projectedFrames P cb now_us := by omega
  have hcl : iterationsClamped P cb now_us := by
    unfold iterationsClamped
    rw [hedrF, e8]
    exact ⟨hedr, ht0, hlt, hq⟩
  have hpair : (a2d_sbc_get_num_frame_iteration P cb now_us).1 = (3, cb.tx_sbc_frames) := by
    rw [a2d_sbc_get_num_frame_iteration_pair, hedrF]
    have hc : cb.is_peer_edr = true ∧ cb.tx_sbc_frames ≠ 0 ∧
        cb.tx_sbc_frames < projectedFrames P cb now_us := ⟨hedr, ht0, hlt⟩
    rw [if_pos hc, e8]
    have h3 : projectedFrames P cb now_us / cb.tx_sbc_frames >
        A2D_SBC_MAX_PCM_ITER_NUM_PER_TICK := hq
    rw [if_pos h3]
    rfl
  have hcnt : (a2d_sbc_get_num_frame_iteration P cb now_us).2.feeding_state.counter =
      toUInt32 ((toUInt32 ((3 * cb.tx_sbc_frames * pcm_bytes_per_frame cb : Nat) : Int) : Int) -
        toUInt32 ((3 * cb.tx_sbc_frames * pcm_bytes_per_frame cb : Nat) : Int)) := by
    rw [a2d_sbc_get_num_frame_iteration_counter, if_pos hcl, hpair]
  refine ⟨hcl, hpair, ?_, hcnt, ?_⟩
  · rw [hcnt]
    generalize toUInt32 ((3 * cb.tx_sbc_frames * pcm_bytes_per_frame cb : Nat) : Int) = m
    unfold toUInt32
    omega
  · exact le_trans (Nat.mul_le_mul_right _ h4t) (projectedFrames_mul_le P cb now_us)

/-- Witness for C24: an EDR peer with `tx_sbc_frames = 3`, 60 ms after the
last tick: 20 projected frames are limited to 14, `14 / 3 = 4 > 3`, and the
budget is 3 iterations of 3 frames with the counter drained to 0. -/
theorem edr_congestion_drain_witness :
    (tickCb true 3 0 1000).is_peer_edr = true ∧ (tickCb true 3 0 1000).tx_sbc_frames = 3 ∧
    projectedFrames refPlatform (tickCb true 3 0 1000) 61000 = 14 ∧
    creditedCounter (tickCb true 3 0 1000) 61000 = 10584 ∧
    (a2d_sbc_get_num_frame_iteration refPlatform (tickCb true 3 0 1000) 61000).1 = (3, 3) ∧
    (a2d_sbc_get_num_frame_iteration refPlatform (tickCb true 3 0 1000)
      61000).2.feeding_state.counter = 0 :=
  ⟨by decide, by decide, by decide!, by decide!,
    (edr_congestion_drain refPlatform (tickCb true 3 0 1000) 61000 (by decide) (by decide)
      (by decide) (by decide!)).2.1,
    (edr_congestion_drain refPlatform (tickCb true 3 0 1000) 61000 (by decide) (by decide)
      (by decide) (by decide!)).2.2.1⟩

/-- C29: for every state with `pcm_bytes_per_frame > 0` in which the credit of
the tick does not wrap the 32-bit counter, every peer kind and every
`tx_sbc_frames`, with a limit `MAX_PCM_FRAME_NUM_PER_TICK` that fits the
`uint8_t` results, the pair `(iterations, frames)` that the budgeter returns
has `1 <= iterations <= 3` and
`iterations * frames <= MAX_PCM_FRAME_NUM_PER_TICK`, and
`iterations * frames * pcm_bytes_per_frame` is at most the counter at the
final debit (the credited counter, or its replacement in the "Audio
Congestion" branch), so that the debit does not wrap below zero: the counter
left plus the debit is the counter at the final debit. The budget is within
the frames that the credited counter pays for. -/
theorem budget_bounds (P : Platform) (cb : tA2D_SBC_ENCODER_CB) (now_us : Nat)
    (hpcm : 0 < pcm_bytes_per_frame cb)
    (hfit : cb.feeding_state.counter + tickCredit cb now_us < 4294967296)
    (hmax : P.MAX_PCM_FRAME_NUM_PER_TICK ≤ 255) :
    1 ≤ (a2d_sbc_get_num_frame_iteration P cb now_us).1.1 ∧
    (a2d_sbc_get_num_frame_iteration P cb now_us).1.1 ≤ 3 ∧
    (a2d_sbc_get_num_frame_iteration P cb now_us).1.1 *
      (a2d_sbc_get_num_frame_iteration P cb now_us).1.2 ≤ P.MAX_PCM_FRAME_NUM_PER_TICK ∧
    (a2d_sbc_get_num_frame_iteration P cb now_us).1.1 *
      (a2d_sbc_get_num_frame_iteration P cb now_us).1.2 * pcm_bytes_per_frame cb ≤
      (if iterationsClamped P cb now_us then
        toUInt32 ((a2d_sbc_get_num_frame_iteration P cb now_us).1.1 *
          (a2d_sbc_get_num_frame_iteration P cb now_us).1.2 * pcm_bytes_per_frame cb : Nat)
        else cb.feeding_state.counter + tickCredit cb now_us) ∧
    (a2d_sbc_get_num_frame_iteration P cb now_us).2.feeding_state.counter +
      (a2d_sbc_get_num_frame_iteration P cb now_us).1.1 *
        (a2d_sbc_get_num_frame_iteration P cb now_us).1.2 * pcm_bytes_per_frame cb =
      (if iterationsClamped P cb now_us then
        toUInt32 ((a2d_sbc_get_num_frame_iteration P cb now_us).1.1 *
          (a2d_sbc_get_num_frame_iteration P cb now_us).1.2 * pcm_bytes_per_frame cb : Nat)
        else cb.feeding_state.counter + tickCredit cb now_us) ∧
    (a2d_sbc_get_num_frame_iteration P cb now_us).1.1 *
      (a2d_sbc_get_num_frame_iteration P cb now_us).1.2 ≤
      (cb.feeding_state.counter + tickCredit cb now_us) / pcm_bytes_per_frame cb := by
  have hc : creditedCounter cb now_us = cb.feeding_state.counter + tickCredit cb now_us := by
    unfold creditedCounter toUInt32
    omega
  have hple := projectedFrames_le P cb now_us
  have hpm := projectedFrames_mul_le P cb now_us
  rw [hc] at hpm
  have hpair := a2d_sbc_get_num_frame_iteration_pair P cb now_us
  have hcnt := a2d_sbc_get_num_frame_iteration_counter P cb now_us
  have key : 1 ≤ (a2d_sbc_get_num_frame_iteration P cb now_us).1.1 ∧
      (a2d_sbc_get_num_frame_iteration P cb now_us).1.1 ≤ 3 ∧
      (a2d_sbc_get_num_frame_iteration P cb now_us).1.1 *
        (a2d_sbc_get_num_frame_iteration P cb now_us).1.2 ≤ projectedFrames P cb now_us := by
    by_cases hcase : cb.is_peer_edr = true ∧ edrFrames P cb ≠ 0 ∧
        edrFrames P cb < projectedFrames P cb now_us
    · rw [if_pos hcase] at hpair
      have hq255 : projectedFrames P cb now_us / edrFrames P cb ≤ 255 :=
        le_trans (Nat.div_le_self _ _) (le_trans hple hmax)
      have hq1 : 1 ≤ projectedFrames P cb now_us / edrFrames P cb :=
        (Nat.one_le_div_iff (Nat.pos_of_ne_zero hcase.2.1)).mpr (le_of_lt hcase.2.2)
      have hqm := Nat.div_mul_le_self (projectedFrames P cb now_us) (edrFrames P cb)
      have e8 : toUInt8 ((projectedFrames P cb now_us / edrFrames P cb : Nat) : Int) =
          projectedFrames P cb now_us / edrFrames P cb := by
        generalize projectedFrames P cb now_us / edrFrames P cb = q at hq255 ⊢
        unfold toUInt8
        omega
      rw [e8] at hpair
      rw [hpair]
      by_cases h3 : projectedFrames P cb now_us / edrFrames P cb >
          A2D_SBC_MAX_PCM_ITER_NUM_PER_TICK
      · rw [if_pos h3]
        have h4 : 4 ≤ projectedFrames P cb now_us / edrFrames P cb := h3
        have h5 : 4 * edrFrames P cb ≤
            projectedFrames P cb now_us / edrFrames P cb * edrFrames P cb :=
          Nat.mul_le_mul_right _ h4
        refine ⟨(by decide : 1 ≤ 3), (by decide : 3 ≤ 3), ?_⟩
        show 3 * edrFrames P cb ≤ _
        omega
      · rw [if_neg h3]
        have h4 : projectedFrames P cb now_us / edrFrames P cb ≤ 3 := Nat.le_of_not_lt h3
        exact ⟨hq1, h4, hqm⟩
    · rw [if_neg hcase] at hpair
      rw [hpair]
      refine ⟨le_refl 1, (by decide : 1 ≤ 3), ?_⟩
      show 1 * toUInt8 ((projectedFrames P cb now_us : Nat) : Int) ≤ _
      rw [Nat.one_mul]
      exact toUInt8_le _
  obtain ⟨k1, k2, k3⟩ := key
  have hN : (a2d_sbc_get_num_frame_iteration P cb now_us).1.1 *
      (a2d_sbc_get_num_frame_iteration P cb now_us).1.2 * pcm_bytes_per_frame cb ≤
      cb.feeding_state.counter + tickCredit cb now_us :=
    le_trans (Nat.mul_le_mul_right _ k3) hpm
  refine ⟨k1, k2, le_trans k3 hple, ?_, ?_, (Nat.le_div_iff_mul_le hpcm).mpr hN⟩
  · by_cases hcl : iterationsClamped P cb now_us
    · rw [if_pos hcl, toUInt32_of_lt _ (by omega)]
    · rw [if_neg hcl]
      exact hN
  · by_cases hcl : iterationsClamped P cb now_us
    · rw [hcnt, if_pos hcl, if_pos hcl, toUInt32_of_lt _ (lt_of_le_of_lt hN hfit)]
      generalize (a2d_sbc_get_num_frame_iteration P cb now_us).1.1 *
        (a2d_sbc_get_num_frame_iteration P cb now_us).1.2 * pcm_bytes_per_frame cb = N
      unfold toUInt32
      omega
    · rw [if_neg hcl]
      exact budget_balance P cb now_us hcl hfit

/-- Witness for C29: the congested tick of the witness for C24 and the first
tick of a non-EDR peer. -/
theorem budget_bounds_witness :
    0 < pcm_bytes_per_frame (tickCb true 3 0 1000) ∧
    (tickCb true 3 0 1000).feeding_state.counter + tickCredit (tickCb true 3 0 1000) 61000
      < 4294967296 ∧
    refPlatform.MAX_PCM_FRAME_NUM_PER_TICK ≤ 255 ∧
    (a2d_sbc_get_num_frame_iteration refPlatform (tickCb true 3 0 1000) 61000).1 = (3, 3) ∧
    1 ≤ (a2d_sbc_get_num_frame_iteration refPlatform (tickCb true 3 0 1000) 61000).1.1 ∧
    (a2d_sbc_get_num_frame_iteration refPlatform (tickCb true 3 0 1000) 61000).1.1 ≤ 3 ∧
    (a2d_sbc_get_num_frame_iteration refPlatform (tickCb true 3 0 1000) 61000).1.1 *
      (a2d_sbc_get_num_frame_iteration refPlatform (tickCb true 3 0 1000) 61000).1.2 ≤
      refPlatform.MAX_PCM_FRAME_NUM_PER_TICK :=
  ⟨by decide!, by decide!, by decide, by decide!,
    (budget_bounds refPlatform (tickCb true 3 0 1000) 61000 (by decide!) (by decide!)
      (by decide)).1,
    (budget_bounds refPlatform (tickCb true 3 0 1000) 61000 (by decide!) (by decide!)
      (by decide)).2.1,
    (budget_bounds refPlatform (tickCb true 3 0 1000) 61000 (by decide!) (by decide!)
      (by decide)).2.2.1⟩


/-! ### The feeding buffer -/

/-- The fast path of `a2d_sbc_read_feeding`: the read callback is asked for
`bytes_needed - aa_feed_residue` bytes; a read of another size is added to the
residue and the result is `false`, a read of that size clears the residue and
the result is `true`. -/
theorem a2d_sbc_read_feeding_fast (P : Platform) (E : Callbacks) (s : Session)
    (hfast : sbc_sampling P s.cb.sbc_encoder_params = s.cb.feeding_params.sampling_freq) :
    (a2d_sbc_read_feeding P E s).1 =
      decide (E.read_callback s.reads (fastReadSize s.cb) = fastReadSize s.cb) ∧
    (a2d_sbc_read_feeding P E s).2.cb.feeding_state.aa_feed_residue =
      (if E.read_callback s.reads (fastReadSize s.cb) ≠ fastReadSize s.cb then
        toInt32 (s.cb.feeding_state.aa_feed_residue +
          E.read_callback s.reads (fastReadSize s.cb))
      else 0) ∧
    (a2d_sbc_read_feeding P E s).2.cb.feeding_state.aa_feed_counter =
      s.cb.feeding_state.aa_feed_counter := by
  unfold sbc_sampling at hfast
  unfold a2d_sbc_read_feeding fastReadSize bytes_needed blocm_x_subband
  dsimp only
  rw [if_pos hfast]
  split_ifs with h
  · exact ⟨by simp [h], rfl, rfl⟩
  · exact ⟨by simp [not_not.mp h], rfl, rfl⟩


/-- C25: on the fast path of `a2d_sbc_read_feeding` (source rate equal to the
codec rate) with a residue `0 <= r < bytes_needed`, the read callback is asked
for exactly `bytes_needed - r` bytes. When it returns `n < bytes_needed - r`
the result is `false` (starved) and the residue becomes `r + n`; when it
returns exactly `bytes_needed - r` the result is `true` (ready) and the
residue becomes 0. Hence, when the callback returns no more than it is asked,
the residue stays in `0 <= residue < bytes_needed`. -/
theorem fast_path_residue (P : Platform) (E : Callbacks) (s : Session)
    (hfast : sbc_sampling P s.cb.sbc_encoder_params = s.cb.feeding_params.sampling_freq)
    (hr0 : 0 ≤ s.cb.feeding_state.aa_feed_residue)
    (hr : s.cb.feeding_state.aa_feed_residue < bytes_needed s.cb) :
    (fastReadSize s.cb : Int) = bytes_needed s.cb - s.cb.feeding_state.aa_feed_residue ∧
    (E.read_callback s.reads (fastReadSize s.cb) < fastReadSize s.cb →
      (a2d_sbc_read_feeding P E s).1 = false ∧
      (a2d_sbc_read_feeding P E s).2.cb.feeding_state.aa_feed_residue =
        s.cb.feeding_state.aa_feed_residue + E.read_callback s.reads (fastReadSize s.cb)) ∧
    (E.read_callback s.reads (fastReadSize s.cb) = fastReadSize s.cb →
      (a2d_sbc_read_feeding P E s).1 = true ∧
      (a2d_sbc_read_feeding P E s).2.cb.feeding_state.aa_feed_residue = 0) ∧
    (E.read_callback s.reads (fastReadSize s.cb) ≤ fastReadSize s.cb →
      0 ≤ (a2d_sbc_read_feeding P E s).2.cb.feeding_state.aa_feed_residue ∧
      (a2d_sbc_read_feeding P E s).2.cb.feeding_state.aa_feed_residue < bytes_needed s.cb) ∧
    (a2d_sbc_read_feeding P E s).2.reads = s.reads + 1 := by
  obtain ⟨f1, f2, -⟩ := a2d_sbc_read_feeding_fast P E s hfast
  have hbn : bytes_needed s.cb < 65536 := toUInt16_lt _
  have hrs : (fastReadSize s.cb : Int) =
      bytes_needed s.cb - s.cb.feeding_state.aa_feed_residue := by
    unfold fastReadSize
    rw [toUInt32_cast]
    exact Int.emod_eq_of_lt (by omega) (by omega)
  have hlt : E.read_callback s.reads (fastReadSize s.cb) < fastReadSize s.cb →
      (a2d_sbc_read_feeding P E s).1 = false ∧
      (a2d_sbc_read_feeding P E s).2.cb.feeding_state.aa_feed_residue =
        s.cb.feeding_state.aa_feed_residue + E.read_callback s.reads (fastReadSize s.cb) := by
    intro h
    have hne : E.read_callback s.reads (fastReadSize s.cb) ≠ fastReadSize s.cb :=
      Nat.ne_of_lt h
    rw [f1, f2, if_pos hne]
    refine ⟨by simp [hne], ?_⟩
    have hI : (E.read_callback s.reads (fastReadSize s.cb) : Int) < fastReadSize s.cb := by
      exact_mod_cast h
    exact toInt32_of_small _ (by omega) (by omega)
  have heq : E.read_callback s.reads (fastReadSize s.cb) = fastReadSize s.cb →
      (a2d_sbc_read_feeding P E s).1 = true ∧
      (a2d_sbc_read_feeding P E s).2.cb.feeding_state.aa_feed_residue = 0 := by
    intro h
    rw [f1, f2, if_neg (not_not.mpr h)]
    exact ⟨by simp [h], rfl⟩
  refine ⟨hrs, hlt, heq, ?_, (a2d_sbc_read_feeding_log P E s).2.1⟩
  intro hle
  rcases Nat.lt_or_eq_of_le hle with h | h
  · rw [(hlt h).2]
    have hI : (E.read_callback s.reads (fastReadSize s.cb) : Int) < fastReadSize s.cb := by
      exact_mod_cast h
    constructor <;> omega
  · rw [(heq h).2]
    constructor <;> omega

/-- Witness for C25: the configuration of `packetSession` (44100 Hz on both
sides, 512 bytes per slab) with a source that delivers 100 bytes when asked
for 512. -/
theorem fast_path_residue_witness :
    sbc_sampling refPlatform (packetSession 663).cb.sbc_encoder_params =
      (packetSession 663).cb.feeding_params.sampling_freq ∧
    bytes_needed (packetSession 663).cb = 512 ∧
    fastReadSize (packetSession 663).cb = 512 ∧
    (a2d_sbc_read_feeding refPlatform
      { plentifulCallbacks with read_callback := fun _ _ => 100 }
      (packetSession 663)).1 = false ∧
    (a2d_sbc_read_feeding refPlatform
      { plentifulCallbacks with read_callback := fun _ _ => 100 }
      (packetSession 663)).2.cb.feeding_state.aa_feed_residue =
      (packetSession 663).cb.feeding_state.aa_feed_residue +
        (100 : Nat) :=
  ⟨by decide!, by decide!, by decide!,
    ((fast_path_residue refPlatform { plentifulCallbacks with read_callback := fun _ _ => 100 }
      (packetSession 663) (by decide!) (by decide!) (by decide!)).2.1 (by decide!)).1,
    ((fast_path_residue refPlatform { plentifulCallbacks with read_callback := fun _ _ => 100 }
      (packetSession 663) (by decide!) (by decide!) (by decide!)).2.1 (by decide!)).2⟩


theorem tdiv_char (a b : Int) (hb : 0 < b) :
    (0 ≤ a → Int.tdiv a b = a / b) ∧ (a < 0 → Int.tdiv a b = -((-a) / b)) := by
  constructor
  · intro ha; exact Int.tdiv_eq_ediv ha (le_of_lt hb)
  · intro ha
    have : Int.tdiv a b = -(Int.tdiv (-a) b) := by rw [Int.neg_tdiv, neg_neg]
    rw [this, Int.tdiv_eq_ediv (by omega) (le_of_lt hb)]

/-- The stereo estimate, written with `stereoBitRate`. -/
theorem estimateStereo_eq (p : SBC_ENC_PARAMS) (fs : Nat) :
    estimateStereo p fs =
      (let bp0 := toInt16 (toInt32
        (Int.tdiv (toInt32 (p.u16BitRate * p.s16NumOfSubBands * 1000)) fs
          - Int.tdiv (toInt32 (32 + 4 * p.s16NumOfSubBands * p.s16NumOfChannels
              + (p.s16ChannelMode - 2) * p.s16NumOfSubBands)) p.s16NumOfBlocks))
       let bp1 := if stereoBitRate p fs bp0 > (p.u16BitRate : Int) then toInt16 (bp0 - 1) else bp0
       if p.s16NumOfSubBands = 8 then (if bp1 > 255 then 255 else bp1)
       else (if bp1 > 128 then 128 else bp1)) := rfl

theorem stereo_x_bounds (N B m bp : Int) (hN : N = 4 ∨ N = 8)
    (hB : B = 4 ∨ B = 8 ∨ B = 12 ∨ B = 16) (hm : 0 ≤ m ∧ m ≤ 3)
    (h0 : 0 ≤ bp) (h1 : bp ≤ 255) :
    -16 ≤ (m - 2) * N + B * bp ∧ (m - 2) * N + B * bp ≤ 4088 ∧
    (4 ≤ bp → 0 ≤ (m - 2) * N + B * bp) := by
  rcases hN with h | h <;> rcases hB with h' | h' | h' | h' <;> subst h <;> subst h' <;> omega

/-- Within the bit-pool range 0..255 the frame length is computed without
wrap-around. -/
theorem stereoFrameLen_exact (p : SBC_ENC_PARAMS) (bp : Int)
    (hm : 0 ≤ p.s16ChannelMode ∧ p.s16ChannelMode ≤ 3)
    (hN : p.s16NumOfSubBands = 4 ∨ p.s16NumOfSubBands = 8)
    (hB : p.s16NumOfBlocks = 4 ∨ p.s16NumOfBlocks = 8 ∨ p.s16NumOfBlocks = 12 ∨
      p.s16NumOfBlocks = 16)
    (hC : p.s16NumOfChannels = 2) (h0 : 0 ≤ bp) (h1 : bp ≤ 255) :
    stereoFrameLen p bp = 4 + Int.tdiv (4 * p.s16NumOfSubBands * p.s16NumOfChannels) 8
        + Int.tdiv ((p.s16ChannelMode - 2) * p.s16NumOfSubBands + p.s16NumOfBlocks * bp) 8 ∧
    6 ≤ stereoFrameLen p bp ∧ stereoFrameLen p bp ≤ 523 ∧
    (4 ≤ bp → 8 * stereoFrameLen p bp ≤ 32 + 4 * p.s16NumOfSubBands * p.s16NumOfChannels
        + (p.s16ChannelMode - 2) * p.s16NumOfSubBands + p.s16NumOfBlocks * bp) := by
  obtain ⟨hx0, hx1, hx4⟩ := stereo_x_bounds _ _ _ bp hN hB hm h0 h1
  have eN : Int.tdiv (toInt32 (4 * p.s16NumOfSubBands * 2)) 8 = p.s16NumOfSubBands ∧
      Int.tdiv (4 * p.s16NumOfSubBands * 2) 8 = p.s16NumOfSubBands ∧
      4 * p.s16NumOfSubBands * 2 = 8 * p.s16NumOfSubBands := by
    rcases hN with h | h <;> rw [h] <;> decide
  unfold stereoFrameLen
  rw [hC, eN.1, eN.2.1, eN.2.2, toInt32_of_small
    ((p.s16ChannelMode - 2) * p.s16NumOfSubBands + p.s16NumOfBlocks * bp) (by omega) (by omega)]
  generalize hx : (p.s16ChannelMode - 2) * p.s16NumOfSubBands + p.s16NumOfBlocks * bp = x at *
  have t := tdiv_char x 8 (by decide)
  generalize Int.tdiv x 8 = q at *
  rw [toInt32_of_small _ (by omega) (by omega), toInt16_of_small _ (by omega) (by omega)]
  refine ⟨rfl, by omega, by omega, fun h4 => ?_⟩
  have := hx4 h4
  omega

/-- Within the bit-pool range 0..255 the bit rate is computed without
wrap-around: it is the floor of the exact quotient. -/
theorem stereoBitRate_exact (p : SBC_ENC_PARAMS) (fs : Nat) (bp : Int)
    (hm : 0 ≤ p.s16ChannelMode ∧ p.s16ChannelMode ≤ 3)
    (hN : p.s16NumOfSubBands = 4 ∨ p.s16NumOfSubBands = 8)
    (hB : p.s16NumOfBlocks = 4 ∨ p.s16NumOfBlocks = 8 ∨ p.s16NumOfBlocks = 12 ∨
      p.s16NumOfBlocks = 16)
    (hC : p.s16NumOfChannels = 2)
    (hfs : fs = 16000 ∨ fs = 32000 ∨ fs = 44100 ∨ fs = 48000)
    (h0 : 0 ≤ bp) (h1 : bp ≤ 255) :
    stereoBitRate p fs bp =
      (8 * stereoFrameLen p bp * fs) / (p.s16NumOfSubBands * p.s16NumOfBlocks * 1000) ∧
    0 ≤ stereoBitRate p fs bp := by
  obtain ⟨-, hf0, hf1, -⟩ := stereoFrameLen_exact p bp hm hN hB hC h0 h1
  unfold stereoBitRate
  generalize stereoFrameLen p bp = fl at *
  have hNB : p.s16NumOfSubBands * p.s16NumOfBlocks = 16 ∨
      p.s16NumOfSubBands * p.s16NumOfBlocks = 32 ∨
      p.s16NumOfSubBands * p.s16NumOfBlocks = 48 ∨
      p.s16NumOfSubBands * p.s16NumOfBlocks = 64 ∨
      p.s16NumOfSubBands * p.s16NumOfBlocks = 96 ∨
      p.s16NumOfSubBands * p.s16NumOfBlocks = 128 := by
    rcases hN with h | h <;> rcases hB with h' | h' | h' | h' <;> rw [h, h'] <;> decide
  have ha : 0 ≤ 8 * fl * (fs : Int) ∧ 8 * fl * (fs : Int) ≤ 200832000 := by
    rcases hfs with h | h | h | h <;> subst h <;> constructor <;> push_cast <;> omega
  generalize 8 * fl * (fs : Int) = a at *
  have hd : 16000 ≤ p.s16NumOfSubBands * p.s16NumOfBlocks * 1000 ∧
      p.s16NumOfSubBands * p.s16NumOfBlocks * 1000 ≤ 128000 := by omega
  generalize p.s16NumOfSubBands * p.s16NumOfBlocks * 1000 = d at *
  rw [toInt32_of_small a (by omega) (by omega), toInt32_of_small d (by omega) (by omega),
    Int.tdiv_eq_ediv ha.1 (by omega)]
  have hq0 : 0 ≤ a / d := Int.ediv_nonneg ha.1 (by omega)
  have hq1 : a / d * d ≤ a := Int.ediv_mul_le a (by omega)
  have hq2 : a / d ≤ 12552 := by
    by_contra hcon
    have h3 : (12553 : Int) ≤ a / d := by omega
    have h4 : (12553 : Int) * 16000 ≤ a / d * d := mul_le_mul h3 hd.1 (by decide) hq0
    omega
  rw [toInt16_of_small _ (by omega) (by omega)]
  exact ⟨rfl, hq0⟩

theorem stereoBitRate_congr (p : SBC_ENC_PARAMS) (fs : Nat) (bp : Int) :
    stereoBitRate p fs bp =
      stereoBitRate ⟨p.s16ChannelMode, p.s16NumOfSubBands, p.s16NumOfBlocks, 0, 0,
        p.s16NumOfChannels, 0, 0, 0⟩ fs bp := rfl

set_option maxRecDepth 100000 in
theorem stereo_small_check :
    ∀ m ∈ [(0 : Int), 1, 2, 3], ∀ ns ∈ [(4 : Int), 8], ∀ nb ∈ [(4 : Int), 8, 12, 16],
    ∀ fs ∈ [16000, 32000, 44100, 48000], ∀ k ∈ [(0 : Int), 1, 2, 3],
      stereoBitRate ⟨m, ns, nb, 0, 0, 2, 0, 0, 0⟩ fs k * (ns * 1000) ≤
        (k + 1 + Int.tdiv (toInt32 (32 + 4 * ns * 2 + (m - 2) * ns)) nb) * (fs : Nat) := by
  decide!

/-- The rate implied by a bit pool in 0..255 is at most the smallest target
rate whose first estimate exceeds that bit pool. -/
theorem stereo_rate_step (p : SBC_ENC_PARAMS) (fs : Nat) (bp : Int)
    (hm : 0 ≤ p.s16ChannelMode ∧ p.s16ChannelMode ≤ 3)
    (hN : p.s16NumOfSubBands = 4 ∨ p.s16NumOfSubBands = 8)
    (hB : p.s16NumOfBlocks = 4 ∨ p.s16NumOfBlocks = 8 ∨ p.s16NumOfBlocks = 12 ∨
      p.s16NumOfBlocks = 16)
    (hC : p.s16NumOfChannels = 2)
    (hfs : fs = 16000 ∨ fs = 32000 ∨ fs = 44100 ∨ fs = 48000)
    (h0 : 0 ≤ bp) (h1 : bp ≤ 255) :
    stereoBitRate p fs bp * (p.s16NumOfSubBands * 1000) ≤
      (bp + 1 + Int.tdiv (toInt32 (32 + 4 * p.s16NumOfSubBands * p.s16NumOfChannels
          + (p.s16ChannelMode - 2) * p.s16NumOfSubBands)) p.s16NumOfBlocks) * (fs : Nat) := by
  by_cases h4 : bp < 4
  · have mm : p.s16ChannelMode ∈ [(0 : Int), 1, 2, 3] := by
      have : p.s16ChannelMode = 0 ∨ p.s16ChannelMode = 1 ∨ p.s16ChannelMode = 2 ∨
        p.s16ChannelMode = 3 := by omega
      rcases this with h | h | h | h <;> simp [h]
    have mNS : p.s16NumOfSubBands ∈ [(4 : Int), 8] := by
      rcases hN with h | h <;> simp [h]
    have mNB : p.s16NumOfBlocks ∈ [(4 : Int), 8, 12, 16] := by
      rcases hB with h | h | h | h <;> simp [h]
    have mfs : fs ∈ [16000, 32000, 44100, 48000] := by
      rcases hfs with h | h | h | h <;> simp [h]
    have mk : bp ∈ [(0 : Int), 1, 2, 3] := by
      have : bp = 0 ∨ bp = 1 ∨ bp = 2 ∨ bp = 3 := by omega
      rcases this with h | h | h | h <;> simp [h]
    have := stereo_small_check _ mm _ mNS _ mNB _ mfs _ mk
    rw [stereoBitRate_congr, hC]
    exact this
  · obtain ⟨hR, hR0⟩ := stereoBitRate_exact p fs bp hm hN hB hC hfs h0 h1
    obtain ⟨-, hf0, hf1, hf4⟩ := stereoFrameLen_exact p bp hm hN hB hC h0 h1
    have hf := hf4 (by omega)
    have hCb : 56 ≤ 32 + 4 * p.s16NumOfSubBands * p.s16NumOfChannels
          + (p.s16ChannelMode - 2) * p.s16NumOfSubBands ∧
        32 + 4 * p.s16NumOfSubBands * p.s16NumOfChannels
          + (p.s16ChannelMode - 2) * p.s16NumOfSubBands ≤ 104 := by
      have : p.s16ChannelMode = 0 ∨ p.s16ChannelMode = 1 ∨ p.s16ChannelMode = 2 ∨
        p.s16ChannelMode = 3 := by omega
      rw [hC]
      rcases hN with h | h <;> rcases this with h' | h' | h' | h' <;> rw [h, h'] <;> decide
    have hBpos : 0 < p.s16NumOfBlocks := by omega
    have hNpos : 0 < p.s16NumOfSubBands := by omega
    have hfspos : (0 : Int) < (fs : Nat) := by omega
    rw [hR, toInt32_of_small _ (by omega) (by omega),
      Int.tdiv_eq_ediv (by omega) (le_of_lt hBpos)]
    generalize 32 + 4 * p.s16NumOfSubBands * p.s16NumOfChannels
          + (p.s16ChannelMode - 2) * p.s16NumOfSubBands = C at *
    generalize stereoFrameLen p bp = fl at *
    generalize p.s16NumOfSubBands = N at *
    generalize p.s16NumOfBlocks = B at *
    generalize ((fs : Nat) : Int) = f at *
    have hD : 0 < N * B * 1000 := by positivity
    have h1 : 8 * fl * f / (N * B * 1000) * (N * B * 1000) ≤ 8 * fl * f :=
      Int.ediv_mul_le _ (ne_of_gt hD)
    have h3 : C < (C / B + 1) * B := Int.lt_ediv_add_one_mul_self C hBpos
    have a1 : 8 * fl * f ≤ (C + B * bp) * f :=
      mul_le_mul_of_nonneg_right hf (le_of_lt hfspos)
    have a2 : (C + B * bp) * f < ((C / B + 1) * B + B * bp) * f :=
      mul_lt_mul_of_pos_right (by linarith) hfspos
    have a3 : 8 * fl * f / (N * B * 1000) * (N * 1000) * B < (bp + 1 + C / B) * f * B := by
      calc 8 * fl * f / (N * B * 1000) * (N * 1000) * B
          = 8 * fl * f / (N * B * 1000) * (N * B * 1000) := by ring
        _ ≤ 8 * fl * f := h1
        _ ≤ (C + B * bp) * f := a1
        _ < ((C / B + 1) * B + B * bp) * f := a2
        _ = (bp + 1 + C / B) * f * B := by ring
    exact le_of_lt (lt_of_mul_lt_mul_right a3 (le_of_lt hBpos))

/-- C30: on the stereo grid (STEREO or JOINT_STEREO with codes in 0..3,
4 or 8 sub-bands, 4, 8, 12 or 16 blocks, 2 channels, codec rate 16000, 32000,
44100 or 48000) and at every 16-bit target rate, if the bit pool left by one
pass of the stereo estimate, after its conditional decrement and its upper
clamp, is not negative, then the bit rate it implies,
floor(8 * FL(BP) * fs / (sub_bands * blocks * 1000)) with FL the frame-length
expression of the estimate, is at most the target rate. At that bit pool the
source's 16-bit frame length and bit rate are computed without wrap-around, so
they are this FL and this floor; and the bit pool is the candidate of the
pass. -/
theorem stereo_estimate_rate_fits (P : Platform) (hP : P.SmallModeCodes)
    (p : SBC_ENC_PARAMS)
    (hmode : p.s16ChannelMode = P.SBC_JOINT_STEREO ∨ p.s16ChannelMode = P.SBC_STEREO)
    (hl : LegalCounts p) (hC : p.s16NumOfChannels = 2) (hr : p.u16BitRate < 65536)
    (fs : Nat) (hfs : fs = 16000 ∨ fs = 32000 ∨ fs = 44100 ∨ fs = 48000)
    (hBP : 0 ≤ estimateStereo p fs) :
    (8 * (4 + Int.tdiv (4 * p.s16NumOfSubBands * p.s16NumOfChannels) 8
          + Int.tdiv ((p.s16ChannelMode - 2) * p.s16NumOfSubBands
              + p.s16NumOfBlocks * estimateStereo p fs) 8) * fs)
        / (p.s16NumOfSubBands * p.s16NumOfBlocks * 1000) ≤ (p.u16BitRate : Int) ∧
    stereoFrameLen p (estimateStereo p fs) =
      4 + Int.tdiv (4 * p.s16NumOfSubBands * p.s16NumOfChannels) 8
        + Int.tdiv ((p.s16ChannelMode - 2) * p.s16NumOfSubBands
            + p.s16NumOfBlocks * estimateStereo p fs) 8 ∧
    stereoBitRate p fs (estimateStereo p fs) =
      (8 * stereoFrameLen p (estimateStereo p fs) * fs)
        / (p.s16NumOfSubBands * p.s16NumOfBlocks * 1000) ∧
    bitpoolCandidate P p fs = estimateStereo p fs := by
  obtain ⟨hN, hB, -⟩ := hl
  have hm : 0 ≤ p.s16ChannelMode ∧ p.s16ChannelMode ≤ 3 := by
    rcases hmode with h | h <;> rw [h]
    · exact hP.2
    · exact hP.1
  have hcand : bitpoolCandidate P p fs = estimateStereo p fs := by
    rw [bitpoolCandidate_stereo P p fs hmode, if_neg (by omega)]
  -- the first estimate
  have hfspos : (0 : Int) < (fs : Nat) := by omega
  have hfs16 : (16000 : Int) ≤ (fs : Nat) := by omega
  have hNpos : 0 < p.s16NumOfSubBands := by omega
  have hBpos : 0 < p.s16NumOfBlocks := by omega
  have ha1 : 0 ≤ (p.u16BitRate : Int) * p.s16NumOfSubBands * 1000 ∧
      (p.u16BitRate : Int) * p.s16NumOfSubBands * 1000 ≤ 524280000 := by
    rcases hN with h | h <;> rw [h] <;> constructor <;> omega
  have hCb : 56 ≤ 32 + 4 * p.s16NumOfSubBands * p.s16NumOfChannels
        + (p.s16ChannelMode - 2) * p.s16NumOfSubBands ∧
      32 + 4 * p.s16NumOfSubBands * p.s16NumOfChannels
        + (p.s16ChannelMode - 2) * p.s16NumOfSubBands ≤ 104 := by
    have : p.s16ChannelMode = 0 ∨ p.s16ChannelMode = 1 ∨ p.s16ChannelMode = 2 ∨
      p.s16ChannelMode = 3 := by omega
    rw [hC]
    rcases hN with h | h <;> rcases this with h' | h' | h' | h' <;> rw [h, h'] <;> decide
  have hc1 : 0 ≤ Int.tdiv (toInt32 (32 + 4 * p.s16NumOfSubBands * p.s16NumOfChannels
        + (p.s16ChannelMode - 2) * p.s16NumOfSubBands)) p.s16NumOfBlocks ∧
      Int.tdiv (toInt32 (32 + 4 * p.s16NumOfSubBands * p.s16NumOfChannels
        + (p.s16ChannelMode - 2) * p.s16NumOfSubBands)) p.s16NumOfBlocks ≤ 104 := by
    rw [toInt32_of_small _ (by omega) (by omega)]
    have := tdiv_bounds _ p.s16NumOfBlocks (le_trans (by decide) hCb.1) hBpos
    exact ⟨this.1, le_trans this.2 hCb.2⟩
  have hq1e : Int.tdiv ((p.u16BitRate : Int) * p.s16NumOfSubBands * 1000) (fs : Nat) =
      ((p.u16BitRate : Int) * p.s16NumOfSubBands * 1000) / (fs : Nat) :=
    Int.tdiv_eq_ediv ha1.1 (le_of_lt hfspos)
  have hq0 : 0 ≤ ((p.u16BitRate : Int) * p.s16NumOfSubBands * 1000) / (fs : Nat) :=
    Int.ediv_nonneg ha1.1 (le_of_lt hfspos)
  have hq1 : ((p.u16BitRate : Int) * p.s16NumOfSubBands * 1000) / (fs : Nat) * (fs : Nat) ≤
      (p.u16BitRate : Int) * p.s16NumOfSubBands * 1000 := Int.ediv_mul_le _ (ne_of_gt hfspos)
  have hq2 : ((p.u16BitRate : Int) * p.s16NumOfSubBands * 1000) / (fs : Nat) ≤ 32767 := by
    by_contra hcon
    have h3 : (32768 : Int) ≤
        ((p.u16BitRate : Int) * p.s16NumOfSubBands * 1000) / (fs : Nat) := by omega
    have h4 : (32768 : Int) * 16000 ≤
        ((p.u16BitRate : Int) * p.s16NumOfSubBands * 1000) / (fs : Nat) * (fs : Nat) :=
      mul_le_mul h3 hfs16 (by decide) hq0
    omega
  -- shape of the result
  have key : ∀ b : Int, 0 ≤ b → b ≤ 255 →
      (stereoBitRate p fs b ≤ (p.u16BitRate : Int)) →
      (8 * (4 + Int.tdiv (4 * p.s16NumOfSubBands * p.s16NumOfChannels) 8
            + Int.tdiv ((p.s16ChannelMode - 2) * p.s16NumOfSubBands
                + p.s16NumOfBlocks * b) 8) * fs)
          / (p.s16NumOfSubBands * p.s16NumOfBlocks * 1000) ≤ (p.u16BitRate : Int) ∧
      stereoFrameLen p b =
        4 + Int.tdiv (4 * p.s16NumOfSubBands * p.s16NumOfChannels) 8
          + Int.tdiv ((p.s16ChannelMode - 2) * p.s16NumOfSubBands
              + p.s16NumOfBlocks * b) 8 ∧
      stereoBitRate p fs b =
        (8 * stereoFrameLen p b * fs) / (p.s16NumOfSubBands * p.s16NumOfBlocks * 1000) := by
    intro b hb0 hb1 hle
    obtain ⟨hF, -, -, -⟩ := stereoFrameLen_exact p b hm hN hB hC hb0 hb1
    obtain ⟨hR, -⟩ := stereoBitRate_exact p fs b hm hN hB hC hfs hb0 hb1
    refine ⟨?_, hF, hR⟩
    rw [← hF, ← hR]
    exact hle
  have step : ∀ b : Int, 0 ≤ b → b ≤ 255 →
      b + 1 + Int.tdiv (toInt32 (32 + 4 * p.s16NumOfSubBands * p.s16NumOfChannels
          + (p.s16ChannelMode - 2) * p.s16NumOfSubBands)) p.s16NumOfBlocks ≤
        ((p.u16BitRate : Int) * p.s16NumOfSubBands * 1000) / (fs : Nat) →
      stereoBitRate p fs b ≤ (p.u16BitRate : Int) := by
    intro b hb0 hb1 hle
    have hK := stereo_rate_step p fs b hm hN hB hC hfs hb0 hb1
    have h5 := mul_le_mul_of_nonneg_right hle (le_of_lt hfspos)
    have h6 : stereoBitRate p fs b * (p.s16NumOfSubBands * 1000) ≤
        (p.u16BitRate : Int) * (p.s16NumOfSubBands * 1000) := by
      calc stereoBitRate p fs b * (p.s16NumOfSubBands * 1000)
          ≤ _ := hK
        _ ≤ _ := h5
        _ ≤ (p.u16BitRate : Int) * p.s16NumOfSubBands * 1000 := hq1
        _ = (p.u16BitRate : Int) * (p.s16NumOfSubBands * 1000) := by ring
    exact le_of_mul_le_mul_right h6 (by omega)
  suffices h : (8 * (4 + Int.tdiv (4 * p.s16NumOfSubBands * p.s16NumOfChannels) 8
          + Int.tdiv ((p.s16ChannelMode - 2) * p.s16NumOfSubBands
              + p.s16NumOfBlocks * estimateStereo p fs) 8) * fs)
        / (p.s16NumOfSubBands * p.s16NumOfBlocks * 1000) ≤ (p.u16BitRate : Int) ∧
      stereoFrameLen p (estimateStereo p fs) =
        4 + Int.tdiv (4 * p.s16NumOfSubBands * p.s16NumOfChannels) 8
          + Int.tdiv ((p.s16ChannelMode - 2) * p.s16NumOfSubBands
              + p.s16NumOfBlocks * estimateStereo p fs) 8 ∧
      stereoBitRate p fs (estimateStereo p fs) =
        (8 * stereoFrameLen p (estimateStereo p fs) * fs)
          / (p.s16NumOfSubBands * p.s16NumOfBlocks * 1000) from ⟨h.1, h.2.1, h.2.2, hcand⟩
  have hshape : (estimateStereo p fs ≤ 255 ∧
        stereoBitRate p fs (estimateStereo p fs) ≤ (p.u16BitRate : Int)) ∨
      (estimateStereo p fs ≤ 255 ∧
        estimateStereo p fs + 1 +
          Int.tdiv (toInt32 (32 + 4 * p.s16NumOfSubBands * p.s16NumOfChannels
            + (p.s16ChannelMode - 2) * p.s16NumOfSubBands)) p.s16NumOfBlocks ≤
          ((p.u16BitRate : Int) * p.s16NumOfSubBands * 1000) / (fs : Nat)) := by
    rw [estimateStereo_eq]
    dsimp only
    rw [toInt32_of_small ((p.u16BitRate : Int) * p.s16NumOfSubBands * 1000)
      (by omega) (by omega), hq1e]
    generalize ((p.u16BitRate : Int) * p.s16NumOfSubBands * 1000) / (fs : Nat) = q at *
    generalize Int.tdiv (toInt32 (32 + 4 * p.s16NumOfSubBands * p.s16NumOfChannels
            + (p.s16ChannelMode - 2) * p.s16NumOfSubBands)) p.s16NumOfBlocks = c at *
    rw [toInt32_of_small (q - c) (by omega) (by omega),
      toInt16_of_small (q - c) (by omega) (by omega),
      toInt16_of_small (q - c - 1) (by omega) (by omega)]
    by_cases hdec : stereoBitRate p fs (q - c) > (p.u16BitRate : Int)
    · simp only [if_pos hdec]
      right
      split_ifs <;> omega
    · simp only [if_neg hdec]
      by_cases h8 : p.s16NumOfSubBands = 8
      · simp only [if_pos h8]
        by_cases hcl : q - c > 255
        · simp only [if_pos hcl]
          right; omega
        · simp only [if_neg hcl]
          left; exact ⟨by omega, by omega⟩
      · simp only [if_neg h8]
        by_cases hcl : q - c > 128
        · simp only [if_pos hcl]
          right; omega
        · simp only [if_neg hcl]
          left; exact ⟨by omega, by omega⟩
  rcases hshape with ⟨hb1, hle⟩ | ⟨hb1, hle⟩
  · exact key _ hBP hb1 hle
  · exact key _ hBP hb1 (step _ hBP hb1 hle)

/-- The joint-stereo configuration at 44.1 kHz and 328 kbps: the pass leaves
bit pool 53, whose frame length is 119 bytes and whose rate is 327 kbps. -/
theorem stereo_estimate_rate_fits_witness :
    estimateStereo ⟨3, 8, 16, 0, 2, 2, 0, 328, 0⟩ 44100 = 53 ∧
    stereoFrameLen ⟨3, 8, 16, 0, 2, 2, 0, 328, 0⟩ 53 = 119 ∧
    (8 * (4 + Int.tdiv (4 * (8 : Int) * 2) 8
          + Int.tdiv ((3 - 2) * (8 : Int) + 16 * 53) 8) * (44100 : Nat)) / ((8 : Int) * 16 * 1000)
      = 327 ∧
    (8 * (4 + Int.tdiv (4 * (8 : Int) * 2) 8
          + Int.tdiv ((3 - 2) * (8 : Int) + 16 *
              estimateStereo ⟨3, 8, 16, 0, 2, 2, 0, 328, 0⟩ 44100) 8) * (44100 : Nat))
        / ((8 : Int) * 16 * 1000) ≤ ((328 : Nat) : Int) :=
  ⟨by decide, by decide, by decide,
   (stereo_estimate_rate_fits refPlatform (by decide) ⟨3, 8, 16, 0, 2, 2, 0, 328, 0⟩
      (by decide) (by decide) (by decide) (by decide) 44100 (by decide) (by decide)).1⟩


/-- With a residue left by a short read, the head of the slab is zero after
the next pass: the `memset` clears the bytes below `memsetSize`, and the read
stores from offset `aa_feed_residue` on. -/
theorem pcmBufferAfterRead_head (E : Callbacks) (pcm : Nat → Nat → Nat) (s : Session)
    (buf : Nat → Nat) (i : Nat) (h1 : i < memsetSize s.cb.sbc_encoder_params)
    (h2 : (i : Int) < s.cb.feeding_state.aa_feed_residue) :
    pcmBufferAfterRead E pcm s buf i = 0 := by
  unfold pcmBufferAfterRead fastReadPcm memsetPcmBuffer
  rw [if_neg (by omega), if_pos h1]

/-- C26, failing input: the configuration of `packetSession` (44100 Hz on
both sides, 512 bytes per slab, the `memset` clears 256 bytes) with a source
that delivers 100 bytes at its first read and the 412 missing bytes at the
second. The first `a2d_sbc_encode_frames` call underflows and keeps residue
100; the second call completes the frame and hands it to the codec. The slab
then starts with 100 zero bytes followed by the 412 bytes of the second read:
the 100 bytes of the first read are no longer in it. -/
theorem residue_cleared_before_encode :
    sbc_sampling refPlatform (packetSession 663).cb.sbc_encoder_params =
      (packetSession 663).cb.feeding_params.sampling_freq ∧
    bytes_needed (packetSession 663).cb = 512 ∧
    memsetSize (packetSession 663).cb.sbc_encoder_params = 256 ∧
    shortFirstReadCallbacks.read_callback 0 (fastReadSize (packetSession 663).cb) = 100 ∧
    (a2d_sbc_encode_frames refPlatform shortFirstReadCallbacks 1 (packetSession 663)).log =
      [PacketizerEvent.underflow] ∧
    (a2d_sbc_encode_frames refPlatform shortFirstReadCallbacks 1
      (packetSession 663)).cb.feeding_state.aa_feed_residue = 100 ∧
    shortFirstReadCallbacks.read_callback 1 (fastReadSize
      (a2d_sbc_encode_frames refPlatform shortFirstReadCallbacks 1 (packetSession 663)).cb)
        = 412 ∧
    (a2d_sbc_read_feeding refPlatform shortFirstReadCallbacks
      (a2d_sbc_encode_frames refPlatform shortFirstReadCallbacks 1 (packetSession 663))).1
        = true ∧
    (a2d_sbc_encode_frames refPlatform shortFirstReadCallbacks 1
      (a2d_sbc_encode_frames refPlatform shortFirstReadCallbacks 1 (packetSession 663))).log =
      [PacketizerEvent.underflow, PacketizerEvent.frame, PacketizerEvent.enqueue true] ∧
    pcmSlab (packetSession 663).cb
      (pcmBufferAfterRead shortFirstReadCallbacks nonZeroPcm
        (a2d_sbc_encode_frames refPlatform shortFirstReadCallbacks 1 (packetSession 663))
        (pcmBufferAfterRead shortFirstReadCallbacks nonZeroPcm (packetSession 663)
          (fun _ => 0))) =
      List.replicate 100 0 ++ (List.range 412).map (nonZeroPcm 1) ∧
    pcmSlab (packetSession 663).cb
      (pcmBufferAfterRead shortFirstReadCallbacks nonZeroPcm
        (a2d_sbc_encode_frames refPlatform shortFirstReadCallbacks 1 (packetSession 663))
        (pcmBufferAfterRead shortFirstReadCallbacks nonZeroPcm (packetSession 663)
          (fun _ => 0))) ≠
      (List.range 100).map (nonZeroPcm 0) ++ (List.range 412).map (nonZeroPcm 1) := by
  refine ⟨?_, ?_, ?_, ?_, ?_, ?_, ?_, ?_, ?_, ?_, ?_⟩ <;> decide!

end A2dSbc
